import Mathlib

/-!
Route assembly of the route controller.

A shallow embedding of `RouteController::calculateRouteInternal` and the functions it calls
(`src/route/routecontroller.cpp`), followed by theorems about the flight plan it leaves behind.

Conventions of the embedding:

* `int` is `ℤ`.  Signed overflow and a `float` to `int` conversion outside the range of `int`
  have no defined behaviour in the source and are outside the embedding.
* `float` is the set of rationals representable in IEEE-754 binary32; every floating point
  operation is the exact rational operation followed by `F32.round` (round to nearest, ties to
  even).  Overflow to infinity (magnitudes of `2 ^ 128` and more) cannot be reached from a 32-bit
  integer by the operations used here and is left out.
* Collaborators that are not part of the translated sources (the navigation database behind
  `MapQuery`, the geometry library, the route finder) are fields of `Env`.
* A `QList::first()` on an empty list and an iterator range outside the list have no defined
  result; the embedding returns `none` there.
* The cursor, the message box, the table model, the labels and the route map objects are views
  that do not write the flight plan; they are not part of the state.
-/

namespace F32

/-- Round a rational to the nearest integer, a tie going to the even neighbour. -/
def roundNearestEven (s : ℚ) : ℤ :=
  let f := ⌊s⌋
  if s - f < 1 / 2 then f
  else if 1 / 2 < s - f then f + 1
  else if f % 2 = 0 then f else f + 1

/-- Exponent of the unit in the last place of the binary32 number nearest to `q`: 24 significant
bits, the smallest exponent being the one of the subnormal numbers. -/
def ulpExp (q : ℚ) : ℤ := max (Int.log 2 |q| - 23) (-149)

/-- The binary32 value nearest to `q`. -/
def round (q : ℚ) : ℚ :=
  if q = 0 then 0 else (roundNearestEven (q / 2 ^ ulpExp q) : ℚ) * 2 ^ ulpExp q

/-- Conversion `int -> float`. -/
def ofInt (n : ℤ) : ℚ := round n

/-- Float subtraction. -/
def sub (a b : ℚ) : ℚ := round (a - b)

/-- Float addition. -/
def add (a b : ℚ) : ℚ := round (a + b)

/-- Float multiplication. -/
def mul (a b : ℚ) : ℚ := round (a * b)

/-- Float division. -/
def div (a b : ℚ) : ℚ := round (a / b)

/-- The function `std::ceil`: the result is an integer valued float. -/
def ceil (a : ℚ) : ℚ := (⌈a⌉ : ℤ)

/-- The conversion `static_cast<int>(float)`: truncation towards zero. -/
def toInt (a : ℚ) : ℤ := if 0 ≤ a then ⌊a⌋ else ⌈a⌉

end F32

/-- Geographic position `atools::geo::Pos`; the coordinates are only copied here. -/
structure Pos where
  lonX : ℚ
  latY : ℚ
  altitude : ℚ
  deriving DecidableEq, Repr

/-- The constant `atools::geo::EMPTY_POS`. -/
def EMPTY_POS : Pos := ⟨0, 0, 0⟩

namespace entry

/-- Waypoint type tag of a flight plan entry (`atools::fs::pln::entry::WaypointType`). -/
inductive WaypointType where
  | UNKNOWN | AIRPORT | INTERSECTION | VOR | NDB | USER
  deriving DecidableEq, Repr

end entry

/-- Route type of a flight plan (`atools::fs::pln::RouteType`). -/
inductive RouteType where
  | UNKNOWN_ROUTE | LOW_ALT | HIGH_ALT | VOR | DIRECT
  deriving DecidableEq, Repr

/-- Flight rules of a flight plan (`atools::fs::pln::FlightplanType`). -/
inductive FlightplanType where
  | IFR | VFR
  deriving DecidableEq, Repr

/-- One entry of a flight plan (`atools::fs::pln::FlightplanEntry`), with the fields the route
controller writes. -/
structure FlightplanEntry where
  waypointType : entry.WaypointType := entry.WaypointType.UNKNOWN
  waypointId : String := ""
  airway : String := ""
  icaoRegion : String := ""
  icaoIdent : String := ""
  position : Pos := EMPTY_POS
  deriving DecidableEq, Repr

/-- The flight plan (`atools::fs::pln::Flightplan`). -/
structure Flightplan where
  entries : List FlightplanEntry
  routeType : RouteType
  flightplanType : FlightplanType
  cruisingAlt : ℤ
  departurePos : Pos
  destinationPos : Pos
  departureAiportName : String := ""
  departureIdent : String := ""
  destinationAiportName : String := ""
  destinationIdent : String := ""
  deriving DecidableEq, Repr

namespace maptypes

/-- Map object type passed to `buildFlightplanEntry` (`maptypes::MapObjectTypes`); `OTHER`
stands for every value the function does not name. -/
inductive MapObjectTypes where
  | AIRPORT | PARKING | WAYPOINT | VOR | NDB | USER | OTHER
  deriving DecidableEq, Repr

/-- Airport record. -/
structure MapAirport where
  ident : String
  position : Pos
  deriving DecidableEq, Repr

/-- Waypoint record; `type` is the database string, `"VOR"` and `"NDB"` marking a waypoint that
sits on a radio navaid. -/
structure MapWaypoint where
  id : ℤ
  ident : String
  region : String
  type : String
  position : Pos
  deriving DecidableEq, Repr

/-- VOR record. -/
structure MapVor where
  ident : String
  region : String
  position : Pos
  deriving DecidableEq, Repr

/-- NDB record. -/
structure MapNdb where
  ident : String
  region : String
  position : Pos
  deriving DecidableEq, Repr

/-- Airway record with the fields read by `updateFlightplanEntryAirway`. -/
structure MapAirway where
  name : String
  minalt : ℤ
  deriving DecidableEq, Repr

/-- Result lists filled by `MapQuery::getMapObjectById`. -/
structure MapSearchResult where
  airports : List MapAirport := []
  waypoints : List MapWaypoint := []
  vors : List MapVor := []
  ndbs : List MapNdb := []

end maptypes

namespace rf

/-- Reference to a map object: database id and type. -/
structure MapObjectRef where
  id : ℤ
  type : maptypes.MapObjectTypes
  deriving DecidableEq, Repr

/-- One element of the path returned by the route finder; `airwayId = -1` means that the
element was not reached on an airway. -/
structure RouteEntry where
  ref : MapObjectRef
  airwayId : ℤ
  deriving DecidableEq, Repr

end rf

namespace nw

/-- Mode mask of a route network (`nw::Modes`): one flag per bit, `|` is the flagwise or. -/
structure Modes where
  vor : Bool := false
  vordme : Bool := false
  ndb : Bool := false
  victor : Bool := false
  jet : Bool := false
  deriving DecidableEq, Repr

/-- Bitwise or of two mode masks. -/
def Modes.or (a b : Modes) : Modes :=
  ⟨a.vor || b.vor, a.vordme || b.vordme, a.ndb || b.ndb, a.victor || b.victor, a.jet || b.jet⟩

instance : OrOp Modes := ⟨Modes.or⟩

/-- Flag `nw::ROUTE_VOR`. -/
def ROUTE_VOR : Modes := { vor := true }

/-- Flag `nw::ROUTE_VORDME`. -/
def ROUTE_VORDME : Modes := { vordme := true }

/-- Flag `nw::ROUTE_NDB`. -/
def ROUTE_NDB : Modes := { ndb := true }

/-- Flag `nw::ROUTE_VICTOR`. -/
def ROUTE_VICTOR : Modes := { victor := true }

/-- Flag `nw::ROUTE_JET`. -/
def ROUTE_JET : Modes := { jet := true }

end nw

/-- A route network as far as the controller touches it: the mode mask. -/
structure RouteNetwork where
  mode : nw.Modes
  deriving DecidableEq, Repr

/-- The call `RouteNetwork::setMode`. -/
def RouteNetwork.setMode (_n : RouteNetwork) (m : nw.Modes) : RouteNetwork := ⟨m⟩

/-- A route finder holds the network it searches (`RouteFinder routeFinder(network)`). -/
structure RouteFinder where
  network : RouteNetwork
  deriving DecidableEq, Repr

/-- The database interface `MapQuery` with the four queries used by route assembly. -/
structure MapQuery where
  getMapObjectById : maptypes.MapObjectTypes → ℤ → maptypes.MapSearchResult
  getAirwayById : ℤ → maptypes.MapAirway
  getVorForWaypoint : ℤ → maptypes.MapVor
  getNdbForWaypoint : ℤ → maptypes.MapNdb

/-- Collaborators of the route controller outside the translated sources: the database, the
rhumb line bearing `Pos::angleDegToRhumb` (degrees, a float) and the search
`RouteFinder::calculateRoute`, which reads the network of the finder and answers with the found
flag and the calculated route. -/
structure Env where
  query : MapQuery
  angleDegToRhumb : Pos → Pos → ℚ
  calculateRoute : RouteNetwork → Pos → Pos → ℤ → Bool × List rf.RouteEntry

/-- An undo command (`RouteCommand`): the flight plan before and after the change. -/
structure RouteCommand where
  text : String
  flightplanBefore : Flightplan
  flightplanAfter : Flightplan
  deriving DecidableEq, Repr

/-- The state of `RouteController` that route calculation reads or writes.  The route map
objects, the table model and the labels are views rebuilt from the flight plan and are not
part of the embedding. -/
structure RouteController where
  flightplan : Flightplan
  undoIndex : ℤ
  undoIndexClean : ℤ
  undoStack : List RouteCommand
  routeNetworkRadio : RouteNetwork
  routeNetworkAirway : RouteNetwork
  curUserpointNumber : ℤ
  deriving DecidableEq, Repr

namespace QList

/-- The call `QList::erase(begin() + first, begin() + last)`: removes the elements at the
indices `first ≤ i < last`.  A range that is not inside the list has no defined result. -/
def erase {α : Type} (l : List α) (first last : ℤ) : Option (List α) :=
  if 0 ≤ first ∧ first ≤ last ∧ last ≤ l.length then
    some (l.take first.toNat ++ l.drop last.toNat)
  else none

/-- The call `QList::insert(begin() + before, value)`: inserts in front of the element at index
`before`.  A position that is not inside the list has no defined result. -/
def insert {α : Type} (l : List α) (before : ℤ) (value : α) : Option (List α) :=
  if 0 ≤ before ∧ before ≤ l.length then
    some (l.take before.toNat ++ value :: l.drop before.toNat)
  else none

end QList

namespace RouteController

open maptypes

/-- The function `RouteController::updateFlightplanEntryAirway`: writes the airway name into the
entry and the minimum altitude of the airway into the out-parameter. -/
def updateFlightplanEntryAirway (query : MapQuery) (airwayId : ℤ) (entry : FlightplanEntry)
    (_minAltitude : ℤ) : FlightplanEntry × ℤ :=
  let airway := query.getAirwayById airwayId
  ({ entry with airway := airway.name }, airway.minalt)

/-- The function `RouteController::buildFlightplanEntry(id, userPos, type, entry,
resolveWaypoints)`. -/
def buildFlightplanEntry (query : MapQuery) (curUserpointNumber : ℤ) (id : ℤ) (userPos : Pos)
    (type : MapObjectTypes) (entry : FlightplanEntry) (resolveWaypoints : Bool) :
    Option FlightplanEntry :=
  let result := query.getMapObjectById type id
  if type = MapObjectTypes.AIRPORT then
    match result.airports.head? with
    | none => none
    | some ap =>
      let entry := { entry with icaoIdent := ap.ident }
      let entry := { entry with position := ap.position }
      let entry := { entry with waypointType := .AIRPORT }
      some { entry with waypointId := entry.icaoIdent }
  else if type = MapObjectTypes.PARKING then
    some entry
  else if type = MapObjectTypes.WAYPOINT then
    match result.waypoints.head? with
    | none => none
    | some wp =>
      if resolveWaypoints && wp.type == "VOR" then
        let vor := query.getVorForWaypoint wp.id
        let entry := { entry with icaoIdent := vor.ident }
        let entry := { entry with position := vor.position }
        let entry := { entry with icaoRegion := vor.region }
        let entry := { entry with waypointType := .VOR }
        some { entry with waypointId := entry.icaoIdent }
      else if resolveWaypoints && wp.type == "NDB" then
        let ndb := query.getNdbForWaypoint wp.id
        let entry := { entry with icaoIdent := ndb.ident }
        let entry := { entry with position := ndb.position }
        let entry := { entry with icaoRegion := ndb.region }
        let entry := { entry with waypointType := .NDB }
        some { entry with waypointId := entry.icaoIdent }
      else
        let entry := { entry with icaoIdent := wp.ident }
        let entry := { entry with position := wp.position }
        let entry := { entry with icaoRegion := wp.region }
        let entry := { entry with waypointType := .INTERSECTION }
        some { entry with waypointId := entry.icaoIdent }
  else if type = MapObjectTypes.VOR then
    match result.vors.head? with
    | none => none
    | some vor =>
      let entry := { entry with icaoIdent := vor.ident }
      let entry := { entry with position := vor.position }
      let entry := { entry with icaoRegion := vor.region }
      let entry := { entry with waypointType := .VOR }
      some { entry with waypointId := entry.icaoIdent }
  else if type = MapObjectTypes.NDB then
    match result.ndbs.head? with
    | none => none
    | some ndb =>
      let entry := { entry with icaoIdent := ndb.ident }
      let entry := { entry with position := ndb.position }
      let entry := { entry with icaoRegion := ndb.region }
      let entry := { entry with waypointType := .NDB }
      some { entry with waypointId := entry.icaoIdent }
  else if type = MapObjectTypes.USER then
    let entry := { entry with position := userPos }
    let entry := { entry with waypointType := .USER }
    let entry := { entry with icaoIdent := "" }
    some { entry with waypointId := "WP" ++ toString curUserpointNumber }
  else
    some entry

/-- Body of the loop over the calculated route in `calculateRouteInternal`, up to the insertion:
the flight plan entry of one route entry and the running maximum of the airway altitudes. -/
def routeEntryStep (query : MapQuery) (curUserpointNumber : ℤ) (fetchAirways : Bool)
    (routeEntry : rf.RouteEntry) (minAltitude : ℤ) : Option (FlightplanEntry × ℤ) :=
  match buildFlightplanEntry query curUserpointNumber routeEntry.ref.id EMPTY_POS
      routeEntry.ref.type {} fetchAirways with
  | none => none
  | some flightplanEentry =>
    if fetchAirways && routeEntry.airwayId != -1 then
      let r := updateFlightplanEntryAirway query routeEntry.airwayId flightplanEentry 0
      some (r.1, max minAltitude r.2)
    else
      some (flightplanEentry, minAltitude)

/-- The loop `for(const rf::RouteEntry& routeEntry : calculatedRoute)` of
`calculateRouteInternal`: every entry is inserted in front of the last element. -/
def routeLoop (query : MapQuery) (curUserpointNumber : ℤ) (fetchAirways : Bool) :
    List rf.RouteEntry → List FlightplanEntry → ℤ → Option (List FlightplanEntry × ℤ)
  | [], entries, minAltitude => some (entries, minAltitude)
  | routeEntry :: rest, entries, minAltitude =>
    match routeEntryStep query curUserpointNumber fetchAirways routeEntry minAltitude with
    | none => none
    | some (flightplanEentry, minAltitude) =>
      match QList.insert entries ((entries.length : ℤ) - 1) flightplanEentry with
      | none => none
      | some entries => routeLoop query curUserpointNumber fetchAirways rest entries minAltitude

/-- The easterly branch: `static_cast<int>(std::ceil((minAltitude - 1000.f) / 2000.f) * 2000.f +
1000.f)`. -/
def roundUpOdd (minAltitude : ℤ) : ℤ :=
  F32.toInt (F32.add (F32.mul (F32.ceil (F32.div (F32.sub (F32.ofInt minAltitude) 1000) 2000))
    2000) 1000)

/-- The westerly branch: `static_cast<int>(std::ceil(minAltitude / 2000.f) * 2000.f)`. -/
def roundUpEven (minAltitude : ℤ) : ℤ :=
  F32.toInt (F32.mul (F32.ceil (F32.div (F32.ofInt minAltitude) 2000)) 2000)

/-- The rounding of the collected minimum altitude to a cruise level in
`calculateRouteInternal`: the value handed to `setCruisingAlt`. -/
def roundedCruisingAlt (minAltitude : ℤ) (fpDir : ℚ) (flightplanType : FlightplanType) : ℤ :=
  let minAltitude :=
    if 0 ≤ fpDir ∧ fpDir ≤ 180 then roundUpOdd minAltitude else roundUpEven minAltitude
  if flightplanType = FlightplanType.VFR then minAltitude + 500 else minAltitude

/-- The block `if(minAltitude != 0 && !useSetAltitude)` of `calculateRouteInternal`. -/
def updateCruisingAlt (env : Env) (flightplan : Flightplan) (minAltitude : ℤ)
    (useSetAltitude : Bool) : Flightplan :=
  if minAltitude ≠ 0 ∧ useSetAltitude = false then
    let fpDir := env.angleDegToRhumb flightplan.departurePos flightplan.destinationPos
    { flightplan with
      cruisingAlt := roundedCruisingAlt minAltitude fpDir flightplan.flightplanType }
  else flightplan

/-- The function `RouteController::preChange`: a new undo command holding the current plan. -/
def preChange (self : RouteController) (text : String) : RouteCommand :=
  ⟨text, self.flightplan, self.flightplan⟩

/-- The function `RouteController::postChange`: completes the command, counts it and pushes it.
The push runs the first `redo` of the command, which does nothing. -/
def postChange (self : RouteController) (undoCommand : RouteCommand) : RouteController :=
  let undoCommand := { undoCommand with flightplanAfter := self.flightplan }
  { self with undoIndex := self.undoIndex + 1, undoStack := self.undoStack ++ [undoCommand] }

/-- The altitude argument of the search in `calculateRouteInternal`. -/
def searchAltitude (flightplan : Flightplan) (useSetAltitude : Bool) : ℤ :=
  if useSetAltitude then flightplan.cruisingAlt else 0

/-- The function `RouteController::calculateRouteInternal`. -/
def calculateRouteInternal (env : Env) (routeFinder : RouteFinder) (type : RouteType)
    (commandName : String) (fetchAirways useSetAltitude : Bool) (self : RouteController) :
    Option RouteController :=
  let flightplan := self.flightplan
  let altitude := searchAltitude flightplan useSetAltitude
  let (found, calculatedRoute) :=
    env.calculateRoute routeFinder.network flightplan.departurePos flightplan.destinationPos
      altitude
  if found then
    let undoCommand := preChange self commandName
    let flightplan := { flightplan with routeType := type }
    match QList.erase flightplan.entries 1 ((flightplan.entries.length : ℤ) - 1) with
    | none => none
    | some entries =>
      match routeLoop env.query self.curUserpointNumber fetchAirways calculatedRoute entries 0 with
      | none => none
      | some (entries, minAltitude) =>
        let flightplan := { flightplan with entries := entries }
        let flightplan := updateCruisingAlt env flightplan minAltitude useSetAltitude
        some (postChange { self with flightplan := flightplan } undoCommand)
  else
    some self

/-- The function `RouteController::calculateRadionav`. -/
def calculateRadionav (env : Env) (self : RouteController) : Option RouteController :=
  let self := { self with
    routeNetworkRadio :=
      self.routeNetworkRadio.setMode (nw.ROUTE_NDB ||| nw.ROUTE_VOR ||| nw.ROUTE_VORDME) }
  let routeFinder : RouteFinder := ⟨self.routeNetworkRadio⟩
  calculateRouteInternal env routeFinder RouteType.VOR "Radionnav route" false false self

/-- The function `RouteController::calculateHighAlt`. -/
def calculateHighAlt (env : Env) (self : RouteController) : Option RouteController :=
  let self := { self with routeNetworkAirway := self.routeNetworkAirway.setMode nw.ROUTE_JET }
  let routeFinder : RouteFinder := ⟨self.routeNetworkAirway⟩
  calculateRouteInternal env routeFinder RouteType.HIGH_ALT "High altitude route" true false self

/-- The function `RouteController::calculateLowAlt`. -/
def calculateLowAlt (env : Env) (self : RouteController) : Option RouteController :=
  let self := { self with routeNetworkAirway := self.routeNetworkAirway.setMode nw.ROUTE_VICTOR }
  let routeFinder : RouteFinder := ⟨self.routeNetworkAirway⟩
  calculateRouteInternal env routeFinder RouteType.LOW_ALT "Low altitude route" true false self

/-- The function `RouteController::calculateSetAlt`. -/
def calculateSetAlt (env : Env) (self : RouteController) : Option RouteController :=
  let self := { self with
    routeNetworkAirway := self.routeNetworkAirway.setMode (nw.ROUTE_VICTOR ||| nw.ROUTE_JET) }
  let routeFinder : RouteFinder := ⟨self.routeNetworkAirway⟩
  let type := if self.flightplan.cruisingAlt > 20000 then RouteType.HIGH_ALT
    else RouteType.LOW_ALT
  calculateRouteInternal env routeFinder type "Low altitude route" true true self

/-- The flight plan entry the loop of `calculateRouteInternal` inserts for one route entry. -/
def assembledEntry (query : MapQuery) (curUserpointNumber : ℤ) (fetchAirways : Bool)
    (routeEntry : rf.RouteEntry) : Option FlightplanEntry :=
  (routeEntryStep query curUserpointNumber fetchAirways routeEntry 0).map Prod.fst

/-- The running maximum `minAltitude` of the loop after one more route entry. -/
def airwayMax (query : MapQuery) (fetchAirways : Bool) (routeEntry : rf.RouteEntry)
    (minAltitude : ℤ) : ℤ :=
  if fetchAirways && routeEntry.airwayId != -1 then
    max minAltitude (query.getAirwayById routeEntry.airwayId).minalt
  else minAltitude

/-- The largest minimum altitude among the airways of the route entries whose `airwayId` is not
-1, and 0 when this is larger (the running maximum in the words of the specification). -/
def maxAirwayMinAltitude (query : MapQuery) (route : List rf.RouteEntry) : ℤ :=
  ((route.filter (fun re => re.airwayId != -1)).map
    (fun re => (query.getAirwayById re.airwayId).minalt)).foldr max 0

end RouteController

/-! Sample data.

A small database and controller on which the statements below are instantiated. -/

namespace Sample

/-- A database with one record per id; waypoint 1 sits on a VOR, waypoint 2 on an NDB, and the
airway with id `n` has the minimum altitude `n`. -/
def query : MapQuery where
  getMapObjectById := fun _ id =>
    { airports := [⟨"EDDF", ⟨8, 50, 364⟩⟩]
      waypoints := [⟨id, "WPT", "ED", if id = 1 then "VOR" else if id = 2 then "NDB" else "WN",
        ⟨9, 49, 0⟩⟩]
      vors := [⟨"FFM", "ED", ⟨8, 50, 0⟩⟩]
      ndbs := [⟨"CHA", "ED", ⟨8, 49, 0⟩⟩] }
  getAirwayById := fun id => ⟨"UL607", id⟩
  getVorForWaypoint := fun _ => ⟨"KRH", "ED", ⟨8, 48, 0⟩⟩
  getNdbForWaypoint := fun _ => ⟨"LBU", "ED", ⟨9, 48, 0⟩⟩

/-- An environment with a fixed bearing and a finder that answers with a fixed result. -/
def env (fpDir : ℚ) (found : Bool) (route : List rf.RouteEntry) : Env where
  query := query
  angleDegToRhumb := fun _ _ => fpDir
  calculateRoute := fun _ _ _ _ => (found, route)

/-- A route of three waypoints, the second and third reached on airways with the given ids. -/
def route (airwayA airwayB : ℤ) : List rf.RouteEntry :=
  [⟨⟨1, maptypes.MapObjectTypes.WAYPOINT⟩, -1⟩, ⟨⟨2, maptypes.MapObjectTypes.WAYPOINT⟩, airwayA⟩,
    ⟨⟨3, maptypes.MapObjectTypes.VOR⟩, airwayB⟩]

/-- A flight plan from one airport to another with one intermediate entry. -/
def flightplan (flightplanType : FlightplanType) (cruisingAlt : ℤ) : Flightplan where
  entries := [{ icaoIdent := "EDDF", waypointType := entry.WaypointType.AIRPORT },
    { icaoIdent := "OLD" }, { icaoIdent := "LIRF", waypointType := entry.WaypointType.AIRPORT }]
  routeType := RouteType.DIRECT
  flightplanType := flightplanType
  cruisingAlt := cruisingAlt
  departurePos := ⟨8, 50, 364⟩
  destinationPos := ⟨12, 41, 14⟩

/-- A controller holding the sample flight plan. -/
def controller (flightplanType : FlightplanType) (cruisingAlt : ℤ) : RouteController where
  flightplan := flightplan flightplanType cruisingAlt
  undoIndex := 3
  undoIndexClean := 3
  undoStack := []
  routeNetworkRadio := ⟨{}⟩
  routeNetworkAirway := ⟨{}⟩
  curUserpointNumber := 1

end Sample

/-! Map tools (`src/common/maptools.h`). -/

namespace maptools

/-- Geometry of `atools::geo::Pos` used by the map tools: the distance in meter between two
positions (a `float`) and the validity test of a position. -/
structure Geo where
  distanceMeterTo : Pos → Pos → ℚ
  isValid : Pos → Bool

/-- The constant `std::numeric_limits<float>::max()`, the largest binary32 value. -/
def FLT_MAX : ℚ := (2 ^ 24 - 1) * 2 ^ 104

/-- The function `maptools::removeFarthest`: the returned distance and the list after the call.
`TYPE closestType;` is the default constructed value of the element type. -/
def removeFarthest {TYPE : Type} [Inhabited TYPE] (geo : Geo) (getPosition : TYPE → Pos)
    (pos : Pos) (list : List TYPE) : ℚ × List TYPE :=
  let closestDist := FLT_MAX
  if list.isEmpty then (closestDist, list)
  else
    let r := list.foldl
      (fun (acc : TYPE × ℚ) entry =>
        let dist := geo.distanceMeterTo (getPosition entry) pos
        if dist < acc.2 then (entry, dist) else acc)
      ((default : TYPE), closestDist)
    (r.2, [r.1])

/-- The overload `maptools::removeByDistance(list, pos, int maxDistanceMeter)`.  The comparison
of the `float` distance with the `int` bound converts the bound to `float`; the sentinel
`map::INVALID_INDEX_VALUE` is a constant of a header outside the translated sources. -/
def removeByDistanceInt {TYPE : Type} (geo : Geo) (getPosition : TYPE → Pos)
    (INVALID_INDEX_VALUE : ℤ) (list : List TYPE) (pos : Pos) (maxDistanceMeter : ℤ) :
    List TYPE :=
  if list.isEmpty ∨ geo.isValid pos = false ∨ ¬ (maxDistanceMeter < INVALID_INDEX_VALUE) then
    list
  else
    list.filter (fun type =>
      ! decide (geo.distanceMeterTo (getPosition type) pos > F32.ofInt maxDistanceMeter))

/-- The overload `maptools::removeByDistance(list, pos, float maxDistanceMeter)`; the sentinel
`map::INVALID_DISTANCE_VALUE` is a constant of a header outside the translated sources. -/
def removeByDistanceFloat {TYPE : Type} (geo : Geo) (getPosition : TYPE → Pos)
    (INVALID_DISTANCE_VALUE : ℚ) (list : List TYPE) (pos : Pos) (maxDistanceMeter : ℚ) :
    List TYPE :=
  if list.isEmpty ∨ geo.isValid pos = false ∨ ¬ (maxDistanceMeter < INVALID_DISTANCE_VALUE) then
    list
  else
    list.filter (fun type =>
      ! decide (geo.distanceMeterTo (getPosition type) pos > maxDistanceMeter))

/-- The class `CoordinateConverter` as used here: `wToS` answers whether the position is
visible and writes the screen coordinates. -/
structure CoordinateConverter where
  wToS : Pos → Bool × ℤ × ℤ

/-- The function `atools::geo::manhattanDistance` on screen coordinates. -/
def manhattanDistance (x1 y1 x2 y2 : ℤ) : ℤ := |x1 - x2| + |y1 - y2|

/-- The constant `maptools::MAX_LIST_ENTRIES`. -/
def MAX_LIST_ENTRIES : ℤ := 5

/-- The binary search of `std::lower_bound` on the index range `first ≤ i < first + len`:
`comp` is the comparison with the inserted value already applied. -/
def lowerBoundAux {TYPE : Type} (comp : TYPE → Bool) (list : List TYPE) : ℕ → ℕ → ℕ → ℕ
  | 0, first, _ => first
  | fuel + 1, first, len =>
    if len = 0 then first
    else
      let half := len / 2
      let middle := first + half
      match list[middle]? with
      | none => first
      | some m =>
        if comp m then lowerBoundAux comp list fuel (middle + 1) (len - half - 1)
        else lowerBoundAux comp list fuel first half

/-- The call `std::lower_bound(list.begin(), list.end(), value, comp)` as an index. -/
def lowerBound {TYPE : Type} (comp : TYPE → Bool) (list : List TYPE) : ℕ :=
  lowerBoundAux comp list list.length 0 list.length

/-- The Manhattan screen distance of an element to `(xs, ys)` as the comparison lambda of
`insertSortedByDistance` computes it. -/
def screenDistance {TYPE : Type} (conv : CoordinateConverter) (getPosition : TYPE → Pos)
    (xs ys : ℤ) (a : TYPE) : ℤ :=
  let r := conv.wToS (getPosition a)
  manhattanDistance r.2.1 r.2.2 xs ys

/-- The function `maptools::insertSortedByDistance`; `ids = none` is the null pointer. -/
def insertSortedByDistance {TYPE : Type} (conv : CoordinateConverter)
    (getPosition : TYPE → Pos) (getId : TYPE → ℤ) (list : List TYPE) (ids : Option (Finset ℤ))
    (xs ys : ℤ) (type : TYPE) : List TYPE × Option (Finset ℤ) :=
  if (list.length : ℤ) > MAX_LIST_ENTRIES then (list, ids)
  else
    let contains : Bool :=
      match ids with
      | none => false
      | some s => decide (getId type ∈ s)
    if ids.isNone || !contains then
      let it := lowerBound
        (fun a1 => decide (screenDistance conv getPosition xs ys a1
          < screenDistance conv getPosition xs ys type)) list
      let list := list.take it ++ type :: list.drop it
      match ids with
      | none => (list, ids)
      | some s => (list, some (insert (getId type) s))
    else (list, ids)

/-- The function `maptools::insertSorted`. -/
def insertSorted {TYPE : Type} (conv : CoordinateConverter) (getPosition : TYPE → Pos)
    (getId : TYPE → ℤ) (xs ys : ℤ) (list : List TYPE) (result : List TYPE)
    (ids : Option (Finset ℤ)) (maxDistance : ℤ) : List TYPE × Option (Finset ℤ) :=
  list.foldl
    (fun (acc : List TYPE × Option (Finset ℤ)) obj =>
      let r := conv.wToS (getPosition obj)
      if r.1 = true then
        if manhattanDistance r.2.1 r.2.2 xs ys < maxDistance then
          insertSortedByDistance conv getPosition getId acc.1 acc.2 xs ys obj
        else acc
      else acc)
    (result, ids)

/-- A sequence of calls of `insertSortedByDistance` on the same list and ids set; a call is
given by its `xs`, `ys` and the element. -/
def insertSortedByDistanceAll {TYPE : Type} (conv : CoordinateConverter)
    (getPosition : TYPE → Pos) (getId : TYPE → ℤ) (calls : List (ℤ × ℤ × TYPE))
    (start : List TYPE × Option (Finset ℤ)) : List TYPE × Option (Finset ℤ) :=
  calls.foldl
    (fun acc c => insertSortedByDistance conv getPosition getId acc.1 acc.2 c.1 c.2.1 c.2.2)
    start

end maptools

namespace Sample

/-- A map object with an id and a position; the default constructed object has the id -1. -/
structure MapObj where
  id : ℤ
  position : Pos
  deriving DecidableEq, Repr

instance : Inhabited MapObj := ⟨⟨-1, EMPTY_POS⟩⟩

/-- A geometry that measures the distance along the longitude axis; every position is valid. -/
def geoLon : maptools.Geo := ⟨fun a b => |a.lonX - b.lonX|, fun _ => true⟩

/-- The geometry seen from an invalid position: every distance is the invalid value, which is
the largest `float`. -/
def geoInvalid : maptools.Geo := ⟨fun _ _ => maptools.FLT_MAX, fun _ => false⟩

/-- A map object at the given longitude. -/
def objAt (id : ℤ) (lonX : ℚ) : MapObj := ⟨id, ⟨lonX, 0, 0⟩⟩

/-- A converter that shows every position at its truncated coordinates. -/
def conv : maptools.CoordinateConverter := ⟨fun p => (true, ⌊p.lonX⌋, ⌊p.latY⌋)⟩

end Sample

/-! Simulator connection (`src/connect/connectclient.cpp`). -/

namespace atools

/-- The class `atools::fs::weather::MetarResult`; the default constructed value is empty. -/
structure MetarResult where
  requestIdent : String := ""
  metarForStation : String := ""
  metarForNearest : String := ""
  metarForInterpolated : String := ""
  deriving DecidableEq, Repr

/-- The class `atools::fs::sc::WeatherRequest`. -/
structure WeatherRequest where
  station : String
  position : Pos
  deriving DecidableEq, Repr

/-- The class `atools::util::TimedCache` of the atools library with string keys: the entries
together with the answer of the clock at the time of the call, `true` for an entry that has
timed out. -/
structure TimedCache (V : Type) where
  entries : List (String × V × Bool)

namespace TimedCache

/-- The entry stored for a key. -/
def find? {V : Type} (c : TimedCache V) (key : String) : Option (V × Bool) :=
  (c.entries.find? (fun e => e.1 == key)).map (fun e => e.2)

/-- The method `containsNoTimeout`. -/
def containsNoTimeout {V : Type} (c : TimedCache V) (key : String) : Bool :=
  (c.find? key).isSome

/-- The method `valueNoTimeout`: the stored value, `none` being the null pointer. -/
def valueNoTimeout {V : Type} (c : TimedCache V) (key : String) : Option V :=
  (c.find? key).map (fun e => e.1)

/-- The method `isTimedOut`. -/
def isTimedOut {V : Type} (c : TimedCache V) (key : String) : Bool :=
  match c.find? key with
  | some e => e.2
  | none => true

/-- The method `contains`: an entry that has timed out is deleted and not reported. -/
def contains {V : Type} (c : TimedCache V) (key : String) : Bool × TimedCache V :=
  match c.find? key with
  | some e =>
    if e.2 then (false, ⟨c.entries.filter (fun x => !(x.1 == key))⟩) else (true, c)
  | none => (false, c)

end TimedCache

/-- The data reader thread as far as `requestWeather` touches it. -/
structure DataReaderThread where
  fsxHandler : Bool
  connected : Bool
  weatherRequest : Option WeatherRequest
  deriving DecidableEq, Repr

end atools

/-- The state of `ConnectClient` that `requestWeather` reads or writes.  `dataReader` is created
in the constructor and deleted in the destructor only; `socketOpen` is the value of
`socket != nullptr && socket->isOpen()`; `written` collects the weather requests written to the
socket. -/
structure ConnectClient where
  dataReader : atools.DataReaderThread
  socketOpen : Bool
  metarIdentCache : atools.TimedCache atools.MetarResult
  notAvailableStations : atools.TimedCache String
  outstandingReplies : Finset String
  queuedRequests : List atools.WeatherRequest
  queuedRequestIdents : Finset String
  written : List atools.WeatherRequest

namespace ConnectClient

/-- The function `ConnectClient::isConnected`. -/
def isConnected (self : ConnectClient) : Bool :=
  self.socketOpen || self.dataReader.connected

/-- The private overload `ConnectClient::requestWeather(const WeatherRequest&)`. -/
def requestWeatherRequest (self : ConnectClient) (weatherRequest : atools.WeatherRequest) :
    ConnectClient :=
  let self :=
    if self.dataReader.fsxHandler && self.dataReader.connected then
      { self with dataReader := { self.dataReader with weatherRequest := some weatherRequest } }
    else self
  if self.socketOpen && decide (self.outstandingReplies = ∅) then
    { self with
      written := self.written ++ [weatherRequest]
      outstandingReplies := insert weatherRequest.station self.outstandingReplies }
  else self

/-- The function `ConnectClient::requestWeather(station, pos, onlyStation)`: the returned result
and the client after the call. -/
def requestWeather (self : ConnectClient) (station : String) (pos : Pos) (onlyStation : Bool) :
    atools.MetarResult × ConnectClient :=
  let retval : atools.MetarResult := {}
  if !self.isConnected then (retval, self)
  else
    -- `onlyStation && notAvailableStations.contains(station)` with its short circuit
    let blacklisted : Bool × atools.TimedCache String :=
      if onlyStation then self.notAvailableStations.contains station
      else (false, self.notAvailableStations)
    let self := { self with notAvailableStations := blacklisted.2 }
    if blacklisted.1 then (retval, self)
    else
      let retval :=
        match self.metarIdentCache.valueNoTimeout station with
        | some result => result
        | none => retval
      if !decide (station ∈ self.queuedRequestIdents) then
        if !self.metarIdentCache.containsNoTimeout station
            || self.metarIdentCache.isTimedOut station then
          if self.socketOpen || (self.dataReader.fsxHandler && self.dataReader.connected) then
            let weatherRequest : atools.WeatherRequest := ⟨station, pos⟩
            if decide (self.outstandingReplies = ∅) then
              (retval, requestWeatherRequest self weatherRequest)
            else if !decide (weatherRequest.station ∈ self.outstandingReplies) then
              (retval,
                { self with
                  queuedRequests := self.queuedRequests ++ [weatherRequest]
                  queuedRequestIdents := insert station self.queuedRequestIdents })
            else (retval, self)
          else (retval, self)
        else (retval, self)
      else (retval, self)

end ConnectClient

/-! Default file name of the flight plan (`RouteController::getDefaultFilename`). -/

namespace QString

/-- One character under `QString::replace(QChar before, QChar after)`. -/
def replaceChar (before after c : Char) : Char := if c = before then after else c

/-- The call `QString::replace(QChar before, QChar after)`: every occurrence is replaced. -/
def replace (s : String) (before after : Char) : String :=
  ⟨s.data.map (replaceChar before after)⟩

end QString

namespace RouteController

/-- The characters `getDefaultFilename` replaces: backslash, slash, colon, apostrophe, the two
angle brackets, question mark and dollar sign. -/
def forbiddenChars : List Char :=
  [Char.ofNat 92, '/', ':', Char.ofNat 39, '<', '>', '?', '$']

/-- One character after the eight replacements of `getDefaultFilename`. -/
def cleanChar (c : Char) : Char :=
  QString.replaceChar '$' ' ' (QString.replaceChar '?' ' ' (QString.replaceChar '>' ' '
    (QString.replaceChar '<' ' ' (QString.replaceChar (Char.ofNat 39) ' '
      (QString.replaceChar ':' ' ' (QString.replaceChar '/' ' '
        (QString.replaceChar (Char.ofNat 92) ' ' c)))))))

/-- The eight `filename.replace(c, ' ')` calls at the end of `getDefaultFilename`. -/
def removeForbidden (filename : String) : String :=
  let filename := QString.replace filename (Char.ofNat 92) ' '
  let filename := QString.replace filename '/' ' '
  let filename := QString.replace filename ':' ' '
  let filename := QString.replace filename (Char.ofNat 39) ' '
  let filename := QString.replace filename '<' ' '
  let filename := QString.replace filename '>' ' '
  let filename := QString.replace filename '?' ' '
  QString.replace filename '$' ' '

/-- The function `RouteController::getDefaultFilename`; `first()` and `last()` of an empty entry
list have no defined result. -/
def getDefaultFilename (self : RouteController) : Option String :=
  let flightplan := self.flightplan
  let filename : String := ""
  let filename :=
    if flightplan.flightplanType = FlightplanType.IFR then "IFR "
    else if flightplan.flightplanType = FlightplanType.VFR then "VFR "
    else filename
  let departure : Option String :=
    if flightplan.departureAiportName.isEmpty then
      flightplan.entries.head?.map (fun e => e.icaoIdent)
    else some (flightplan.departureAiportName ++ " (" ++ flightplan.departureIdent ++ ")")
  match departure with
  | none => none
  | some departure =>
    let filename := filename ++ departure
    let filename := filename ++ " to "
    let destination : Option String :=
      if flightplan.destinationAiportName.isEmpty then
        flightplan.entries.getLast?.map (fun e => e.icaoIdent)
      else some (flightplan.destinationAiportName ++ " (" ++ flightplan.destinationIdent ++ ")")
    match destination with
    | none => none
    | some destination =>
      let filename := filename ++ destination
      let filename := filename ++ ".pln"
      some (removeForbidden filename)

end RouteController

/-! Elevation provider (`src/common/elevationprovider.cpp`). -/

namespace ElevationProvider

/-- The constant `ALTITUDE_LIMIT_METER`. -/
def ALTITUDE_LIMIT_METER : ℚ := 8800

/-- The constant `SAME_ONLINE_ELEVATION_EPSILON`. -/
def SAME_ONLINE_ELEVATION_EPSILON : ℚ := 1

/-- A point of the height profile (`Marble::GeoDataCoordinates`). -/
structure GeoDataCoordinates where
  longitude : ℚ
  latitude : ℚ
  altitude : ℚ
  deriving DecidableEq, Repr

/-- The class `atools::geo::Line`. -/
structure Line where
  pos1 : Pos
  pos2 : Pos
  deriving DecidableEq, Repr

/-- Collaborators of `ElevationProvider` outside the translated sources: validity of lines and
positions, the default constructed (invalid) position `Pos()`, the sentinels
`atools::fs::common::OCEAN` and `INVALID`, the GLOBE reader, which rewrites the elevation list,
the height profile of the Marble model, `Pos::toDeg` and `atools::almostEqual`. -/
structure Collaborators where
  lineIsValid : Line → Bool
  posIsValid : Pos → Bool
  invalidPos : Pos
  OCEAN : ℚ
  INVALID : ℚ
  globeGetElevations : List Pos → Line → ℚ → List Pos
  heightProfile : ℚ → ℚ → ℚ → ℚ → List GeoDataCoordinates
  toDeg : Pos → Pos
  almostEqual : ℚ → ℚ → ℚ → Bool

/-- The loop `while(temp.size() / divisor > 2000) divisor++;` started at `divisor`; the first
argument bounds the number of iterations. -/
def divisorLoop (size : ℕ) : ℕ → ℕ → ℕ
  | 0, divisor => divisor
  | fuel + 1, divisor =>
    if size / divisor > 2000 then divisorLoop size fuel (divisor + 1) else divisor

/-- The divisor `getElevations` computes for a height profile of `size` points; the loop leaves
after at most `size` increments. -/
def subsampleDivisor (size : ℕ) : ℕ := divisorLoop size size 1

/-- The points of the height profile that are not skipped by `if((i++ % divisor) != 0)
continue;`, the counter standing at `i` for the first point of the list. -/
def sampled (divisor : ℕ) : ℕ → List GeoDataCoordinates → List GeoDataCoordinates
  | _, [] => []
  | i, c :: rest =>
    if i % divisor ≠ 0 then sampled divisor (i + 1) rest
    else c :: sampled divisor (i + 1) rest

/-- State of the loop over the height profile: the counter `i`, `lastDropped` and the
elevations. -/
structure OnlineState where
  i : ℕ
  lastDropped : Pos
  elevations : List Pos

/-- One iteration of the loop `for(const GeoDataCoordinates& c : temp)` of `getElevations`. -/
def onlineStep (env : Collaborators) (divisor : ℕ) (st : OnlineState)
    (c : GeoDataCoordinates) : OnlineState :=
  if st.i % divisor ≠ 0 then { st with i := st.i + 1 }
  else
    let st := { st with i := st.i + 1 }
    let pos := env.toDeg ⟨c.longitude, c.latitude, c.altitude⟩
    match st.elevations.getLast? with
    | some last =>
      if env.almostEqual last.altitude pos.altitude SAME_ONLINE_ELEVATION_EPSILON then
        { st with lastDropped := pos }
      else if env.posIsValid st.lastDropped then
        { st with
          elevations := st.elevations ++ [st.lastDropped] ++ [pos]
          lastDropped := env.invalidPos }
      else { st with elevations := st.elevations ++ [pos] }
    | none => { st with elevations := st.elevations ++ [pos] }

/-- The function `ElevationProvider::getElevations`: the elevation list after the call.
`offline` is the value of `isGlobeOfflineProvider()`. -/
def getElevations (env : Collaborators) (offline : Bool) (elevations : List Pos) (line : Line)
    (sampleRadiusMeter : ℚ) : List Pos :=
  if !env.lineIsValid line then elevations
  else
    let elevations :=
      if offline then
        (env.globeGetElevations elevations line sampleRadiusMeter).map
          (fun pos =>
            let alt := pos.altitude
            if ¬ (alt > env.OCEAN ∧ alt < env.INVALID) then { pos with altitude := 0 }
            else pos)
      else
        let temp := env.heightProfile line.pos1.lonX line.pos1.latY line.pos2.lonX
          line.pos2.latY
        let divisor := subsampleDivisor temp.length
        let st := temp.foldl (onlineStep env divisor) ⟨0, env.invalidPos, elevations⟩
        if st.elevations.isEmpty then st.elevations ++ [line.pos1] ++ [line.pos2]
        else st.elevations
    elevations.map (fun pos => { pos with altitude := min pos.altitude ALTITUDE_LIMIT_METER })

end ElevationProvider

namespace Sample

/-- Collaborators of the elevation provider: every line is valid, a position is valid unless
its longitude is negative, the GLOBE reader appends an ocean point, a mountain and a point
above the limit, and the online profile has three points. -/
def elevation : ElevationProvider.Collaborators where
  lineIsValid := fun _ => true
  posIsValid := fun p => decide (0 ≤ p.lonX)
  invalidPos := ⟨-1, -1, 0⟩
  OCEAN := -500
  INVALID := 100000
  globeGetElevations := fun elevations line _ =>
    elevations ++ [⟨line.pos1.lonX, line.pos1.latY, -500⟩, ⟨line.pos2.lonX, line.pos2.latY, 4000⟩,
      ⟨line.pos2.lonX, line.pos2.latY, 8848⟩]
  heightProfile := fun x1 y1 x2 y2 => [⟨x1, y1, 100⟩, ⟨x1, y2, 100⟩, ⟨x2, y2, 9000⟩]
  toDeg := fun p => p
  almostEqual := fun a b eps => decide (|a - b| < eps)

end Sample

/-! Deleting legs (`RouteController::deleteLegs`, `RouteController::selectedRows`). -/

namespace QList

/-- The call `QList::removeAt(i)`: an index outside the list is ignored. -/
def removeAt {α : Type} (l : List α) (i : ℤ) : List α :=
  if 0 ≤ i ∧ i < l.length then l.eraseIdx i.toNat else l

end QList

namespace RouteController

/-- A range of selected rows (`QItemSelectionRange`) with its first and last row. -/
structure QItemSelectionRange where
  top : ℤ
  bottom : ℤ
  deriving DecidableEq, Repr

/-- The rows `rng.top(), ..., rng.bottom()` of the inner loop of `selectedRows`. -/
def rangeRows (rng : QItemSelectionRange) : List ℤ :=
  (List.range (rng.bottom - rng.top + 1).toNat).map (fun k => rng.top + (k : ℤ))

/-- The rows `selectedRows` collects from the selection before it sorts them. -/
def collectedRows (selection : List QItemSelectionRange) : List ℤ :=
  selection.flatMap rangeRows

/-- The function `RouteController::selectedRows`: the rows are appended to `rows`, sorted with
`std::sort` and, for `reverse`, reversed. -/
def selectedRows (selection : List QItemSelectionRange) (rows : List ℤ) (reverse : Bool) :
    List ℤ :=
  let rows := rows ++ collectedRows selection
  if !rows.isEmpty then
    let rows := rows.insertionSort (fun a b => a ≤ b)
    if reverse then rows.reverse else rows
  else rows

/-- The entry list of the flight plan after `RouteController::deleteLegs`: the loop
`for(int row : rows) entries.removeAt(row)` over the reversed selected rows. -/
def deleteLegsEntries (selection : List QItemSelectionRange) (entries : List FlightplanEntry) :
    List FlightplanEntry :=
  let rows := selectedRows selection [] true
  if !rows.isEmpty then rows.foldl QList.removeAt entries else entries

/-- The list without the elements at the indices in `rows`, the first element of the list
having the index `k`. -/
def withoutRowsFrom {α : Type} : ℕ → List α → List ℤ → List α
  | _, [], _ => []
  | k, x :: xs, rows =>
    if (k : ℤ) ∈ rows then withoutRowsFrom (k + 1) xs rows
    else x :: withoutRowsFrom (k + 1) xs rows

/-- The list without the elements at the indices in `rows`, in the original order. -/
def withoutRows {α : Type} (l : List α) (rows : List ℤ) : List α := withoutRowsFrom 0 l rows

end RouteController


namespace Sample

/-- Six flight plan entries named `A` to `F`. -/
def legs : List FlightplanEntry :=
  [{ icaoIdent := "A" }, { icaoIdent := "B" }, { icaoIdent := "C" }, { icaoIdent := "D" },
    { icaoIdent := "E" }, { icaoIdent := "F" }]

/-- A selection of the rows 3 to 4 and of the row 1. -/
def selection : List RouteController.QItemSelectionRange := [⟨3, 4⟩, ⟨1, 1⟩]

end Sample


/-! Airway records (`MapTypesFactory::fillAirwayOrTrack`). -/

namespace map

/-- Direction in which an airway segment may be flown (`map::MapAirwayDirection`). -/
inductive MapAirwayDirection where
  | DIR_BOTH | DIR_FORWARD | DIR_BACKWARD
  deriving DecidableEq, Repr

/-- Airway or track segment (`map::MapAirway`) with the integer fields and the direction that
`fillAirwayOrTrack` writes; names, positions and types are not part of the embedding. -/
structure MapAirway where
  id : ℤ
  airwayId : ℤ
  sequence : ℤ
  fromWaypointId : ℤ
  toWaypointId : ℤ
  direction : MapAirwayDirection
  minAltitude : ℤ
  maxAltitude : ℤ
  fragment : ℤ
  deriving DecidableEq, Repr

end map

namespace atools

/-- The function `atools::strToChar`: the first character of the string, the null character
for an empty string. -/
def strToChar (str : String) : Char := str.data.headD (Char.ofNat 0)

/-- A database row (`atools::sql::SqlRecord`) seen through the three calls used on it. -/
structure SqlRecord where
  contains : String → Bool
  valueInt : String → ℤ
  valueStr : String → String

end atools

namespace MapTypesFactory

/-- The function `MapTypesFactory::fillAirwayOrTrack` on the embedded fields.  A track is always
flown forward; an airway record with a direction column is forward only for `F`, backward only
for `B` and free in all other cases; without the column the direction is left as it was. -/
def fillAirwayOrTrack (record : atools.SqlRecord) (airway : map.MapAirway) (track : Bool) :
    map.MapAirway :=
  let airway := { airway with
    sequence := record.valueInt "sequence_no"
    fromWaypointId := record.valueInt "from_waypoint_id"
    toWaypointId := record.valueInt "to_waypoint_id" }
  if track then
    { airway with
      id := record.valueInt "track_id"
      fragment := record.valueInt "track_fragment_no"
      airwayId := record.valueInt "airway_id"
      direction := map.MapAirwayDirection.DIR_FORWARD
      minAltitude := record.valueInt "airway_minimum_altitude"
      maxAltitude :=
        if record.contains "airway_maximum_altitude" then
          record.valueInt "airway_maximum_altitude"
        else 99999 }
  else
    let airway := { airway with
      id := record.valueInt "airway_id"
      minAltitude := record.valueInt "minimum_altitude"
      maxAltitude :=
        if record.contains "maximum_altitude" ∧ record.valueInt "maximum_altitude" > 0 then
          record.valueInt "maximum_altitude"
        else 99999 }
    let airway :=
      if record.contains "direction" then
        let dir := atools.strToChar (record.valueStr "direction")
        if dir = 'F' then { airway with direction := map.MapAirwayDirection.DIR_FORWARD }
        else if dir = 'B' then { airway with direction := map.MapAirwayDirection.DIR_BACKWARD }
        else { airway with direction := map.MapAirwayDirection.DIR_BOTH }
      else airway
    { airway with fragment := record.valueInt "airway_fragment_no" }

end MapTypesFactory

/-! Route finder (`RouteFinder::calculateRoute`). -/

namespace rf

/-- Modelled from the spec: a node of the navigation graph with its unique id, its type and
its position. -/
structure Node where
  id : ℤ
  type : maptypes.MapObjectTypes
  position : Pos
  deriving DecidableEq, Repr

/-- Modelled from the spec: an edge connects two nodes and carries a traversal cost, the
airway identifier (`-1` without an airway), the direction constraint and the usable altitude
band. -/
structure Edge where
  fromId : ℤ
  toId : ℤ
  cost : ℚ
  airwayId : ℤ
  direction : map.MapAirwayDirection
  minAltitude : ℤ
  maxAltitude : ℤ
  deriving DecidableEq, Repr

/-- Modelled from the spec: the edge of the airway network for a stored airway segment. -/
def Edge.ofAirway (airway : map.MapAirway) (cost : ℚ) : Edge :=
  ⟨airway.fromWaypointId, airway.toWaypointId, cost, airway.id, airway.direction,
    airway.minAltitude, airway.maxAltitude⟩

/-- Modelled from the spec: the snapshot of a route network that one search reads: the nodes,
the edges in the order of the edge list, and the distance between two positions. -/
structure Network where
  nodes : List Node
  edges : List Edge
  distanceMeter : Pos → Pos → ℚ

/-- Modelled from the spec: the lookup of a node by its id. -/
def Network.findNode (net : Network) (id : ℤ) : Option Node :=
  net.nodes.find? (fun n => decide (n.id = id))

/-- Modelled from the spec: the node `a` is nearer to the position than `b`, the smaller id
deciding between two nodes at the same distance. -/
def Network.nearer (net : Network) (pos : Pos) (a b : Node) : Bool :=
  decide (net.distanceMeter a.position pos < net.distanceMeter b.position pos)
    || (decide (net.distanceMeter a.position pos = net.distanceMeter b.position pos)
      && decide (a.id < b.id))

/-- Modelled from the spec: the nearest node of the network, where the search enters or
leaves it; an empty network has none. -/
def Network.nearestNode (net : Network) (pos : Pos) : Option Node :=
  net.nodes.foldl
    (fun acc n =>
      match acc with
      | none => some n
      | some b => if net.nearer pos n b then some n else some b)
    none

/-- Modelled from the spec: the node reached over the edge from the node `u`, if the direction
constraint permits to leave `u` over this edge: from the first to the second node unless the
edge is backward only, from the second to the first node unless it is forward only. -/
def Edge.target (e : Edge) (u : ℤ) : Option ℤ :=
  if e.fromId = u ∧ e.direction ≠ map.MapAirwayDirection.DIR_BACKWARD then some e.toId
  else if e.toId = u ∧ e.direction ≠ map.MapAirwayDirection.DIR_FORWARD then some e.fromId
  else none

/-- Modelled from the spec: the altitude band of the edge is compatible with the requested
cruise altitude, where `0` requests none. -/
def Edge.altitudeOk (e : Edge) (altitude : ℤ) : Bool :=
  decide (altitude = 0) || (decide (e.minAltitude ≤ altitude) && decide (altitude ≤ e.maxAltitude))

/-- Modelled from the spec: the row of the cost table for an open node: the accumulated cost
and the route entries up to this node, the last one first. -/
structure Record where
  node : Node
  cost : ℚ
  path : List RouteEntry
  deriving DecidableEq, Repr

/-- Modelled from the spec: accumulated cost plus the straight distance that remains. -/
def Record.estimate (net : Network) (goal : Pos) (r : Record) : ℚ :=
  r.cost + net.distanceMeter r.node.position goal

/-- Modelled from the spec: the order of expansion: the smaller estimate first, then the
smaller accumulated cost, then the smaller node id. -/
def Record.before (net : Network) (goal : Pos) (a b : Record) : Bool :=
  decide (a.estimate net goal < b.estimate net goal)
    || (decide (a.estimate net goal = b.estimate net goal)
      && (decide (a.cost < b.cost) || (decide (a.cost = b.cost) && decide (a.node.id < b.node.id))))

/-- Modelled from the spec: the transient state of a search: the open nodes with their rows of
the cost table, and the closed nodes. -/
structure SearchState where
  opened : List Record
  closed : List ℤ
  deriving DecidableEq, Repr

/-- Modelled from the spec: the state in which a search starts: only the entry node is open,
at no cost, and no airway leads to it. -/
def SearchState.initial (start : Node) : SearchState :=
  ⟨[⟨start, 0, [⟨⟨start.id, start.type⟩, -1⟩]⟩], []⟩

/-- Modelled from the spec: one edge seen from the expanded node.  The edge is skipped if its
direction or its altitude band does not admit it, if it leads to an unknown node, or if it leads
to a closed node; it opens its target, or it lowers the cost of the open target. -/
def relax (net : Network) (altitude : ℤ) (cur : Record) (st : SearchState) (e : Edge) :
    SearchState :=
  match e.target cur.node.id with
  | none => st
  | some v =>
    if e.altitudeOk altitude then
      match net.findNode v with
      | none => st
      | some n =>
        if v ∈ st.closed then st
        else
          let cand : Record := ⟨n, cur.cost + e.cost, ⟨⟨n.id, n.type⟩, e.airwayId⟩ :: cur.path⟩
          match st.opened.find? (fun r => decide (r.node.id = v)) with
          | none => { st with opened := st.opened ++ [cand] }
          | some old =>
            if cand.cost < old.cost then
              { st with opened := st.opened.map (fun r => if r.node.id = v then cand else r) }
            else st
    else st

/-- Modelled from the spec: the expansion of an open node: it is closed, and the edges of the
network are relaxed in the order of the edge list. -/
def expand (net : Network) (altitude : ℤ) (st : SearchState) (cur : Record) : SearchState :=
  net.edges.foldl (relax net altitude cur)
    ⟨st.opened.filter (fun r => decide (r.node.id ≠ cur.node.id)), cur.node.id :: st.closed⟩

/-- Modelled from the spec: the open node that comes first in the order of expansion. -/
def best (net : Network) (goal : Pos) : List Record → Option Record
  | [] => none
  | r :: rs =>
    match best net goal rs with
    | none => some r
    | some b => if b.before net goal r then some b else some r

/-- Modelled from the spec: the search loop.  An empty frontier ends the search without a
route; when the exit node comes first, its route entries are the result; every other node is
expanded.  The number of rounds is bounded by the first argument. -/
def searchLoop (net : Network) (goal : Node) (altitude : ℤ) :
    ℕ → SearchState → Option (Bool × List RouteEntry)
  | 0, _ => none
  | fuel + 1, st =>
    match best net goal.position st.opened with
    | none => some (false, [])
    | some cur =>
      if cur.node.id = goal.id then some (true, cur.path.reverse)
      else searchLoop net goal altitude fuel (expand net altitude st cur)

/-- Modelled from the spec: no open node comes before the open node `cur` in the order of
expansion. -/
def IsBest (net : Network) (goal : Pos) (opened : List Record) (cur : Record) : Prop :=
  cur ∈ opened ∧ ∀ r ∈ opened, r.before net goal cur = false

/-- Modelled from the spec: the runs of a search that expands the open nodes in the order of
expansion, without any commitment to the way in which the next node is found. -/
inductive Search (net : Network) (goal : Node) (altitude : ℤ) :
    SearchState → Bool × List RouteEntry → Prop where
  | notFound (st : SearchState) : st.opened = [] → Search net goal altitude st (false, [])
  | found (st : SearchState) (cur : Record) : IsBest net goal.position st.opened cur →
      cur.node.id = goal.id → Search net goal altitude st (true, cur.path.reverse)
  | expand (st : SearchState) (cur : Record) (res : Bool × List RouteEntry) :
      IsBest net goal.position st.opened cur → cur.node.id ≠ goal.id →
      Search net goal altitude (expand net altitude st cur) res → Search net goal altitude st res

/-- Modelled from the spec: the results that `calculateRoute` may give for a network, two
positions and an altitude. -/
def Route (net : Network) (startPos endPos : Pos) (altitude : ℤ)
    (res : Bool × List RouteEntry) : Prop :=
  match net.nearestNode startPos, net.nearestNode endPos with
  | some start, some goal => Search net goal altitude (SearchState.initial start) res
  | _, _ => res = (false, [])

/-- Modelled from the spec: the step from the route entry `a` to the next route entry `b` uses
an edge of the network with the airway of `b`, in a direction that the edge permits. -/
def PermittedStep (net : Network) (a b : RouteEntry) : Prop :=
  ∃ e ∈ net.edges, e.airwayId = b.airwayId ∧
    ((e.fromId = a.ref.id ∧ e.toId = b.ref.id
        ∧ e.direction ≠ map.MapAirwayDirection.DIR_BACKWARD)
      ∨ (e.toId = a.ref.id ∧ e.fromId = b.ref.id
        ∧ e.direction ≠ map.MapAirwayDirection.DIR_FORWARD))

end rf

/-- Modelled from the spec: the operation `calculateRoute(startPos, endPos, outEntries,
cruiseAltitudeOrZero)`: the search runs from the node nearest to the start position to the node
nearest to the end position and answers with the found flag and the route entries; every round
but the last closes a node, so one round more than there are nodes is enough. -/
def RouteFinder.calculateRoute (net : rf.Network) (startPos endPos : Pos) (altitude : ℤ) :
    Option (Bool × List rf.RouteEntry) :=
  match net.nearestNode startPos, net.nearestNode endPos with
  | some start, some goal =>
    rf.searchLoop net goal altitude (net.nodes.length + 1) (rf.SearchState.initial start)
  | _, _ => some (false, [])

namespace Sample

/-- A row of the airway table with the given ids and direction column. -/
def airwayRecord (id fromId toId : ℤ) (direction : String) : atools.SqlRecord where
  contains := fun _ => true
  valueInt := fun name =>
    if name = "airway_id" then id
    else if name = "from_waypoint_id" then fromId
    else if name = "to_waypoint_id" then toId
    else 0
  valueStr := fun name => if name = "direction" then direction else ""

/-- An airway segment before it is filled. -/
def blankAirway : map.MapAirway := ⟨0, 0, 0, 0, 0, map.MapAirwayDirection.DIR_BOTH, 0, 0, 0⟩

/-- A network of three waypoints in a row: the airway 7 leads forward only from 1 to 2, the
airway 8 leads backward only from 3 to 2 as stored, so that it is flown from 2 to 3, and the
airway 9 is stored forward only from 3 to 1. -/
def network : rf.Network where
  nodes := [⟨1, maptypes.MapObjectTypes.WAYPOINT, ⟨0, 0, 0⟩⟩,
    ⟨2, maptypes.MapObjectTypes.WAYPOINT, ⟨1, 0, 0⟩⟩,
    ⟨3, maptypes.MapObjectTypes.WAYPOINT, ⟨2, 0, 0⟩⟩]
  edges := [rf.Edge.ofAirway
      (MapTypesFactory.fillAirwayOrTrack (airwayRecord 9 3 1 "F") blankAirway false) 1,
    rf.Edge.ofAirway
      (MapTypesFactory.fillAirwayOrTrack (airwayRecord 7 1 2 "F") blankAirway false) 1,
    rf.Edge.ofAirway
      (MapTypesFactory.fillAirwayOrTrack (airwayRecord 8 3 2 "B") blankAirway false) 1]
  distanceMeter := fun a b => |a.lonX - b.lonX|

/-- The route from the third to the second waypoint of the network: the airway 8 may not be
flown from 3 to 2, so the route leads over the first waypoint. -/
def routeEntries : List rf.RouteEntry :=
  [⟨⟨3, maptypes.MapObjectTypes.WAYPOINT⟩, -1⟩, ⟨⟨1, maptypes.MapObjectTypes.WAYPOINT⟩, 9⟩,
    ⟨⟨2, maptypes.MapObjectTypes.WAYPOINT⟩, 7⟩]

end Sample

namespace rf

/-- The route entries of a row of the cost table end at the node of the row, and every step
between two of them is a permitted step. -/
def Record.PathOk (net : Network) (r : Record) : Prop :=
  r.path.head?.map (fun x => x.ref.id) = some r.node.id
    ∧ r.path.Chain' (fun b a => PermittedStep net a b)

/-- Invariant of the search states: an open node has one row, is a node of the network and is
not closed, no node is closed twice, the closed nodes are nodes of the network, and the route
entries of every row are permitted steps. -/
structure SearchState.Valid (net : Network) (st : SearchState) : Prop where
  opened_nodup : (st.opened.map (fun r => r.node.id)).Nodup
  opened_not_closed : ∀ r ∈ st.opened, r.node.id ∉ st.closed
  opened_known : ∀ r ∈ st.opened, r.node.id ∈ net.nodes.map (fun n => n.id)
  closed_nodup : st.closed.Nodup
  closed_known : ∀ u ∈ st.closed, u ∈ net.nodes.map (fun n => n.id)
  opened_path : ∀ r ∈ st.opened, r.PathOk net

end rf

/-! Binary32 rounding. -/

namespace F32

theorem roundNearestEven_intCast (z : ℤ) : roundNearestEven (z : ℚ) = z := by
  simp [roundNearestEven]

theorem roundNearestEven_err (s : ℚ) : |(roundNearestEven s : ℚ) - s| ≤ 1 / 2 := by
  have h1 := Int.floor_le s
  have h2 := Int.lt_floor_add_one s
  unfold roundNearestEven
  simp only
  split_ifs with ha hb hc
  · rw [abs_le]; constructor <;> linarith
  · rw [abs_le]; push_cast; constructor <;> linarith
  · rw [abs_le]; constructor <;> linarith
  · rw [abs_le]; push_cast; constructor <;> linarith

theorem two_zpow_pos (e : ℤ) : (0 : ℚ) < 2 ^ e := zpow_pos (by norm_num) e

theorem ulpExp_le (q : ℚ) (j : ℤ) (hj : -149 ≤ j) (hq0 : q ≠ 0) (hq : |q| < 2 ^ (j + 24)) :
    ulpExp q ≤ j := by
  unfold ulpExp
  have hpos : 0 < |q| := abs_pos.2 hq0
  have hq' : |q| < ((2 : ℕ) : ℚ) ^ (j + 24) := by simpa using hq
  have : Int.log 2 |q| < j + 24 := (Int.lt_zpow_iff_log_lt (by norm_num) hpos).1 hq'
  omega

theorem round_of_scaled (q : ℚ) (z : ℤ) (h : q = z * 2 ^ ulpExp q) : round q = q := by
  unfold round
  split_ifs with h0
  · exact h0.symm
  · have hp := two_zpow_pos (ulpExp q)
    have : q / 2 ^ ulpExp q = z := by
      rw [div_eq_iff hp.ne']; exact h
    rw [this, roundNearestEven_intCast]; exact h.symm

/-- Every `z * 2 ^ e` with `|z| < 2 ^ 24` and `-149 ≤ e` is a binary32 value. -/
theorem round_exact (z e : ℤ) (hz : |z| < 2 ^ 24) (he : -149 ≤ e) :
    round (z * 2 ^ e) = z * 2 ^ e := by
  by_cases h0 : ((z : ℚ) * 2 ^ e) = 0
  · rw [h0]; simp [round]
  · have hle : ulpExp ((z : ℚ) * 2 ^ e) ≤ e := by
      apply ulpExp_le _ _ he h0
      have hz' : |(z : ℚ)| < 2 ^ (24 : ℤ) := by
        have : ((|z| : ℤ) : ℚ) < ((2 ^ 24 : ℤ) : ℚ) := by exact_mod_cast hz
        rw [Int.cast_abs] at this
        norm_num at this ⊢
        exact this
      rw [abs_mul, abs_of_pos (two_zpow_pos e), zpow_add₀ (by norm_num : (2 : ℚ) ≠ 0),
        mul_comm (2 ^ e : ℚ)]
      exact mul_lt_mul_of_pos_right hz' (two_zpow_pos e)
    obtain ⟨d, hd⟩ : ∃ d : ℕ, e = ulpExp ((z : ℚ) * 2 ^ e) + d :=
      ⟨(e - ulpExp ((z : ℚ) * 2 ^ e)).toNat, by omega⟩
    apply round_of_scaled _ (z * 2 ^ d)
    set u := ulpExp ((z : ℚ) * 2 ^ e) with hu
    rw [hd, zpow_add₀ (by norm_num : (2 : ℚ) ≠ 0)]
    push_cast
    rw [zpow_natCast]
    ring

theorem round_intCast (n : ℤ) (h : |n| < 2 ^ 24) : round n = n := by
  have := round_exact n 0 h (by norm_num)
  simpa using this

theorem round_err (q : ℚ) : |round q - q| ≤ 2 ^ ulpExp q / 2 := by
  unfold round
  split_ifs with h0
  · subst h0; simp; positivity
  · have hp := two_zpow_pos (ulpExp q)
    have h := roundNearestEven_err (q / 2 ^ ulpExp q)
    have hq : q = q / 2 ^ ulpExp q * 2 ^ ulpExp q := by field_simp
    have : (roundNearestEven (q / 2 ^ ulpExp q) : ℚ) * 2 ^ ulpExp q - q
        = ((roundNearestEven (q / 2 ^ ulpExp q) : ℚ) - q / 2 ^ ulpExp q) * 2 ^ ulpExp q := by
      field_simp
    rw [this, abs_mul, abs_of_pos hp]
    calc _ ≤ 1 / 2 * 2 ^ ulpExp q := mul_le_mul_of_nonneg_right h hp.le
      _ = _ := by ring


theorem round_div_err (x : ℤ) (hx : |x| ≤ 2 ^ 24) :
    |round ((x : ℚ) / 2000) - (x : ℚ) / 2000| ≤ 1 / 2048 := by
  by_cases h0 : (x : ℚ) / 2000 = 0
  · rw [h0]; simp [round]
  · have hx' : |(x : ℚ)| ≤ 16777216 := by
      have : ((|x| : ℤ) : ℚ) ≤ ((2 ^ 24 : ℤ) : ℚ) := by exact_mod_cast hx
      rw [Int.cast_abs] at this
      norm_num at this
      exact this
    have hq : |(x : ℚ) / 2000| < 2 ^ ((-10 : ℤ) + 24) := by
      rw [abs_div]
      norm_num
      rw [div_lt_iff₀ (by norm_num)]
      linarith
    have hu := ulpExp_le _ (-10) (by norm_num) h0 hq
    have hpow : (2 : ℚ) ^ ulpExp ((x : ℚ) / 2000) ≤ 2 ^ (-10 : ℤ) :=
      zpow_le_zpow_right₀ (by norm_num) hu
    have := round_err ((x : ℚ) / 2000)
    have h10 : (2 : ℚ) ^ (-10 : ℤ) = 1 / 1024 := by norm_num
    rw [h10] at hpow
    linarith

theorem ceil_round_div (x : ℤ) (hx : |x| ≤ 2 ^ 24) :
    ⌈round ((x : ℚ) / 2000)⌉ = ⌈(x : ℚ) / 2000⌉ := by
  have hdecomp : (x : ℚ) = 2000 * ((x / 2000 : ℤ) : ℚ) + ((x % 2000 : ℤ) : ℚ) := by
    have := Int.ediv_add_emod x 2000
    exact_mod_cast this.symm
  have hr0 : (0 : ℚ) ≤ ((x % 2000 : ℤ) : ℚ) := by
    exact_mod_cast Int.emod_nonneg x (by norm_num)
  have hr1 : ((x % 2000 : ℤ) : ℚ) ≤ 1999 := by
    have : x % 2000 < 2000 := Int.emod_lt_of_pos x (by norm_num)
    have : x % 2000 ≤ 1999 := by omega
    exact_mod_cast this
  by_cases hr : x % 2000 = 0
  · have hq : (x : ℚ) / 2000 = ((x / 2000 : ℤ) : ℚ) := by
      rw [hdecomp, hr]; simp
    have ht : |x / 2000| < 2 ^ 24 := by
      rw [abs_le] at hx
      rw [abs_lt]
      omega
    rw [hq, round_intCast _ ht]
  · have hr2 : (1 : ℚ) ≤ ((x % 2000 : ℤ) : ℚ) := by
      have := Int.emod_nonneg x (show (2000 : ℤ) ≠ 0 by norm_num)
      have : 1 ≤ x % 2000 := by omega
      exact_mod_cast this
    have herr := abs_le.1 (round_div_err x hx)
    have hq : (x : ℚ) / 2000 = ((x / 2000 : ℤ) : ℚ) + ((x % 2000 : ℤ) : ℚ) / 2000 := by
      rw [div_eq_iff (by norm_num)]
      -- keep the decomposition opaque on the right
      have := hdecomp
      field_simp
      linarith
    have h1 : ⌈(x : ℚ) / 2000⌉ = x / 2000 + 1 := by
      rw [Int.ceil_eq_iff]
      push_cast
      constructor
      · rw [hq]
        have : (0 : ℚ) < ((x % 2000 : ℤ) : ℚ) / 2000 := by positivity
        linarith
      · rw [hq]
        have : ((x % 2000 : ℤ) : ℚ) / 2000 ≤ 1999 / 2000 := by
          apply div_le_div_of_nonneg_right hr1 (by norm_num)
        linarith
    rw [h1, Int.ceil_eq_iff]
    push_cast
    have hlo : (1 : ℚ) / 2000 ≤ ((x % 2000 : ℤ) : ℚ) / 2000 :=
      div_le_div_of_nonneg_right hr2 (by norm_num)
    have hhi : ((x % 2000 : ℤ) : ℚ) / 2000 ≤ 1999 / 2000 :=
      div_le_div_of_nonneg_right hr1 (by norm_num)
    constructor
    · linarith [herr.1]
    · linarith [herr.2]

theorem toInt_intCast (z : ℤ) : toInt (z : ℚ) = z := by
  unfold toInt
  split_ifs <;> simp


theorem round_intCast_scaled (n k : ℤ) (j : ℕ) (hn : n = k * 2 ^ j) (hk : |k| < 2 ^ 24) :
    round (n : ℚ) = n := by
  have := round_exact k j hk (by omega)
  rw [zpow_natCast] at this
  have hc : (n : ℚ) = (k : ℚ) * 2 ^ j := by rw [hn]; push_cast; ring
  rw [hc]; exact this

theorem ceil_bounds (x : ℤ) :
    2000 * (⌈(x : ℚ) / 2000⌉ - 1) < x ∧ x ≤ 2000 * ⌈(x : ℚ) / 2000⌉ := by
  have h := (Int.ceil_eq_iff (a := (x : ℚ) / 2000) (z := ⌈(x : ℚ) / 2000⌉)).1 rfl
  obtain ⟨h1, h2⟩ := h
  rw [lt_div_iff₀ (by norm_num)] at h1
  rw [div_le_iff₀ (by norm_num)] at h2
  constructor
  · have : ((2000 * (⌈(x : ℚ) / 2000⌉ - 1) : ℤ) : ℚ) < (x : ℚ) := by push_cast; linarith
    exact_mod_cast this
  · have : (x : ℚ) ≤ ((2000 * ⌈(x : ℚ) / 2000⌉ : ℤ) : ℚ) := by push_cast; linarith
    exact_mod_cast this

/-- The easterly expression of `calculateRouteInternal` evaluated in binary32 agrees with exact
arithmetic for every altitude from 1 to `2 ^ 24` feet. -/
theorem east_chain (m : ℤ) (h0 : 0 < m) (h1 : m ≤ 2 ^ 24) :
    toInt (add (mul (ceil (div (sub (ofInt m) 1000) 2000)) 2000) 1000)
      = 2000 * ⌈((m : ℚ) - 1000) / 2000⌉ + 1000 := by
  have hm : ofInt m = m := by
    unfold ofInt
    rcases eq_or_lt_of_le h1 with h | h
    · exact round_intCast_scaled m (2 ^ 23) 1 (by rw [h]; norm_num) (by norm_num)
    · exact round_intCast m (by rw [abs_lt]; omega)
  have hs : sub (ofInt m) 1000 = ((m - 1000 : ℤ) : ℚ) := by
    unfold sub
    rw [hm]
    have := round_intCast (m - 1000) (by rw [abs_lt]; omega)
    push_cast at this ⊢
    exact this
  have hx : |m - 1000| ≤ 2 ^ 24 := by rw [abs_le]; omega
  have hc : ceil (div (sub (ofInt m) 1000) 2000) = (⌈((m : ℚ) - 1000) / 2000⌉ : ℤ) := by
    unfold ceil div
    rw [hs, ceil_round_div _ hx]
    push_cast
    rfl
  have hb := ceil_bounds (m - 1000)
  push_cast at hb
  set d := ⌈((m : ℚ) - 1000) / 2000⌉ with hd
  have hd0 : 0 ≤ d := by omega
  have hd1 : d ≤ 8389 := by omega
  have hmul : mul (ceil (div (sub (ofInt m) 1000) 2000)) 2000 = ((d * 2000 : ℤ) : ℚ) := by
    unfold mul
    rw [hc]
    have := round_intCast_scaled (d * 2000) (d * 125) 4 (by ring) (by rw [abs_lt]; omega)
    push_cast at this ⊢
    exact this
  have hadd : add (mul (ceil (div (sub (ofInt m) 1000) 2000)) 2000) 1000
      = ((2000 * d + 1000 : ℤ) : ℚ) := by
    unfold add
    rw [hmul]
    have := round_intCast_scaled (2000 * d + 1000) (250 * d + 125) 3 (by ring)
      (by rw [abs_lt]; omega)
    push_cast at this ⊢
    rw [mul_comm (d : ℚ) 2000]
    exact this
  rw [hadd, toInt_intCast]

/-- The westerly expression of `calculateRouteInternal` evaluated in binary32 agrees with exact
arithmetic for every altitude from 1 to `2 ^ 24` feet. -/
theorem west_chain (m : ℤ) (h0 : 0 < m) (h1 : m ≤ 2 ^ 24) :
    toInt (mul (ceil (div (ofInt m) 2000)) 2000) = 2000 * ⌈(m : ℚ) / 2000⌉ := by
  have hm : ofInt m = m := by
    unfold ofInt
    rcases eq_or_lt_of_le h1 with h | h
    · exact round_intCast_scaled m (2 ^ 23) 1 (by rw [h]; norm_num) (by norm_num)
    · exact round_intCast m (by rw [abs_lt]; omega)
  have hb := ceil_bounds m
  have hc : ceil (div (ofInt m) 2000) = (⌈(m : ℚ) / 2000⌉ : ℤ) := by
    unfold ceil div
    rw [hm]
    rw [ceil_round_div _ (by rw [abs_le]; omega)]
  set d := ⌈(m : ℚ) / 2000⌉ with hd
  have hd0 : 0 ≤ d := by omega
  have hd1 : d ≤ 8389 := by omega
  have hmul : mul (ceil (div (ofInt m) 2000)) 2000 = ((2000 * d : ℤ) : ℚ) := by
    unfold mul
    rw [hc]
    have := round_intCast_scaled (2000 * d) (d * 125) 4 (by ring) (by rw [abs_lt]; omega)
    push_cast at this ⊢
    rw [mul_comm (d : ℚ) 2000]
    exact this
  rw [hmul, toInt_intCast]


theorem log2_eq (q : ℚ) (k : ℤ) (h1 : 2 ^ k ≤ q) (h2 : q < 2 ^ (k + 1)) : Int.log 2 q = k := by
  have hpos : 0 < q := lt_of_lt_of_le (two_zpow_pos k) h1
  have h1' : ((2 : ℕ) : ℚ) ^ k ≤ q := by simpa using h1
  have h2' : q < ((2 : ℕ) : ℚ) ^ (k + 1) := by simpa using h2
  have a := (Int.zpow_le_iff_le_log (by norm_num) hpos).1 h1'
  have b := (Int.lt_zpow_iff_log_lt (by norm_num) hpos).1 h2'
  omega

theorem roundNearestEven_tie_even (f : ℤ) (hf : f % 2 = 0) :
    roundNearestEven ((f : ℚ) + 1 / 2) = f := by
  have hfl : ⌊(f : ℚ) + 1 / 2⌋ = f := by
    rw [Int.floor_eq_iff]; constructor <;> norm_num
  unfold roundNearestEven
  simp only [hfl]
  norm_num [hf]

theorem ofInt_16779001 : ofInt 16779001 = 16779000 := by
  have hu : ulpExp ((16779001 : ℤ) : ℚ) = 1 := by
    unfold ulpExp
    rw [log2_eq _ 24 (by norm_num) (by norm_num)]
    norm_num
  unfold ofInt round
  rw [hu]
  have : (((16779001 : ℤ) : ℚ)) / 2 ^ (1 : ℤ) = ((8389500 : ℤ) : ℚ) + 1 / 2 := by norm_num
  rw [this, roundNearestEven_tie_even _ (by norm_num)]
  norm_num

end F32

/-! Route assembly. -/

namespace QList

theorem insert_before_last {α : Type} (pre : List α) (last value : α) :
    insert (pre ++ [last]) (((pre ++ [last]).length : ℤ) - 1) value
      = some ((pre ++ [value]) ++ [last]) := by
  unfold insert
  have hlen : (((pre ++ [last]).length : ℤ) - 1) = (pre.length : ℤ) := by simp
  rw [hlen]
  simp

theorem getLast?_snoc {α : Type} (l : List α) (b : α) : (l ++ [b]).getLast? = some b := by
  simp

theorem getLast?_cons_snoc {α : Type} (a : α) (l : List α) (b : α) :
    (a :: (l ++ [b])).getLast? = some b := by
  have := getLast?_snoc (a :: l) b
  simpa using this

theorem exists_first_last {α : Type} (l : List α) (h : 2 ≤ l.length) :
    ∃ first mid last, l = first :: (mid ++ [last]) := by
  match l, h with
  | first :: second :: rest, _ =>
    have hne : second :: rest ≠ [] := by simp
    exact ⟨first, (second :: rest).dropLast, (second :: rest).getLast hne,
      by rw [List.dropLast_append_getLast]⟩

theorem erase_interior {α : Type} (first : α) (mid : List α) (last : α) :
    erase (first :: (mid ++ [last])) 1 (((first :: (mid ++ [last])).length : ℤ) - 1)
      = some ([first] ++ [last]) := by
  unfold erase
  have hl : (((first :: (mid ++ [last])).length : ℤ) - 1) = ((mid.length + 1 : ℕ) : ℤ) := by
    simp
  rw [hl, if_pos (by simp)]
  simp

end QList

namespace RouteController

theorem routeEntryStep_eq (query : MapQuery) (c : ℤ) (fa : Bool) (re : rf.RouteEntry) (m : ℤ) :
    routeEntryStep query c fa re m
      = (assembledEntry query c fa re).map (fun e => (e, airwayMax query fa re m)) := by
  unfold assembledEntry routeEntryStep airwayMax
  cases buildFlightplanEntry query c re.ref.id EMPTY_POS re.ref.type {} fa with
  | none => rfl
  | some e =>
    by_cases h : (fa && re.airwayId != -1) = true
    · simp [h, updateFlightplanEntryAirway]
    · simp [h]

theorem filterMap_getElem? {α β : Type} (f : α → Option β) :
    ∀ (r : List α) (i : ℕ), (∀ x ∈ r, (f x).isSome) →
      (r.filterMap f)[i]? = r[i]?.bind f
  | [], i, _ => by simp
  | x :: r, i, h => by
    obtain ⟨y, hy⟩ := Option.isSome_iff_exists.1 (h x (by simp))
    have ih := filterMap_getElem? f r
    rw [List.filterMap_cons_some hy]
    cases i with
    | zero => simp [hy]
    | succ i => simpa using ih i (fun z hz => h z (by simp [hz]))

theorem filterMap_length_of_isSome {α β : Type} (f : α → Option β) :
    ∀ (r : List α), (∀ x ∈ r, (f x).isSome) → (r.filterMap f).length = r.length
  | [], _ => by simp
  | x :: r, h => by
    obtain ⟨y, hy⟩ := Option.isSome_iff_exists.1 (h x (by simp))
    rw [List.filterMap_cons_some hy]
    simp [filterMap_length_of_isSome f r (fun z hz => h z (by simp [hz]))]

/-- The loop succeeds when every route entry resolves; it puts the assembled entries, in the
order of the route, in front of the last element and folds the airway altitudes. -/
theorem routeLoop_eq (query : MapQuery) (c : ℤ) (fa : Bool) (last : FlightplanEntry) :
    ∀ (r : List rf.RouteEntry) (pre : List FlightplanEntry) (m : ℤ),
      (∀ re ∈ r, (assembledEntry query c fa re).isSome) →
      routeLoop query c fa r (pre ++ [last]) m
        = some (pre ++ r.filterMap (assembledEntry query c fa) ++ [last],
            r.foldl (fun acc re => airwayMax query fa re acc) m)
  | [], pre, m, _ => by simp [routeLoop]
  | re :: r, pre, m, h => by
    obtain ⟨e, he⟩ := Option.isSome_iff_exists.1 (h re (by simp))
    have ih := routeLoop_eq query c fa last r (pre ++ [e]) (airwayMax query fa re m)
      (fun z hz => h z (by simp [hz]))
    unfold routeLoop
    rw [routeEntryStep_eq, he]
    simp only [Option.map_some']
    rw [QList.insert_before_last]
    simp only
    rw [ih, List.filterMap_cons_some he]
    simp


/-- The successful path of `calculateRouteInternal` in closed form. -/
theorem calculateRouteInternal_found (env : Env) (routeFinder : RouteFinder) (type : RouteType)
    (commandName : String) (fetchAirways useSetAltitude : Bool) (self : RouteController)
    (r : List rf.RouteEntry) (first : FlightplanEntry) (mid : List FlightplanEntry)
    (last : FlightplanEntry)
    (hentries : self.flightplan.entries = first :: (mid ++ [last]))
    (hfound : env.calculateRoute routeFinder.network self.flightplan.departurePos
      self.flightplan.destinationPos (searchAltitude self.flightplan useSetAltitude) = (true, r))
    (hbuild : ∀ re ∈ r,
      (assembledEntry env.query self.curUserpointNumber fetchAirways re).isSome) :
    calculateRouteInternal env routeFinder type commandName fetchAirways useSetAltitude self
      = some (postChange
          { self with
            flightplan := updateCruisingAlt env
              { self.flightplan with
                routeType := type
                entries := [first]
                  ++ r.filterMap (assembledEntry env.query self.curUserpointNumber fetchAirways)
                  ++ [last] }
              (r.foldl (fun acc re => airwayMax env.query fetchAirways re acc) 0)
              useSetAltitude }
          (preChange self commandName)) := by
  unfold calculateRouteInternal
  simp only [hfound, if_true]
  rw [hentries, QList.erase_interior]
  simp only
  rw [routeLoop_eq env.query self.curUserpointNumber fetchAirways last r [first] 0 hbuild]

/-- The failing path of `calculateRouteInternal`: nothing is written. -/
theorem calculateRouteInternal_not_found (env : Env) (routeFinder : RouteFinder)
    (type : RouteType) (commandName : String) (fetchAirways useSetAltitude : Bool)
    (self : RouteController)
    (hfound : (env.calculateRoute routeFinder.network self.flightplan.departurePos
      self.flightplan.destinationPos (searchAltitude self.flightplan useSetAltitude)).1 = false) :
    calculateRouteInternal env routeFinder type commandName fetchAirways useSetAltitude self
      = some self := by
  unfold calculateRouteInternal
  simp only
  rw [hfound]
  simp


@[simp] theorem updateCruisingAlt_entries (env : Env) (fp : Flightplan) (m : ℤ) (u : Bool) :
    (updateCruisingAlt env fp m u).entries = fp.entries := by
  unfold updateCruisingAlt; split_ifs <;> rfl

@[simp] theorem updateCruisingAlt_routeType (env : Env) (fp : Flightplan) (m : ℤ) (u : Bool) :
    (updateCruisingAlt env fp m u).routeType = fp.routeType := by
  unfold updateCruisingAlt; split_ifs <;> rfl

@[simp] theorem postChange_flightplan (s : RouteController) (c : RouteCommand) :
    (postChange s c).flightplan = s.flightplan := rfl

theorem sample_resolves (fetchAirways : Bool) (a b : ℤ) :
    ∀ re ∈ Sample.route a b,
      (assembledEntry Sample.query 1 fetchAirways re).isSome := by
  intro re hre
  simp only [Sample.route, List.mem_cons, List.mem_singleton, List.not_mem_nil, or_false] at hre
  rcases hre with rfl | rfl | rfl <;>
    simp [assembledEntry, routeEntryStep, buildFlightplanEntry, Sample.query]
  all_goals split_ifs <;> simp

/-- C1: when the finder reports a route `r` and the flight plan has at least two entries (every
route entry resolving in the database), `calculateRouteInternal` returns a plan with
`r.length + 2` entries whose first and last entries are the old first and last ones and whose
entry at index `i + 1` is the entry assembled from `r[i]`. -/
theorem calculateRouteInternal_inserts_route (env : Env) (routeFinder : RouteFinder)
    (type : RouteType) (commandName : String) (fetchAirways useSetAltitude : Bool)
    (self : RouteController) (r : List rf.RouteEntry)
    (hlen : 2 ≤ self.flightplan.entries.length)
    (hfound : env.calculateRoute routeFinder.network self.flightplan.departurePos
      self.flightplan.destinationPos (searchAltitude self.flightplan useSetAltitude) = (true, r))
    (hbuild : ∀ re ∈ r,
      (assembledEntry env.query self.curUserpointNumber fetchAirways re).isSome) :
    ∃ s', calculateRouteInternal env routeFinder type commandName fetchAirways useSetAltitude
        self = some s' ∧
      s'.flightplan.entries.length = r.length + 2 ∧
      s'.flightplan.entries.head? = self.flightplan.entries.head? ∧
      s'.flightplan.entries.getLast? = self.flightplan.entries.getLast? ∧
      ∀ (i : ℕ) (hi : i < r.length), s'.flightplan.entries[i + 1]?
        = assembledEntry env.query self.curUserpointNumber fetchAirways r[i] := by
  obtain ⟨first, mid, last, hentries⟩ := QList.exists_first_last _ hlen
  refine ⟨_, calculateRouteInternal_found env routeFinder type commandName fetchAirways
    useSetAltitude self r first mid last hentries hfound hbuild, ?_, ?_, ?_, ?_⟩
  · simp [filterMap_length_of_isSome _ r hbuild]
  · simp [hentries]
  · rw [hentries]
    simp only [postChange_flightplan, updateCruisingAlt_entries, List.singleton_append]
    rw [QList.getLast?_cons_snoc]
    exact QList.getLast?_snoc _ last
  · intro i hi
    simp only [postChange_flightplan, updateCruisingAlt_entries, List.singleton_append,
      List.cons_append, List.getElem?_cons_succ, List.nil_append]
    have hlt : i < (r.filterMap
        (assembledEntry env.query self.curUserpointNumber fetchAirways)).length := by
      rw [filterMap_length_of_isSome _ r hbuild]; exact hi
    rw [List.getElem?_append_left hlt, filterMap_getElem? _ r i hbuild,
      List.getElem?_eq_getElem hi]
    rfl

theorem calculateRouteInternal_inserts_route_witness :
    ∃ s', calculateRouteInternal (Sample.env 90 true (Sample.route 17000 9000)) ⟨⟨{}⟩⟩
        RouteType.HIGH_ALT "High altitude route" true false
        (Sample.controller FlightplanType.IFR 5000) = some s' ∧
      s'.flightplan.entries.length = (Sample.route 17000 9000).length + 2 ∧
      s'.flightplan.entries.head?
        = (Sample.controller FlightplanType.IFR 5000).flightplan.entries.head? ∧
      s'.flightplan.entries.getLast?
        = (Sample.controller FlightplanType.IFR 5000).flightplan.entries.getLast? ∧
      ∀ (i : ℕ) (hi : i < (Sample.route 17000 9000).length), s'.flightplan.entries[i + 1]?
        = assembledEntry (Sample.env 90 true (Sample.route 17000 9000)).query
            (Sample.controller FlightplanType.IFR 5000).curUserpointNumber true
            ((Sample.route 17000 9000)[i]) :=
  calculateRouteInternal_inserts_route (Sample.env 90 true (Sample.route 17000 9000)) ⟨⟨{}⟩⟩
    RouteType.HIGH_ALT "High altitude route" true false
    (Sample.controller FlightplanType.IFR 5000) (Sample.route 17000 9000)
    (by decide) rfl (sample_resolves true 17000 9000)

/-- C2: when the finder reports `found = false`, `calculateRouteInternal` returns the controller
as it was: entry list, route type, cruising altitude, `undoIndex` and the undo stack are
unchanged. -/
theorem calculateRouteInternal_not_found_unchanged (env : Env) (routeFinder : RouteFinder)
    (type : RouteType) (commandName : String) (fetchAirways useSetAltitude : Bool)
    (self : RouteController)
    (hfound : (env.calculateRoute routeFinder.network self.flightplan.departurePos
      self.flightplan.destinationPos (searchAltitude self.flightplan useSetAltitude)).1 = false) :
    ∃ s', calculateRouteInternal env routeFinder type commandName fetchAirways useSetAltitude
        self = some s' ∧
      s'.flightplan.entries = self.flightplan.entries ∧
      s'.flightplan.routeType = self.flightplan.routeType ∧
      s'.flightplan.cruisingAlt = self.flightplan.cruisingAlt ∧
      s'.undoIndex = self.undoIndex ∧
      s'.undoStack = self.undoStack ∧
      s' = self :=
  ⟨self, calculateRouteInternal_not_found env routeFinder type commandName fetchAirways
    useSetAltitude self hfound, rfl, rfl, rfl, rfl, rfl, rfl⟩

theorem calculateRouteInternal_not_found_unchanged_witness :
    ∃ s', calculateRouteInternal (Sample.env 90 false (Sample.route 17000 9000)) ⟨⟨{}⟩⟩
        RouteType.HIGH_ALT "High altitude route" true false
        (Sample.controller FlightplanType.IFR 5000) = some s' ∧
      s'.flightplan.entries = (Sample.controller FlightplanType.IFR 5000).flightplan.entries ∧
      s'.flightplan.routeType
        = (Sample.controller FlightplanType.IFR 5000).flightplan.routeType ∧
      s'.flightplan.cruisingAlt
        = (Sample.controller FlightplanType.IFR 5000).flightplan.cruisingAlt ∧
      s'.undoIndex = (Sample.controller FlightplanType.IFR 5000).undoIndex ∧
      s'.undoStack = (Sample.controller FlightplanType.IFR 5000).undoStack ∧
      s' = Sample.controller FlightplanType.IFR 5000 :=
  calculateRouteInternal_not_found_unchanged (Sample.env 90 false (Sample.route 17000 9000))
    ⟨⟨{}⟩⟩ RouteType.HIGH_ALT "High altitude route" true false
    (Sample.controller FlightplanType.IFR 5000) rfl

end RouteController

/-! Cruising altitude. -/

namespace F32

/-- An odd integer `2 * f + 1` with `f` even and `2 ^ 23 ≤ f < 2 ^ 24` lies midway between two
binary32 values and converts to the lower one, `2 * f`. -/
theorem ofInt_tie (f : ℤ) (hf : f % 2 = 0) (h1 : 2 ^ 23 ≤ f) (h2 : f < 2 ^ 24) :
    ofInt (2 * f + 1) = ((2 * f : ℤ) : ℚ) := by
  have hfq1 : (2 : ℚ) ^ (23 : ℤ) ≤ (f : ℚ) := by
    have : ((2 ^ 23 : ℤ) : ℚ) ≤ (f : ℚ) := by exact_mod_cast h1
    norm_num at this ⊢
    exact this
  have hfq2 : (f : ℚ) + 1 ≤ (2 : ℚ) ^ (24 : ℤ) := by
    have : ((f + 1 : ℤ) : ℚ) ≤ ((2 ^ 24 : ℤ) : ℚ) := by exact_mod_cast (by omega : f + 1 ≤ 2 ^ 24)
    norm_num at this ⊢
    linarith
  have hpos : (0 : ℚ) < ((2 * f + 1 : ℤ) : ℚ) := by
    push_cast
    norm_num at hfq1
    linarith
  have hu : ulpExp ((2 * f + 1 : ℤ) : ℚ) = 1 := by
    unfold ulpExp
    rw [abs_of_pos hpos, log2_eq _ 24 (by push_cast; norm_num at hfq1 ⊢; linarith)
      (by push_cast; norm_num at hfq2 ⊢; linarith)]
    norm_num
  unfold ofInt round
  rw [if_neg hpos.ne', hu]
  have : (((2 * f + 1 : ℤ) : ℚ)) / 2 ^ (1 : ℤ) = (f : ℚ) + 1 / 2 := by
    push_cast; field_simp; ring
  rw [this, roundNearestEven_tie_even _ hf]
  push_cast
  ring

end F32

namespace RouteController

theorem roundUpOdd_eq (m : ℤ) (h0 : 0 < m) (h1 : m ≤ 2 ^ 24) :
    roundUpOdd m = 2000 * ⌈((m : ℚ) - 1000) / 2000⌉ + 1000 :=
  F32.east_chain m h0 h1

theorem roundUpEven_eq (m : ℤ) (h0 : 0 < m) (h1 : m ≤ 2 ^ 24) :
    roundUpEven m = 2000 * ⌈(m : ℚ) / 2000⌉ :=
  F32.west_chain m h0 h1

theorem roundUpOdd_16779001 : roundUpOdd 16779001 = 16779000 := by
  unfold roundUpOdd
  have h0 : F32.ofInt 16779001 = 16779000 := by
    have := F32.ofInt_tie 8389500 (by norm_num) (by norm_num) (by norm_num)
    norm_num at this
    exact this
  have h1 : F32.sub 16779000 1000 = 16778000 := by
    unfold F32.sub
    have := F32.round_intCast_scaled 16778000 1048625 4 (by norm_num) (by norm_num)
    norm_num at this ⊢
    exact this
  have h2 : F32.div 16778000 2000 = 8389 := by
    unfold F32.div
    have := F32.round_intCast 8389 (by norm_num)
    norm_num at this ⊢
    exact this
  have h3 : F32.ceil 8389 = 8389 := by
    unfold F32.ceil
    have : ⌈(8389 : ℚ)⌉ = 8389 := by
      have := Int.ceil_intCast (α := ℚ) 8389
      exact_mod_cast this
    rw [this]; norm_num
  have h4 : F32.mul 8389 2000 = 16778000 := by
    unfold F32.mul
    have := F32.round_intCast_scaled 16778000 1048625 4 (by norm_num) (by norm_num)
    norm_num at this ⊢
    exact this
  have h5 : F32.add 16778000 1000 = 16779000 := by
    unfold F32.add
    have := F32.round_intCast_scaled 16779000 2097375 3 (by norm_num) (by norm_num)
    norm_num at this ⊢
    exact this
  rw [h0, h1, h2, h3, h4, h5]
  have := F32.toInt_intCast 16779000
  exact_mod_cast this

theorem roundUpEven_16778001 : roundUpEven 16778001 = 16778000 := by
  unfold roundUpEven
  have h0 : F32.ofInt 16778001 = 16778000 := by
    have := F32.ofInt_tie 8389000 (by norm_num) (by norm_num) (by norm_num)
    norm_num at this
    exact this
  have h2 : F32.div 16778000 2000 = 8389 := by
    unfold F32.div
    have := F32.round_intCast 8389 (by norm_num)
    norm_num at this ⊢
    exact this
  have h3 : F32.ceil 8389 = 8389 := by
    unfold F32.ceil
    have : ⌈(8389 : ℚ)⌉ = 8389 := by
      have := Int.ceil_intCast (α := ℚ) 8389
      exact_mod_cast this
    rw [this]; norm_num
  have h4 : F32.mul 8389 2000 = 16778000 := by
    unfold F32.mul
    have := F32.round_intCast_scaled 16778000 1048625 4 (by norm_num) (by norm_num)
    norm_num at this ⊢
    exact this
  rw [h0, h2, h3, h4]
  have := F32.toInt_intCast 16778000
  exact_mod_cast this

theorem roundUpOdd_17000 : roundUpOdd 17000 = 17000 := by
  rw [roundUpOdd_eq 17000 (by norm_num) (by norm_num)]
  have : ⌈(((17000 : ℤ) : ℚ) - 1000) / 2000⌉ = 8 := by
    rw [Int.ceil_eq_iff]; norm_num
  rw [this]; norm_num

theorem roundUpEven_17000 : roundUpEven 17000 = 18000 := by
  rw [roundUpEven_eq 17000 (by norm_num) (by norm_num)]
  have : ⌈(((17000 : ℤ) : ℚ)) / 2000⌉ = 9 := by
    rw [Int.ceil_eq_iff]; norm_num
  rw [this]; norm_num

/-- The odd level computed for `m` is the least value `2000 * k + 1000` that is `≥ m`. -/
theorem roundUpOdd_least (m : ℤ) (h0 : 0 < m) (h1 : m ≤ 2 ^ 24) :
    m ≤ roundUpOdd m ∧ (∃ k : ℤ, roundUpOdd m = 2000 * k + 1000) ∧
      ∀ k : ℤ, m ≤ 2000 * k + 1000 → roundUpOdd m ≤ 2000 * k + 1000 := by
  rw [roundUpOdd_eq m h0 h1]
  have hb := F32.ceil_bounds (m - 1000)
  push_cast at hb
  refine ⟨by omega, ⟨_, rfl⟩, fun k hk => by omega⟩

/-- The even level computed for `m` is the least multiple of 2000 that is `≥ m`. -/
theorem roundUpEven_least (m : ℤ) (h0 : 0 < m) (h1 : m ≤ 2 ^ 24) :
    m ≤ roundUpEven m ∧ (∃ k : ℤ, roundUpEven m = 2000 * k) ∧
      ∀ k : ℤ, m ≤ 2000 * k → roundUpEven m ≤ 2000 * k := by
  rw [roundUpEven_eq m h0 h1]
  have hb := F32.ceil_bounds m
  refine ⟨by omega, ⟨_, rfl⟩, fun k hk => by omega⟩

theorem foldl_airwayMax_false (query : MapQuery) :
    ∀ (r : List rf.RouteEntry) (a : ℤ),
      r.foldl (fun acc re => airwayMax query false re acc) a = a
  | [], a => rfl
  | re :: r, a => by
    simp only [List.foldl_cons]
    rw [show airwayMax query false re a = a from by simp [airwayMax]]
    exact foldl_airwayMax_false query r a

theorem maxAirwayMinAltitude_nonneg (query : MapQuery) :
    ∀ r : List rf.RouteEntry, 0 ≤ maxAirwayMinAltitude query r
  | [] => by simp [maxAirwayMinAltitude]
  | re :: r => by
    have ih := maxAirwayMinAltitude_nonneg query r
    unfold maxAirwayMinAltitude at ih ⊢
    by_cases h : (re.airwayId != -1) = true
    · simp only [List.filter_cons, h, if_true, List.map_cons, List.foldr_cons]
      exact le_max_of_le_right ih
    · simp only [List.filter_cons, h]
      exact ih

theorem maxAirwayMinAltitude_cons (query : MapQuery) (re : rf.RouteEntry)
    (r : List rf.RouteEntry) :
    maxAirwayMinAltitude query (re :: r)
      = if (re.airwayId != -1) = true then
          max (query.getAirwayById re.airwayId).minalt (maxAirwayMinAltitude query r)
        else maxAirwayMinAltitude query r := by
  unfold maxAirwayMinAltitude
  by_cases h : (re.airwayId != -1) = true
  · simp only [List.filter_cons, h, if_true, List.map_cons, List.foldr_cons]
  · simp only [List.filter_cons, h]
    rfl

theorem foldl_airwayMax_true (query : MapQuery) :
    ∀ (r : List rf.RouteEntry) (a : ℤ), 0 ≤ a →
      r.foldl (fun acc re => airwayMax query true re acc) a
        = max a (maxAirwayMinAltitude query r)
  | [], a, ha => by simp [maxAirwayMinAltitude, ha]
  | re :: r, a, ha => by
    simp only [List.foldl_cons]
    rw [maxAirwayMinAltitude_cons]
    by_cases h : (re.airwayId != -1) = true
    · have h1 : airwayMax query true re a = max a (query.getAirwayById re.airwayId).minalt := by
        simp only [airwayMax, Bool.true_and, h, if_true]
      rw [h1, foldl_airwayMax_true query r _ (le_max_of_le_left ha), if_pos h, max_assoc]
    · have h1 : airwayMax query true re a = a := by
        simp only [airwayMax, Bool.true_and, h]; rfl
      rw [h1, foldl_airwayMax_true query r _ ha, if_neg h]

/-- The value of `minAltitude` after the loop. -/
theorem foldl_airwayMax (query : MapQuery) (fetchAirways : Bool) (r : List rf.RouteEntry) :
    r.foldl (fun acc re => airwayMax query fetchAirways re acc) 0
      = if fetchAirways then maxAirwayMinAltitude query r else 0 := by
  cases fetchAirways with
  | false => simpa using foldl_airwayMax_false query r 0
  | true =>
    rw [foldl_airwayMax_true query r 0 le_rfl]
    simp [maxAirwayMinAltitude_nonneg query r]


theorem updateCruisingAlt_cruisingAlt (env : Env) (fp : Flightplan) (m : ℤ) (u : Bool) :
    (updateCruisingAlt env fp m u).cruisingAlt
      = if m ≠ 0 ∧ u = false then
          roundedCruisingAlt m (env.angleDegToRhumb fp.departurePos fp.destinationPos)
            fp.flightplanType
        else fp.cruisingAlt := by
  unfold updateCruisingAlt; split_ifs <;> rfl

/-- The cruising altitude after a successful `calculateRouteInternal`. -/
theorem calculateRouteInternal_cruisingAlt (env : Env) (routeFinder : RouteFinder)
    (type : RouteType) (commandName : String) (fetchAirways useSetAltitude : Bool)
    (self : RouteController) (r : List rf.RouteEntry)
    (hlen : 2 ≤ self.flightplan.entries.length)
    (hfound : env.calculateRoute routeFinder.network self.flightplan.departurePos
      self.flightplan.destinationPos (searchAltitude self.flightplan useSetAltitude) = (true, r))
    (hbuild : ∀ re ∈ r,
      (assembledEntry env.query self.curUserpointNumber fetchAirways re).isSome) :
    ∃ s', calculateRouteInternal env routeFinder type commandName fetchAirways useSetAltitude
        self = some s' ∧
      s'.flightplan.cruisingAlt
        = if (if fetchAirways then maxAirwayMinAltitude env.query r else 0) ≠ 0
              ∧ useSetAltitude = false then
            roundedCruisingAlt (if fetchAirways then maxAirwayMinAltitude env.query r else 0)
              (env.angleDegToRhumb self.flightplan.departurePos self.flightplan.destinationPos)
              self.flightplan.flightplanType
          else self.flightplan.cruisingAlt := by
  obtain ⟨first, mid, last, hentries⟩ := QList.exists_first_last _ hlen
  refine ⟨_, calculateRouteInternal_found env routeFinder type commandName fetchAirways
    useSetAltitude self r first mid last hentries hfound hbuild, ?_⟩
  rw [postChange_flightplan, updateCruisingAlt_cruisingAlt, foldl_airwayMax]

/-- C3 (amended): for an IFR plan, no pre-set altitude, a bearing `b` with `0 ≤ b ≤ 180` and a
maximum airway minimum altitude `m` with `0 < m ≤ 2 ^ 24` feet, `calculateRouteInternal` sets
the cruising altitude `2000 * ⌈(m - 1000) / 2000⌉ + 1000`, the least value of the form
`2000 * k + 1000` that is `≥ m`; for `m = 17000` it is 17000. -/
theorem calculateRouteInternal_easterly_odd_level (env : Env) (routeFinder : RouteFinder)
    (type : RouteType) (commandName : String) (self : RouteController)
    (r : List rf.RouteEntry) (m : ℤ)
    (hlen : 2 ≤ self.flightplan.entries.length)
    (hfound : env.calculateRoute routeFinder.network self.flightplan.departurePos
      self.flightplan.destinationPos (searchAltitude self.flightplan false) = (true, r))
    (hbuild : ∀ re ∈ r, (assembledEntry env.query self.curUserpointNumber true re).isSome)
    (hm : maxAirwayMinAltitude env.query r = m) (hpos : 0 < m) (hle : m ≤ 2 ^ 24)
    (hifr : self.flightplan.flightplanType = FlightplanType.IFR)
    (heast : 0 ≤ env.angleDegToRhumb self.flightplan.departurePos
        self.flightplan.destinationPos ∧
      env.angleDegToRhumb self.flightplan.departurePos self.flightplan.destinationPos ≤ 180) :
    ∃ s', calculateRouteInternal env routeFinder type commandName true false self = some s' ∧
      s'.flightplan.cruisingAlt = 2000 * ⌈((m : ℚ) - 1000) / 2000⌉ + 1000 ∧
      m ≤ s'.flightplan.cruisingAlt ∧
      (∃ k : ℤ, s'.flightplan.cruisingAlt = 2000 * k + 1000) ∧
      (∀ k : ℤ, m ≤ 2000 * k + 1000 → s'.flightplan.cruisingAlt ≤ 2000 * k + 1000) ∧
      (m = 17000 → s'.flightplan.cruisingAlt = 17000) := by
  obtain ⟨s', hs, halt⟩ := calculateRouteInternal_cruisingAlt env routeFinder type commandName
    true false self r hlen hfound hbuild
  have h : s'.flightplan.cruisingAlt = roundUpOdd m := by
    rw [halt]
    simp only [if_true, hm]
    rw [if_pos ⟨hpos.ne', trivial⟩]
    unfold roundedCruisingAlt
    simp only [hifr]
    rw [if_pos heast]
    rfl
  obtain ⟨l1, l2, l3⟩ := roundUpOdd_least m hpos hle
  refine ⟨s', hs, ?_, ?_, ?_, ?_, ?_⟩
  · rw [h]; exact roundUpOdd_eq m hpos hle
  · rw [h]; exact l1
  · rw [h]; exact l2
  · rw [h]; exact l3
  · intro h17; rw [h, h17]; exact roundUpOdd_17000


theorem sample_maxAirwayMinAltitude (a b : ℤ) (ha : a ≠ -1) (hb : b ≠ -1) :
    maxAirwayMinAltitude Sample.query (Sample.route a b) = max a (max b 0) := by
  simp [maxAirwayMinAltitude, Sample.route, Sample.query, List.filter_cons, ha, hb]

/-- The cruising altitude `calculateRouteInternal` leaves on the sample controller when airways
are fetched and no altitude is pre-set. -/
theorem sample_cruisingAlt (fpDir : ℚ) (a b : ℤ) (type : RouteType) (name : String)
    (t : FlightplanType) (alt : ℤ) (network : RouteNetwork) :
    (calculateRouteInternal (Sample.env fpDir true (Sample.route a b)) ⟨network⟩ type name
        true false (Sample.controller t alt)).map (fun s => s.flightplan.cruisingAlt)
      = some (if maxAirwayMinAltitude Sample.query (Sample.route a b) ≠ 0 then
          roundedCruisingAlt (maxAirwayMinAltitude Sample.query (Sample.route a b)) fpDir t
        else alt) := by
  obtain ⟨s', hs, halt⟩ := calculateRouteInternal_cruisingAlt
    (Sample.env fpDir true (Sample.route a b)) ⟨network⟩ type name true false
    (Sample.controller t alt) (Sample.route a b) (by simp [Sample.controller, Sample.flightplan])
    rfl (sample_resolves true a b)
  rw [hs, Option.map_some', halt]
  simp [Sample.env, Sample.controller, Sample.flightplan]

theorem calculateRouteInternal_easterly_odd_level_witness :
    ∃ s', calculateRouteInternal (Sample.env 90 true (Sample.route 17000 9000)) ⟨⟨{}⟩⟩
        RouteType.HIGH_ALT "High altitude route" true false
        (Sample.controller FlightplanType.IFR 5000) = some s' ∧
      s'.flightplan.cruisingAlt = 2000 * ⌈(((17000 : ℤ) : ℚ) - 1000) / 2000⌉ + 1000 ∧
      17000 ≤ s'.flightplan.cruisingAlt ∧
      (∃ k : ℤ, s'.flightplan.cruisingAlt = 2000 * k + 1000) ∧
      (∀ k : ℤ, 17000 ≤ 2000 * k + 1000 → s'.flightplan.cruisingAlt ≤ 2000 * k + 1000) ∧
      ((17000 : ℤ) = 17000 → s'.flightplan.cruisingAlt = 17000) :=
  calculateRouteInternal_easterly_odd_level (Sample.env 90 true (Sample.route 17000 9000))
    ⟨⟨{}⟩⟩ RouteType.HIGH_ALT "High altitude route" (Sample.controller FlightplanType.IFR 5000)
    (Sample.route 17000 9000) 17000 (by decide) rfl (sample_resolves true 17000 9000)
    (by
      show maxAirwayMinAltitude Sample.query (Sample.route 17000 9000) = 17000
      rw [sample_maxAirwayMinAltitude _ _ (by decide) (by decide)]; decide)
    (by decide) (by decide) rfl
    ⟨by norm_num [Sample.env], by norm_num [Sample.env]⟩

/-- C3 (as stated, refuted): with an airway whose minimum altitude is 16 779 001 ft, an IFR
plan and a bearing of 90 degrees, the cruising altitude set is 16 779 000 ft, which is below the
minimum altitude: the conversion of the integer to `float` has already dropped the last foot. -/
theorem calculateRouteInternal_easterly_counterexample :
    maxAirwayMinAltitude Sample.query (Sample.route 16779001 9000) = 16779001 ∧
      (calculateRouteInternal (Sample.env 90 true (Sample.route 16779001 9000)) ⟨⟨{}⟩⟩
          RouteType.HIGH_ALT "High altitude route" true false
          (Sample.controller FlightplanType.IFR 5000)).map
        (fun s => s.flightplan.cruisingAlt) = some 16779000 ∧
      ¬ ((16779001 : ℤ) ≤ 16779000) := by
  have hm : maxAirwayMinAltitude Sample.query (Sample.route 16779001 9000) = 16779001 := by
    rw [sample_maxAirwayMinAltitude _ _ (by decide) (by decide)]; decide
  refine ⟨hm, ?_, by decide⟩
  rw [sample_cruisingAlt, hm, if_pos (by decide)]
  unfold roundedCruisingAlt
  simp only [roundUpOdd_16779001]
  norm_num
  decide


/-- C4 (amended): for an IFR plan, no pre-set altitude, a bearing outside `0 ≤ b ≤ 180` (such as
270 degrees) and a maximum airway minimum altitude `m` with `0 < m ≤ 2 ^ 24` feet,
`calculateRouteInternal` sets the cruising altitude `2000 * ⌈m / 2000⌉`, the least multiple of
2000 that is `≥ m`; for `m = 17000` it is 18000. -/
theorem calculateRouteInternal_westerly_even_level (env : Env) (routeFinder : RouteFinder)
    (type : RouteType) (commandName : String) (self : RouteController)
    (r : List rf.RouteEntry) (m : ℤ)
    (hlen : 2 ≤ self.flightplan.entries.length)
    (hfound : env.calculateRoute routeFinder.network self.flightplan.departurePos
      self.flightplan.destinationPos (searchAltitude self.flightplan false) = (true, r))
    (hbuild : ∀ re ∈ r, (assembledEntry env.query self.curUserpointNumber true re).isSome)
    (hm : maxAirwayMinAltitude env.query r = m) (hpos : 0 < m) (hle : m ≤ 2 ^ 24)
    (hifr : self.flightplan.flightplanType = FlightplanType.IFR)
    (hwest : ¬ (0 ≤ env.angleDegToRhumb self.flightplan.departurePos
        self.flightplan.destinationPos ∧
      env.angleDegToRhumb self.flightplan.departurePos self.flightplan.destinationPos ≤ 180)) :
    ∃ s', calculateRouteInternal env routeFinder type commandName true false self = some s' ∧
      s'.flightplan.cruisingAlt = 2000 * ⌈(m : ℚ) / 2000⌉ ∧
      m ≤ s'.flightplan.cruisingAlt ∧
      (∃ k : ℤ, s'.flightplan.cruisingAlt = 2000 * k) ∧
      (∀ k : ℤ, m ≤ 2000 * k → s'.flightplan.cruisingAlt ≤ 2000 * k) ∧
      (m = 17000 → s'.flightplan.cruisingAlt = 18000) := by
  obtain ⟨s', hs, halt⟩ := calculateRouteInternal_cruisingAlt env routeFinder type commandName
    true false self r hlen hfound hbuild
  have h : s'.flightplan.cruisingAlt = roundUpEven m := by
    rw [halt]
    simp only [if_true, hm]
    rw [if_pos ⟨hpos.ne', trivial⟩]
    unfold roundedCruisingAlt
    simp only [hifr]
    rw [if_neg hwest]
    rfl
  obtain ⟨l1, l2, l3⟩ := roundUpEven_least m hpos hle
  refine ⟨s', hs, ?_, ?_, ?_, ?_, ?_⟩
  · rw [h]; exact roundUpEven_eq m hpos hle
  · rw [h]; exact l1
  · rw [h]; exact l2
  · rw [h]; exact l3
  · intro h17; rw [h, h17]; exact roundUpEven_17000

theorem calculateRouteInternal_westerly_even_level_witness :
    ∃ s', calculateRouteInternal (Sample.env 270 true (Sample.route 17000 9000)) ⟨⟨{}⟩⟩
        RouteType.HIGH_ALT "High altitude route" true false
        (Sample.controller FlightplanType.IFR 5000) = some s' ∧
      s'.flightplan.cruisingAlt = 2000 * ⌈((17000 : ℤ) : ℚ) / 2000⌉ ∧
      17000 ≤ s'.flightplan.cruisingAlt ∧
      (∃ k : ℤ, s'.flightplan.cruisingAlt = 2000 * k) ∧
      (∀ k : ℤ, 17000 ≤ 2000 * k → s'.flightplan.cruisingAlt ≤ 2000 * k) ∧
      ((17000 : ℤ) = 17000 → s'.flightplan.cruisingAlt = 18000) :=
  calculateRouteInternal_westerly_even_level (Sample.env 270 true (Sample.route 17000 9000))
    ⟨⟨{}⟩⟩ RouteType.HIGH_ALT "High altitude route" (Sample.controller FlightplanType.IFR 5000)
    (Sample.route 17000 9000) 17000 (by decide) rfl (sample_resolves true 17000 9000)
    (by
      show maxAirwayMinAltitude Sample.query (Sample.route 17000 9000) = 17000
      rw [sample_maxAirwayMinAltitude _ _ (by decide) (by decide)]; decide)
    (by decide) (by decide) rfl
    (by norm_num [Sample.env])

/-- C4 (as stated, refuted): with an airway whose minimum altitude is 16 778 001 ft, an IFR
plan and a bearing of 270 degrees, the cruising altitude set is 16 778 000 ft, which is below
the minimum altitude. -/
theorem calculateRouteInternal_westerly_counterexample :
    maxAirwayMinAltitude Sample.query (Sample.route 16778001 9000) = 16778001 ∧
      (calculateRouteInternal (Sample.env 270 true (Sample.route 16778001 9000)) ⟨⟨{}⟩⟩
          RouteType.HIGH_ALT "High altitude route" true false
          (Sample.controller FlightplanType.IFR 5000)).map
        (fun s => s.flightplan.cruisingAlt) = some 16778000 ∧
      ¬ ((16778001 : ℤ) ≤ 16778000) := by
  have hm : maxAirwayMinAltitude Sample.query (Sample.route 16778001 9000) = 16778001 := by
    rw [sample_maxAirwayMinAltitude _ _ (by decide) (by decide)]; decide
  refine ⟨hm, ?_, by decide⟩
  rw [sample_cruisingAlt, hm, if_pos (by decide)]
  unfold roundedCruisingAlt
  simp only [roundUpEven_16778001]
  norm_num
  decide

theorem roundUpOdd_ne_roundUpEven (m : ℤ) (h0 : 0 < m) (h1 : m ≤ 2 ^ 24) :
    roundUpOdd m ≠ roundUpEven m := by
  rw [roundUpOdd_eq m h0 h1, roundUpEven_eq m h0 h1]
  omega

/-- C5 (amended): with no pre-set altitude and a non-zero maximum airway minimum altitude `m`,
`calculateRouteInternal` applies the odd-level rule when the bearing `b` satisfies
`0 ≤ b ≤ 180` and the even-level rule for every other bearing (the VFR offset of 500 ft being
added afterwards); a bearing of exactly 180 degrees uses the odd-level rule.  For
`0 < m ≤ 2 ^ 24` the two rules give different levels, so the odd-level rule is applied exactly
when `0 ≤ b ≤ 180`. -/
theorem calculateRouteInternal_direction_rule (env : Env) (routeFinder : RouteFinder)
    (type : RouteType) (commandName : String) (self : RouteController)
    (r : List rf.RouteEntry) (m : ℤ)
    (hlen : 2 ≤ self.flightplan.entries.length)
    (hfound : env.calculateRoute routeFinder.network self.flightplan.departurePos
      self.flightplan.destinationPos (searchAltitude self.flightplan false) = (true, r))
    (hbuild : ∀ re ∈ r, (assembledEntry env.query self.curUserpointNumber true re).isSome)
    (hm : maxAirwayMinAltitude env.query r = m) (hne : m ≠ 0) :
    ∃ s', calculateRouteInternal env routeFinder type commandName true false self = some s' ∧
      (0 ≤ env.angleDegToRhumb self.flightplan.departurePos self.flightplan.destinationPos ∧
          env.angleDegToRhumb self.flightplan.departurePos self.flightplan.destinationPos ≤ 180 →
        s'.flightplan.cruisingAlt = roundUpOdd m
          + if self.flightplan.flightplanType = FlightplanType.VFR then 500 else 0) ∧
      (¬ (0 ≤ env.angleDegToRhumb self.flightplan.departurePos self.flightplan.destinationPos ∧
          env.angleDegToRhumb self.flightplan.departurePos self.flightplan.destinationPos ≤ 180) →
        s'.flightplan.cruisingAlt = roundUpEven m
          + if self.flightplan.flightplanType = FlightplanType.VFR then 500 else 0) ∧
      (env.angleDegToRhumb self.flightplan.departurePos self.flightplan.destinationPos = 180 →
        s'.flightplan.cruisingAlt = roundUpOdd m
          + if self.flightplan.flightplanType = FlightplanType.VFR then 500 else 0) ∧
      (0 < m → m ≤ 2 ^ 24 →
        (s'.flightplan.cruisingAlt = roundUpOdd m
            + (if self.flightplan.flightplanType = FlightplanType.VFR then 500 else 0) ↔
          0 ≤ env.angleDegToRhumb self.flightplan.departurePos self.flightplan.destinationPos ∧
          env.angleDegToRhumb self.flightplan.departurePos
            self.flightplan.destinationPos ≤ 180)) := by
  obtain ⟨s', hs, halt⟩ := calculateRouteInternal_cruisingAlt env routeFinder type commandName
    true false self r hlen hfound hbuild
  simp only [if_true, hm] at halt
  rw [if_pos ⟨hne, trivial⟩] at halt
  have hodd : 0 ≤ env.angleDegToRhumb self.flightplan.departurePos
        self.flightplan.destinationPos ∧
      env.angleDegToRhumb self.flightplan.departurePos self.flightplan.destinationPos ≤ 180 →
      s'.flightplan.cruisingAlt = roundUpOdd m
        + if self.flightplan.flightplanType = FlightplanType.VFR then 500 else 0 := by
    intro hb
    rw [halt]
    unfold roundedCruisingAlt
    simp only [if_pos hb]
    split_ifs <;> simp
  have heven : ¬ (0 ≤ env.angleDegToRhumb self.flightplan.departurePos
        self.flightplan.destinationPos ∧
      env.angleDegToRhumb self.flightplan.departurePos self.flightplan.destinationPos ≤ 180) →
      s'.flightplan.cruisingAlt = roundUpEven m
        + if self.flightplan.flightplanType = FlightplanType.VFR then 500 else 0 := by
    intro hb
    rw [halt]
    unfold roundedCruisingAlt
    simp only [if_neg hb]
    split_ifs <;> simp
  refine ⟨s', hs, hodd, heven, ?_, ?_⟩
  · intro h180
    exact hodd (by rw [h180]; norm_num)
  · intro h0 h1
    constructor
    · intro heq
      by_contra hb
      have := heven hb
      rw [this] at heq
      exact roundUpOdd_ne_roundUpEven m h0 h1 (by linarith)
    · exact hodd


theorem calculateRouteInternal_direction_rule_witness :
    ∃ s', calculateRouteInternal (Sample.env 180 true (Sample.route 17000 9000)) ⟨⟨{}⟩⟩
        RouteType.HIGH_ALT "High altitude route" true false
        (Sample.controller FlightplanType.IFR 5000) = some s' ∧
      (0 ≤ (Sample.env 180 true (Sample.route 17000 9000)).angleDegToRhumb
            (Sample.controller FlightplanType.IFR 5000).flightplan.departurePos
            (Sample.controller FlightplanType.IFR 5000).flightplan.destinationPos ∧
          (Sample.env 180 true (Sample.route 17000 9000)).angleDegToRhumb
            (Sample.controller FlightplanType.IFR 5000).flightplan.departurePos
            (Sample.controller FlightplanType.IFR 5000).flightplan.destinationPos ≤ 180 →
        s'.flightplan.cruisingAlt = roundUpOdd 17000
          + if (Sample.controller FlightplanType.IFR 5000).flightplan.flightplanType
              = FlightplanType.VFR then 500 else 0) ∧
      (¬ (0 ≤ (Sample.env 180 true (Sample.route 17000 9000)).angleDegToRhumb
            (Sample.controller FlightplanType.IFR 5000).flightplan.departurePos
            (Sample.controller FlightplanType.IFR 5000).flightplan.destinationPos ∧
          (Sample.env 180 true (Sample.route 17000 9000)).angleDegToRhumb
            (Sample.controller FlightplanType.IFR 5000).flightplan.departurePos
            (Sample.controller FlightplanType.IFR 5000).flightplan.destinationPos ≤ 180) →
        s'.flightplan.cruisingAlt = roundUpEven 17000
          + if (Sample.controller FlightplanType.IFR 5000).flightplan.flightplanType
              = FlightplanType.VFR then 500 else 0) ∧
      ((Sample.env 180 true (Sample.route 17000 9000)).angleDegToRhumb
            (Sample.controller FlightplanType.IFR 5000).flightplan.departurePos
            (Sample.controller FlightplanType.IFR 5000).flightplan.destinationPos = 180 →
        s'.flightplan.cruisingAlt = roundUpOdd 17000
          + if (Sample.controller FlightplanType.IFR 5000).flightplan.flightplanType
              = FlightplanType.VFR then 500 else 0) ∧
      (0 < (17000 : ℤ) → (17000 : ℤ) ≤ 2 ^ 24 →
        (s'.flightplan.cruisingAlt = roundUpOdd 17000
            + (if (Sample.controller FlightplanType.IFR 5000).flightplan.flightplanType
              = FlightplanType.VFR then 500 else 0) ↔
          0 ≤ (Sample.env 180 true (Sample.route 17000 9000)).angleDegToRhumb
            (Sample.controller FlightplanType.IFR 5000).flightplan.departurePos
            (Sample.controller FlightplanType.IFR 5000).flightplan.destinationPos ∧
          (Sample.env 180 true (Sample.route 17000 9000)).angleDegToRhumb
            (Sample.controller FlightplanType.IFR 5000).flightplan.departurePos
            (Sample.controller FlightplanType.IFR 5000).flightplan.destinationPos ≤ 180)) :=
  calculateRouteInternal_direction_rule (Sample.env 180 true (Sample.route 17000 9000))
    ⟨⟨{}⟩⟩ RouteType.HIGH_ALT "High altitude route" (Sample.controller FlightplanType.IFR 5000)
    (Sample.route 17000 9000) 17000 (by decide) rfl (sample_resolves true 17000 9000)
    (by
      show maxAirwayMinAltitude Sample.query (Sample.route 17000 9000) = 17000
      rw [sample_maxAirwayMinAltitude _ _ (by decide) (by decide)]; decide)
    (by decide)

/-- C5 (as stated, refuted): at a bearing of exactly 180 degrees and a maximum airway minimum
altitude of 17000 ft (IFR) the cruising altitude set is 17000 ft, the odd level, whereas the
even-level rule gives 18000 ft. -/
theorem calculateRouteInternal_bearing_180_counterexample :
    (calculateRouteInternal (Sample.env 180 true (Sample.route 17000 9000)) ⟨⟨{}⟩⟩
          RouteType.HIGH_ALT "High altitude route" true false
          (Sample.controller FlightplanType.IFR 5000)).map
        (fun s => s.flightplan.cruisingAlt) = some 17000 ∧
      roundUpOdd 17000 = 17000 ∧ roundUpEven 17000 = 18000 := by
  have hm : maxAirwayMinAltitude Sample.query (Sample.route 17000 9000) = 17000 := by
    rw [sample_maxAirwayMinAltitude _ _ (by decide) (by decide)]; decide
  refine ⟨?_, roundUpOdd_17000, roundUpEven_17000⟩
  rw [sample_cruisingAlt, hm, if_pos (by decide)]
  unfold roundedCruisingAlt
  simp only [roundUpOdd_17000]
  norm_num
  decide

/-- C6: with no pre-set altitude and a positive maximum airway minimum altitude, the cruising
altitude `calculateRouteInternal` sets for a VFR plan is the one it sets for the same plan
flown IFR plus 500 ft, whatever the bearing. -/
theorem calculateRouteInternal_vfr_offset (env : Env) (routeFinder : RouteFinder)
    (type : RouteType) (commandName : String) (self : RouteController)
    (r : List rf.RouteEntry)
    (hlen : 2 ≤ self.flightplan.entries.length)
    (hfound : env.calculateRoute routeFinder.network self.flightplan.departurePos
      self.flightplan.destinationPos (searchAltitude self.flightplan false) = (true, r))
    (hbuild : ∀ re ∈ r, (assembledEntry env.query self.curUserpointNumber true re).isSome)
    (hpos : 0 < maxAirwayMinAltitude env.query r) :
    ∃ sIfr sVfr,
      calculateRouteInternal env routeFinder type commandName true false
        { self with flightplan :=
            { self.flightplan with flightplanType := FlightplanType.IFR } } = some sIfr ∧
      calculateRouteInternal env routeFinder type commandName true false
        { self with flightplan :=
            { self.flightplan with flightplanType := FlightplanType.VFR } } = some sVfr ∧
      sVfr.flightplan.cruisingAlt = sIfr.flightplan.cruisingAlt + 500 := by
  obtain ⟨s1, hs1, halt1⟩ := calculateRouteInternal_cruisingAlt env routeFinder type commandName
    true false
    { self with flightplan := { self.flightplan with flightplanType := FlightplanType.IFR } }
    r hlen hfound hbuild
  obtain ⟨s2, hs2, halt2⟩ := calculateRouteInternal_cruisingAlt env routeFinder type commandName
    true false
    { self with flightplan := { self.flightplan with flightplanType := FlightplanType.VFR } }
    r hlen hfound hbuild
  refine ⟨s1, s2, hs1, hs2, ?_⟩
  simp only [if_true] at halt1 halt2
  rw [if_pos ⟨hpos.ne', trivial⟩] at halt1 halt2
  rw [halt1, halt2]
  unfold roundedCruisingAlt
  simp

theorem calculateRouteInternal_vfr_offset_witness :
    ∃ sIfr sVfr,
      calculateRouteInternal (Sample.env 270 true (Sample.route 17000 9000)) ⟨⟨{}⟩⟩
        RouteType.HIGH_ALT "High altitude route" true false
        { Sample.controller FlightplanType.IFR 5000 with flightplan :=
            { (Sample.controller FlightplanType.IFR 5000).flightplan with
              flightplanType := FlightplanType.IFR } } = some sIfr ∧
      calculateRouteInternal (Sample.env 270 true (Sample.route 17000 9000)) ⟨⟨{}⟩⟩
        RouteType.HIGH_ALT "High altitude route" true false
        { Sample.controller FlightplanType.IFR 5000 with flightplan :=
            { (Sample.controller FlightplanType.IFR 5000).flightplan with
              flightplanType := FlightplanType.VFR } } = some sVfr ∧
      sVfr.flightplan.cruisingAlt = sIfr.flightplan.cruisingAlt + 500 :=
  calculateRouteInternal_vfr_offset (Sample.env 270 true (Sample.route 17000 9000))
    ⟨⟨{}⟩⟩ RouteType.HIGH_ALT "High altitude route" (Sample.controller FlightplanType.IFR 5000)
    (Sample.route 17000 9000) (by decide) rfl (sample_resolves true 17000 9000)
    (by
      show 0 < maxAirwayMinAltitude Sample.query (Sample.route 17000 9000)
      rw [sample_maxAirwayMinAltitude _ _ (by decide) (by decide)]; decide)


theorem maxAirwayMinAltitude_ge (query : MapQuery) :
    ∀ (r : List rf.RouteEntry) (re : rf.RouteEntry), re ∈ r → re.airwayId ≠ -1 →
      (query.getAirwayById re.airwayId).minalt ≤ maxAirwayMinAltitude query r
  | [], _, h, _ => by simp at h
  | x :: r, re, h, hne => by
    rw [maxAirwayMinAltitude_cons]
    rcases List.mem_cons.1 h with rfl | hmem
    · have : (re.airwayId != -1) = true := by simpa using hne
      rw [if_pos this]
      exact le_max_left _ _
    · have ih := maxAirwayMinAltitude_ge query r re hmem hne
      split_ifs
      · exact le_max_of_le_right ih
      · exact ih

theorem maxAirwayMinAltitude_attained (query : MapQuery) :
    ∀ (r : List rf.RouteEntry), maxAirwayMinAltitude query r = 0 ∨
      ∃ re ∈ r, re.airwayId ≠ -1 ∧
        (query.getAirwayById re.airwayId).minalt = maxAirwayMinAltitude query r
  | [] => Or.inl (by simp [maxAirwayMinAltitude])
  | x :: r => by
    rw [maxAirwayMinAltitude_cons]
    have ih := maxAirwayMinAltitude_attained query r
    by_cases hx : (x.airwayId != -1) = true
    · rw [if_pos hx]
      rcases le_total (query.getAirwayById x.airwayId).minalt (maxAirwayMinAltitude query r)
        with hle | hle
      · rw [max_eq_right hle]
        rcases ih with h0 | ⟨re, hmem, hne, heq⟩
        · exact Or.inl h0
        · exact Or.inr ⟨re, List.mem_cons_of_mem _ hmem, hne, heq⟩
      · rw [max_eq_left hle]
        exact Or.inr ⟨x, List.mem_cons_self _ _, by simpa using hx, rfl⟩
    · rw [if_neg hx]
      rcases ih with h0 | ⟨re, hmem, hne, heq⟩
      · exact Or.inl h0
      · exact Or.inr ⟨re, List.mem_cons_of_mem _ hmem, hne, heq⟩

theorem maxAirwayMinAltitude_no_airway (query : MapQuery) :
    ∀ (r : List rf.RouteEntry), (∀ re ∈ r, re.airwayId = -1) →
      maxAirwayMinAltitude query r = 0
  | [], _ => by simp [maxAirwayMinAltitude]
  | x :: r, h => by
    rw [maxAirwayMinAltitude_cons]
    have hx : ¬ (x.airwayId != -1) = true := by
      simp [h x (List.mem_cons_self _ _)]
    rw [if_neg hx]
    exact maxAirwayMinAltitude_no_airway query r (fun re hre => h re (List.mem_cons_of_mem _ hre))

/-- C7: `calculateRouteInternal` consults the finder only at the altitude argument
`cruisingAlt` when `useSetAltitude` is true and 0 otherwise; and after a successful call the
cruising altitude differs from the one before only if `useSetAltitude` is false and the maximum
airway minimum altitude collected over the route is not 0. -/
theorem calculateRouteInternal_preset_altitude (env : Env) (routeFinder : RouteFinder)
    (type : RouteType) (commandName : String) (fetchAirways useSetAltitude : Bool)
    (self : RouteController) (r : List rf.RouteEntry)
    (hlen : 2 ≤ self.flightplan.entries.length)
    (hfound : env.calculateRoute routeFinder.network self.flightplan.departurePos
      self.flightplan.destinationPos
      (if useSetAltitude then self.flightplan.cruisingAlt else 0) = (true, r))
    (hbuild : ∀ re ∈ r,
      (assembledEntry env.query self.curUserpointNumber fetchAirways re).isSome) :
    (∀ calculateRoute' : RouteNetwork → Pos → Pos → ℤ → Bool × List rf.RouteEntry,
      calculateRoute' routeFinder.network self.flightplan.departurePos
          self.flightplan.destinationPos
          (if useSetAltitude then self.flightplan.cruisingAlt else 0)
        = env.calculateRoute routeFinder.network self.flightplan.departurePos
          self.flightplan.destinationPos
          (if useSetAltitude then self.flightplan.cruisingAlt else 0) →
      calculateRouteInternal { env with calculateRoute := calculateRoute' } routeFinder type
          commandName fetchAirways useSetAltitude self
        = calculateRouteInternal env routeFinder type commandName fetchAirways useSetAltitude
          self) ∧
    ∃ s', calculateRouteInternal env routeFinder type commandName fetchAirways useSetAltitude
        self = some s' ∧
      (useSetAltitude = true ∨
          (if fetchAirways then maxAirwayMinAltitude env.query r else 0) = 0 →
        s'.flightplan.cruisingAlt = self.flightplan.cruisingAlt) ∧
      (s'.flightplan.cruisingAlt ≠ self.flightplan.cruisingAlt →
        useSetAltitude = false ∧
          (if fetchAirways then maxAirwayMinAltitude env.query r else 0) ≠ 0) := by
  constructor
  · intro calculateRoute' hagree
    unfold calculateRouteInternal searchAltitude
    simp only [hagree]
    rfl
  · obtain ⟨s', hs, halt⟩ := calculateRouteInternal_cruisingAlt env routeFinder type
      commandName fetchAirways useSetAltitude self r hlen hfound hbuild
    have hkeep : useSetAltitude = true ∨
        (if fetchAirways then maxAirwayMinAltitude env.query r else 0) = 0 →
        s'.flightplan.cruisingAlt = self.flightplan.cruisingAlt := by
      intro h
      rw [halt, if_neg]
      rintro ⟨h1, h2⟩
      rcases h with h | h
      · rw [h] at h2; exact Bool.noConfusion h2
      · exact h1 h
    refine ⟨s', hs, hkeep, ?_⟩
    intro hchg
    by_contra hcon
    apply hchg
    apply hkeep
    by_cases hu : useSetAltitude = true
    · exact Or.inl hu
    · right
      by_contra hm
      exact hcon ⟨by simpa using hu, hm⟩

theorem calculateRouteInternal_preset_altitude_witness :
    (∀ calculateRoute' : RouteNetwork → Pos → Pos → ℤ → Bool × List rf.RouteEntry,
      calculateRoute' (RouteFinder.mk ⟨{}⟩).network
          (Sample.controller FlightplanType.IFR 5000).flightplan.departurePos
          (Sample.controller FlightplanType.IFR 5000).flightplan.destinationPos
          (if true then (Sample.controller FlightplanType.IFR 5000).flightplan.cruisingAlt
            else 0)
        = (Sample.env 90 true (Sample.route 17000 9000)).calculateRoute
          (RouteFinder.mk ⟨{}⟩).network
          (Sample.controller FlightplanType.IFR 5000).flightplan.departurePos
          (Sample.controller FlightplanType.IFR 5000).flightplan.destinationPos
          (if true then (Sample.controller FlightplanType.IFR 5000).flightplan.cruisingAlt
            else 0) →
      calculateRouteInternal
          { Sample.env 90 true (Sample.route 17000 9000) with
            calculateRoute := calculateRoute' } ⟨⟨{}⟩⟩ RouteType.LOW_ALT "Low altitude route"
          true true (Sample.controller FlightplanType.IFR 5000)
        = calculateRouteInternal (Sample.env 90 true (Sample.route 17000 9000)) ⟨⟨{}⟩⟩
          RouteType.LOW_ALT "Low altitude route" true true
          (Sample.controller FlightplanType.IFR 5000)) ∧
    ∃ s', calculateRouteInternal (Sample.env 90 true (Sample.route 17000 9000)) ⟨⟨{}⟩⟩
        RouteType.LOW_ALT "Low altitude route" true true
        (Sample.controller FlightplanType.IFR 5000) = some s' ∧
      (true = true ∨
          (if true then maxAirwayMinAltitude (Sample.env 90 true (Sample.route 17000 9000)).query
            (Sample.route 17000 9000) else 0) = 0 →
        s'.flightplan.cruisingAlt
          = (Sample.controller FlightplanType.IFR 5000).flightplan.cruisingAlt) ∧
      (s'.flightplan.cruisingAlt
          ≠ (Sample.controller FlightplanType.IFR 5000).flightplan.cruisingAlt →
        true = false ∧
          (if true then maxAirwayMinAltitude (Sample.env 90 true (Sample.route 17000 9000)).query
            (Sample.route 17000 9000) else 0) ≠ 0) :=
  calculateRouteInternal_preset_altitude (Sample.env 90 true (Sample.route 17000 9000)) ⟨⟨{}⟩⟩
    RouteType.LOW_ALT "Low altitude route" true true (Sample.controller FlightplanType.IFR 5000)
    (Sample.route 17000 9000) (by decide) rfl (sample_resolves true 17000 9000)


/-- C8: the loop of `calculateRouteInternal` hands to the cruising altitude derivation the value
`M` that is, when airways are fetched, the larger of 0 and the largest minimum altitude of the
airways of the route entries with `airwayId ≠ -1`, and that is 0 when `fetchAirways` is false or
no route entry uses an airway. -/
theorem calculateRouteInternal_running_maximum (env : Env) (routeFinder : RouteFinder)
    (type : RouteType) (commandName : String) (fetchAirways useSetAltitude : Bool)
    (self : RouteController) (r : List rf.RouteEntry)
    (hlen : 2 ≤ self.flightplan.entries.length)
    (hfound : env.calculateRoute routeFinder.network self.flightplan.departurePos
      self.flightplan.destinationPos (searchAltitude self.flightplan useSetAltitude) = (true, r))
    (hbuild : ∀ re ∈ r,
      (assembledEntry env.query self.curUserpointNumber fetchAirways re).isSome) :
    ∃ (first last : FlightplanEntry) (es : List FlightplanEntry) (M : ℤ),
      self.flightplan.entries.head? = some first ∧
      self.flightplan.entries.getLast? = some last ∧
      routeLoop env.query self.curUserpointNumber fetchAirways r [first, last] 0
        = some (es, M) ∧
      calculateRouteInternal env routeFinder type commandName fetchAirways useSetAltitude self
        = some (postChange
            { self with
              flightplan := updateCruisingAlt env
                { self.flightplan with routeType := type, entries := es } M useSetAltitude }
            (preChange self commandName)) ∧
      M = (if fetchAirways then maxAirwayMinAltitude env.query r else 0) ∧
      0 ≤ M ∧
      (fetchAirways = true → ∀ re ∈ r, re.airwayId ≠ -1 →
        (env.query.getAirwayById re.airwayId).minalt ≤ M) ∧
      (M = 0 ∨ ∃ re ∈ r, re.airwayId ≠ -1 ∧ (env.query.getAirwayById re.airwayId).minalt = M) ∧
      (fetchAirways = false ∨ (∀ re ∈ r, re.airwayId = -1) → M = 0) := by
  obtain ⟨first, mid, last, hentries⟩ := QList.exists_first_last _ hlen
  have hloop := routeLoop_eq env.query self.curUserpointNumber fetchAirways last r [first] 0
    hbuild
  rw [foldl_airwayMax] at hloop
  refine ⟨first, last, _, _, ?_, ?_, hloop, ?_, rfl, ?_, ?_, ?_, ?_⟩
  · rw [hentries]; rfl
  · rw [hentries]; exact QList.getLast?_cons_snoc first mid last
  · rw [calculateRouteInternal_found env routeFinder type commandName fetchAirways
      useSetAltitude self r first mid last hentries hfound hbuild, foldl_airwayMax]
  · split_ifs
    · exact maxAirwayMinAltitude_nonneg env.query r
    · exact le_rfl
  · intro hfa re hre hne
    rw [if_pos hfa]
    exact maxAirwayMinAltitude_ge env.query r re hre hne
  · split_ifs
    · exact maxAirwayMinAltitude_attained env.query r
    · exact Or.inl rfl
  · rintro (hfa | hall)
    · rw [hfa]; rfl
    · split_ifs
      · exact maxAirwayMinAltitude_no_airway env.query r hall
      · rfl

theorem calculateRouteInternal_running_maximum_witness :
    ∃ (first last : FlightplanEntry) (es : List FlightplanEntry) (M : ℤ),
      (Sample.controller FlightplanType.IFR 5000).flightplan.entries.head? = some first ∧
      (Sample.controller FlightplanType.IFR 5000).flightplan.entries.getLast? = some last ∧
      routeLoop (Sample.env 90 true (Sample.route 17000 9000)).query
          (Sample.controller FlightplanType.IFR 5000).curUserpointNumber true
          (Sample.route 17000 9000) [first, last] 0
        = some (es, M) ∧
      calculateRouteInternal (Sample.env 90 true (Sample.route 17000 9000)) ⟨⟨{}⟩⟩
          RouteType.HIGH_ALT "High altitude route" true false
          (Sample.controller FlightplanType.IFR 5000)
        = some (postChange
            { Sample.controller FlightplanType.IFR 5000 with
              flightplan := updateCruisingAlt (Sample.env 90 true (Sample.route 17000 9000))
                { (Sample.controller FlightplanType.IFR 5000).flightplan with
                  routeType := RouteType.HIGH_ALT, entries := es } M false }
            (preChange (Sample.controller FlightplanType.IFR 5000) "High altitude route")) ∧
      M = (if true then maxAirwayMinAltitude (Sample.env 90 true (Sample.route 17000 9000)).query
        (Sample.route 17000 9000) else 0) ∧
      0 ≤ M ∧
      (true = true → ∀ re ∈ Sample.route 17000 9000, re.airwayId ≠ -1 →
        ((Sample.env 90 true (Sample.route 17000 9000)).query.getAirwayById re.airwayId).minalt
          ≤ M) ∧
      (M = 0 ∨ ∃ re ∈ Sample.route 17000 9000, re.airwayId ≠ -1 ∧
        ((Sample.env 90 true (Sample.route 17000 9000)).query.getAirwayById re.airwayId).minalt
          = M) ∧
      (true = false ∨ (∀ re ∈ Sample.route 17000 9000, re.airwayId = -1) → M = 0) :=
  calculateRouteInternal_running_maximum (Sample.env 90 true (Sample.route 17000 9000)) ⟨⟨{}⟩⟩
    RouteType.HIGH_ALT "High altitude route" true false
    (Sample.controller FlightplanType.IFR 5000) (Sample.route 17000 9000) (by decide) rfl
    (sample_resolves true 17000 9000)


/-- C9: for a map object of type WAYPOINT whose record `wp` is found, `buildFlightplanEntry`
returns a VOR entry with ident, region and position of the VOR under the waypoint iff
`resolveWaypoints` is true and `wp.type` is `"VOR"`, an NDB entry with the data of the NDB iff
`resolveWaypoints` is true and `wp.type` is `"NDB"`, and in every other case an INTERSECTION
entry with the ident, region and position of the waypoint itself; the waypoint id always equals
the ICAO ident. -/
theorem buildFlightplanEntry_waypoint (query : MapQuery) (curUserpointNumber id : ℤ)
    (userPos : Pos) (e0 : FlightplanEntry) (resolveWaypoints : Bool)
    (wp : maptypes.MapWaypoint)
    (hwp : (query.getMapObjectById maptypes.MapObjectTypes.WAYPOINT id).waypoints.head?
      = some wp) :
    ∃ e', buildFlightplanEntry query curUserpointNumber id userPos
        maptypes.MapObjectTypes.WAYPOINT e0 resolveWaypoints = some e' ∧
      (resolveWaypoints = true ∧ wp.type = "VOR" →
        e'.waypointType = entry.WaypointType.VOR ∧
        e'.icaoIdent = (query.getVorForWaypoint wp.id).ident ∧
        e'.icaoRegion = (query.getVorForWaypoint wp.id).region ∧
        e'.position = (query.getVorForWaypoint wp.id).position) ∧
      (resolveWaypoints = true ∧ wp.type = "NDB" →
        e'.waypointType = entry.WaypointType.NDB ∧
        e'.icaoIdent = (query.getNdbForWaypoint wp.id).ident ∧
        e'.icaoRegion = (query.getNdbForWaypoint wp.id).region ∧
        e'.position = (query.getNdbForWaypoint wp.id).position) ∧
      (¬ (resolveWaypoints = true ∧ (wp.type = "VOR" ∨ wp.type = "NDB")) →
        e'.waypointType = entry.WaypointType.INTERSECTION ∧
        e'.icaoIdent = wp.ident ∧ e'.icaoRegion = wp.region ∧ e'.position = wp.position) ∧
      (e'.waypointType = entry.WaypointType.VOR ↔ resolveWaypoints = true ∧ wp.type = "VOR") ∧
      (e'.waypointType = entry.WaypointType.NDB ↔ resolveWaypoints = true ∧ wp.type = "NDB") ∧
      e'.waypointId = e'.icaoIdent := by
  unfold buildFlightplanEntry
  simp only [hwp]
  have hne : ("VOR" : String) ≠ "NDB" := by decide
  by_cases hv : resolveWaypoints = true ∧ wp.type = "VOR"
  · obtain ⟨h1, h2⟩ := hv
    simp [h1, h2]
  · by_cases hn : resolveWaypoints = true ∧ wp.type = "NDB"
    · obtain ⟨h1, h2⟩ := hn
      simp [h1, h2]
    · rw [not_and] at hv hn
      by_cases hr : resolveWaypoints = true
      · have h1 := hv hr
        have h2 := hn hr
        simp [hr, h1, h2]
      · have hr' : resolveWaypoints = false := by simpa using hr
        simp [hr']

theorem buildFlightplanEntry_waypoint_witness :
    ∃ e', buildFlightplanEntry Sample.query 1 1 EMPTY_POS
        maptypes.MapObjectTypes.WAYPOINT {} true = some e' ∧
      (true = true ∧ ("VOR" : String) = "VOR" →
        e'.waypointType = entry.WaypointType.VOR ∧
        e'.icaoIdent = (Sample.query.getVorForWaypoint 1).ident ∧
        e'.icaoRegion = (Sample.query.getVorForWaypoint 1).region ∧
        e'.position = (Sample.query.getVorForWaypoint 1).position) ∧
      (true = true ∧ ("VOR" : String) = "NDB" →
        e'.waypointType = entry.WaypointType.NDB ∧
        e'.icaoIdent = (Sample.query.getNdbForWaypoint 1).ident ∧
        e'.icaoRegion = (Sample.query.getNdbForWaypoint 1).region ∧
        e'.position = (Sample.query.getNdbForWaypoint 1).position) ∧
      (¬ (true = true ∧ (("VOR" : String) = "VOR" ∨ ("VOR" : String) = "NDB")) →
        e'.waypointType = entry.WaypointType.INTERSECTION ∧
        e'.icaoIdent = "WPT" ∧ e'.icaoRegion = "ED" ∧ e'.position = ⟨9, 49, 0⟩) ∧
      (e'.waypointType = entry.WaypointType.VOR ↔ true = true ∧ ("VOR" : String) = "VOR") ∧
      (e'.waypointType = entry.WaypointType.NDB ↔ true = true ∧ ("VOR" : String) = "NDB") ∧
      e'.waypointId = e'.icaoIdent :=
  buildFlightplanEntry_waypoint Sample.query 1 1 EMPTY_POS {} true
    ⟨1, "WPT", "ED", "VOR", ⟨9, 49, 0⟩⟩ rfl


/-- The two outcomes of a terminating `calculateRouteInternal`. -/
theorem calculateRouteInternal_some (env : Env) (routeFinder : RouteFinder) (type : RouteType)
    (commandName : String) (fetchAirways useSetAltitude : Bool) (self s' : RouteController)
    (hs : calculateRouteInternal env routeFinder type commandName fetchAirways useSetAltitude
      self = some s') :
    ((env.calculateRoute routeFinder.network self.flightplan.departurePos
        self.flightplan.destinationPos (searchAltitude self.flightplan useSetAltitude)).1 = false
      ∧ s' = self) ∨
    ((env.calculateRoute routeFinder.network self.flightplan.departurePos
        self.flightplan.destinationPos (searchAltitude self.flightplan useSetAltitude)).1 = true
      ∧ ∃ es M, s' = postChange
          { self with
            flightplan := updateCruisingAlt env
              { self.flightplan with routeType := type, entries := es } M useSetAltitude }
          (preChange self commandName)) := by
  unfold calculateRouteInternal at hs
  simp only at hs
  cases hf : (env.calculateRoute routeFinder.network self.flightplan.departurePos
        self.flightplan.destinationPos (searchAltitude self.flightplan useSetAltitude)).1 with
  | false =>
    left
    rw [hf] at hs
    simp only [Bool.false_eq_true, if_false, Option.some.injEq] at hs
    exact ⟨rfl, hs.symm⟩
  | true =>
    right
    rw [hf] at hs
    simp only [if_true] at hs
    refine ⟨rfl, ?_⟩
    split at hs
    · exact absurd hs (by simp)
    · split at hs
      · exact absurd hs (by simp)
      · rename_i es M _
        exact ⟨es, M, (Option.some.inj hs).symm⟩

/-- The networks of the controller are not written by `calculateRouteInternal`. -/
theorem calculateRouteInternal_networks (env : Env) (routeFinder : RouteFinder)
    (type : RouteType) (commandName : String) (fetchAirways useSetAltitude : Bool)
    (self s' : RouteController)
    (hs : calculateRouteInternal env routeFinder type commandName fetchAirways useSetAltitude
      self = some s') :
    s'.routeNetworkRadio = self.routeNetworkRadio ∧
      s'.routeNetworkAirway = self.routeNetworkAirway := by
  rcases calculateRouteInternal_some env routeFinder type commandName fetchAirways
    useSetAltitude self s' hs with ⟨_, rfl⟩ | ⟨_, es, M, rfl⟩
  · exact ⟨rfl, rfl⟩
  · exact ⟨rfl, rfl⟩

/-- A found route sets the route type handed in. -/
theorem calculateRouteInternal_routeType (env : Env) (routeFinder : RouteFinder)
    (type : RouteType) (commandName : String) (fetchAirways useSetAltitude : Bool)
    (self s' : RouteController)
    (hs : calculateRouteInternal env routeFinder type commandName fetchAirways useSetAltitude
      self = some s')
    (hf : (env.calculateRoute routeFinder.network self.flightplan.departurePos
        self.flightplan.destinationPos (searchAltitude self.flightplan useSetAltitude)).1
      = true) :
    s'.flightplan.routeType = type := by
  rcases calculateRouteInternal_some env routeFinder type commandName fetchAirways
    useSetAltitude self s' hs with ⟨hf', _⟩ | ⟨_, es, M, rfl⟩
  · rw [hf] at hf'; exact absurd hf' (by simp)
  · simp

/-- With a pre-set altitude the cruising altitude is never written. -/
theorem calculateRouteInternal_keeps_preset (env : Env) (routeFinder : RouteFinder)
    (type : RouteType) (commandName : String) (fetchAirways : Bool)
    (self s' : RouteController)
    (hs : calculateRouteInternal env routeFinder type commandName fetchAirways true
      self = some s') :
    s'.flightplan.cruisingAlt = self.flightplan.cruisingAlt := by
  rcases calculateRouteInternal_some env routeFinder type commandName fetchAirways
    true self s' hs with ⟨_, rfl⟩ | ⟨_, es, M, rfl⟩
  · rfl
  · rw [postChange_flightplan, updateCruisingAlt_cruisingAlt, if_neg (by simp)]

/-- The result depends on the finder only through its answer for the network of the finder, the
two end positions of the plan and the search altitude. -/
theorem calculateRouteInternal_congr_finder (env : Env) (routeFinder : RouteFinder)
    (type : RouteType) (commandName : String) (fetchAirways useSetAltitude : Bool)
    (self : RouteController)
    (calculateRoute' : RouteNetwork → Pos → Pos → ℤ → Bool × List rf.RouteEntry)
    (h : calculateRoute' routeFinder.network self.flightplan.departurePos
        self.flightplan.destinationPos (searchAltitude self.flightplan useSetAltitude)
      = env.calculateRoute routeFinder.network self.flightplan.departurePos
        self.flightplan.destinationPos (searchAltitude self.flightplan useSetAltitude)) :
    calculateRouteInternal { env with calculateRoute := calculateRoute' } routeFinder type
        commandName fetchAirways useSetAltitude self
      = calculateRouteInternal env routeFinder type commandName fetchAirways useSetAltitude
        self := by
  unfold calculateRouteInternal
  simp only [h]
  rfl

theorem routeLoop_without_airways (query : MapQuery) (c : ℤ)
    (getAirwayById' : ℤ → maptypes.MapAirway) :
    ∀ (r : List rf.RouteEntry) (entries : List FlightplanEntry) (m : ℤ),
      routeLoop { query with getAirwayById := getAirwayById' } c false r entries m
        = routeLoop query c false r entries m
  | [], _, _ => rfl
  | re :: r, entries, m => by
    unfold routeLoop
    have hstep : routeEntryStep { query with getAirwayById := getAirwayById' } c false re m
        = routeEntryStep query c false re m := by
      unfold routeEntryStep
      have hb : buildFlightplanEntry { query with getAirwayById := getAirwayById' } c re.ref.id
          EMPTY_POS re.ref.type {} false
          = buildFlightplanEntry query c re.ref.id EMPTY_POS re.ref.type {} false := rfl
      rw [hb]
      cases buildFlightplanEntry query c re.ref.id EMPTY_POS re.ref.type {} false <;> simp
    rw [hstep]
    cases routeEntryStep query c false re m with
    | none => rfl
    | some p =>
      obtain ⟨e, m'⟩ := p
      simp only
      cases QList.insert entries ((entries.length : ℤ) - 1) e with
      | none => rfl
      | some es => exact routeLoop_without_airways query c getAirwayById' r es m'

/-- Without `fetchAirways` the airway table is not consulted. -/
theorem calculateRouteInternal_without_airways (env : Env) (routeFinder : RouteFinder)
    (type : RouteType) (commandName : String) (useSetAltitude : Bool)
    (self : RouteController) (getAirwayById' : ℤ → maptypes.MapAirway) :
    calculateRouteInternal
        { env with query := { env.query with getAirwayById := getAirwayById' } } routeFinder
        type commandName false useSetAltitude self
      = calculateRouteInternal env routeFinder type commandName false useSetAltitude self := by
  unfold calculateRouteInternal
  simp only [routeLoop_without_airways]
  rfl


/-- C10: each entry point writes its mode mask into its network, then searches with a finder on
that network and hands its route type to `calculateRouteInternal`: `calculateRadionav` uses
NDB|VOR|VORDME on the radio network, route type VOR and does not consult the airway table;
`calculateHighAlt` uses JET and HIGH_ALT; `calculateLowAlt` uses VICTOR and LOW_ALT;
`calculateSetAlt` uses VICTOR|JET, searches at the cruising altitude of the plan, leaves that
altitude as it is and sets HIGH_ALT iff it is above 20000 ft, LOW_ALT otherwise. -/
theorem entry_points_configuration (env : Env) (self : RouteController) :
    -- calculateRadionav
    (calculateRadionav env self
        = calculateRouteInternal env ⟨⟨nw.ROUTE_NDB ||| nw.ROUTE_VOR ||| nw.ROUTE_VORDME⟩⟩
            RouteType.VOR "Radionnav route" false false
            { self with
              routeNetworkRadio := ⟨nw.ROUTE_NDB ||| nw.ROUTE_VOR ||| nw.ROUTE_VORDME⟩ }) ∧
    (∀ s', calculateRadionav env self = some s' →
      s'.routeNetworkRadio.mode = (nw.ROUTE_NDB ||| nw.ROUTE_VOR ||| nw.ROUTE_VORDME) ∧
      s'.routeNetworkRadio.mode = { ndb := true, vor := true, vordme := true } ∧
      ((env.calculateRoute ⟨nw.ROUTE_NDB ||| nw.ROUTE_VOR ||| nw.ROUTE_VORDME⟩
          self.flightplan.departurePos self.flightplan.destinationPos 0).1 = true →
        s'.flightplan.routeType = RouteType.VOR)) ∧
    (∀ calculateRoute' : RouteNetwork → Pos → Pos → ℤ → Bool × List rf.RouteEntry,
      calculateRoute' ⟨nw.ROUTE_NDB ||| nw.ROUTE_VOR ||| nw.ROUTE_VORDME⟩
          self.flightplan.departurePos self.flightplan.destinationPos 0
        = env.calculateRoute ⟨nw.ROUTE_NDB ||| nw.ROUTE_VOR ||| nw.ROUTE_VORDME⟩
          self.flightplan.departurePos self.flightplan.destinationPos 0 →
      calculateRadionav { env with calculateRoute := calculateRoute' } self
        = calculateRadionav env self) ∧
    (∀ getAirwayById' : ℤ → maptypes.MapAirway,
      calculateRadionav
          { env with query := { env.query with getAirwayById := getAirwayById' } } self
        = calculateRadionav env self) ∧
    -- calculateHighAlt
    (calculateHighAlt env self
        = calculateRouteInternal env ⟨⟨nw.ROUTE_JET⟩⟩ RouteType.HIGH_ALT "High altitude route"
            true false { self with routeNetworkAirway := ⟨nw.ROUTE_JET⟩ }) ∧
    (∀ s', calculateHighAlt env self = some s' →
      s'.routeNetworkAirway.mode = nw.ROUTE_JET ∧
      s'.routeNetworkAirway.mode = { jet := true } ∧
      ((env.calculateRoute ⟨nw.ROUTE_JET⟩
          self.flightplan.departurePos self.flightplan.destinationPos 0).1 = true →
        s'.flightplan.routeType = RouteType.HIGH_ALT)) ∧
    (∀ calculateRoute' : RouteNetwork → Pos → Pos → ℤ → Bool × List rf.RouteEntry,
      calculateRoute' ⟨nw.ROUTE_JET⟩ self.flightplan.departurePos
          self.flightplan.destinationPos 0
        = env.calculateRoute ⟨nw.ROUTE_JET⟩ self.flightplan.departurePos
          self.flightplan.destinationPos 0 →
      calculateHighAlt { env with calculateRoute := calculateRoute' } self
        = calculateHighAlt env self) ∧
    -- calculateLowAlt
    (calculateLowAlt env self
        = calculateRouteInternal env ⟨⟨nw.ROUTE_VICTOR⟩⟩ RouteType.LOW_ALT "Low altitude route"
            true false { self with routeNetworkAirway := ⟨nw.ROUTE_VICTOR⟩ }) ∧
    (∀ s', calculateLowAlt env self = some s' →
      s'.routeNetworkAirway.mode = nw.ROUTE_VICTOR ∧
      s'.routeNetworkAirway.mode = { victor := true } ∧
      ((env.calculateRoute ⟨nw.ROUTE_VICTOR⟩
          self.flightplan.departurePos self.flightplan.destinationPos 0).1 = true →
        s'.flightplan.routeType = RouteType.LOW_ALT)) ∧
    (∀ calculateRoute' : RouteNetwork → Pos → Pos → ℤ → Bool × List rf.RouteEntry,
      calculateRoute' ⟨nw.ROUTE_VICTOR⟩ self.flightplan.departurePos
          self.flightplan.destinationPos 0
        = env.calculateRoute ⟨nw.ROUTE_VICTOR⟩ self.flightplan.departurePos
          self.flightplan.destinationPos 0 →
      calculateLowAlt { env with calculateRoute := calculateRoute' } self
        = calculateLowAlt env self) ∧
    -- calculateSetAlt
    (calculateSetAlt env self
        = calculateRouteInternal env ⟨⟨nw.ROUTE_VICTOR ||| nw.ROUTE_JET⟩⟩
            (if self.flightplan.cruisingAlt > 20000 then RouteType.HIGH_ALT
              else RouteType.LOW_ALT)
            "Low altitude route" true true
            { self with routeNetworkAirway := ⟨nw.ROUTE_VICTOR ||| nw.ROUTE_JET⟩ }) ∧
    (∀ s', calculateSetAlt env self = some s' →
      s'.routeNetworkAirway.mode = (nw.ROUTE_VICTOR ||| nw.ROUTE_JET) ∧
      s'.routeNetworkAirway.mode = { victor := true, jet := true } ∧
      s'.flightplan.cruisingAlt = self.flightplan.cruisingAlt ∧
      ((env.calculateRoute ⟨nw.ROUTE_VICTOR ||| nw.ROUTE_JET⟩
          self.flightplan.departurePos self.flightplan.destinationPos
          self.flightplan.cruisingAlt).1 = true →
        (s'.flightplan.routeType = RouteType.HIGH_ALT ↔ self.flightplan.cruisingAlt > 20000) ∧
        (s'.flightplan.routeType = RouteType.LOW_ALT ↔
          ¬ self.flightplan.cruisingAlt > 20000))) ∧
    (∀ calculateRoute' : RouteNetwork → Pos → Pos → ℤ → Bool × List rf.RouteEntry,
      calculateRoute' ⟨nw.ROUTE_VICTOR ||| nw.ROUTE_JET⟩ self.flightplan.departurePos
          self.flightplan.destinationPos self.flightplan.cruisingAlt
        = env.calculateRoute ⟨nw.ROUTE_VICTOR ||| nw.ROUTE_JET⟩ self.flightplan.departurePos
          self.flightplan.destinationPos self.flightplan.cruisingAlt →
      calculateSetAlt { env with calculateRoute := calculateRoute' } self
        = calculateSetAlt env self) := by
  refine ⟨rfl, ?_, ?_, ?_, rfl, ?_, ?_, rfl, ?_, ?_, rfl, ?_, ?_⟩
  · intro s' hs
    have hn := calculateRouteInternal_networks _ _ _ _ _ _ _ _ hs
    refine ⟨by rw [hn.1]; rfl, by rw [hn.1]; rfl, fun hf => ?_⟩
    exact calculateRouteInternal_routeType _ _ _ _ _ _ _ _ hs hf
  · intro c' h
    exact calculateRouteInternal_congr_finder env _ _ _ _ _ _ c' h
  · intro g
    exact calculateRouteInternal_without_airways env _ _ _ _ _ g
  · intro s' hs
    have hn := calculateRouteInternal_networks _ _ _ _ _ _ _ _ hs
    refine ⟨by rw [hn.2]; rfl, by rw [hn.2]; rfl, fun hf => ?_⟩
    exact calculateRouteInternal_routeType _ _ _ _ _ _ _ _ hs hf
  · intro c' h
    exact calculateRouteInternal_congr_finder env _ _ _ _ _ _ c' h
  · intro s' hs
    have hn := calculateRouteInternal_networks _ _ _ _ _ _ _ _ hs
    refine ⟨by rw [hn.2]; rfl, by rw [hn.2]; rfl, fun hf => ?_⟩
    exact calculateRouteInternal_routeType _ _ _ _ _ _ _ _ hs hf
  · intro c' h
    exact calculateRouteInternal_congr_finder env _ _ _ _ _ _ c' h
  · intro s' hs
    have hn := calculateRouteInternal_networks _ _ _ _ _ _ _ _ hs
    have hk := calculateRouteInternal_keeps_preset _ _ _ _ _ _ _ hs
    refine ⟨by rw [hn.2]; rfl, by rw [hn.2]; rfl, hk, fun hf => ?_⟩
    have ht := calculateRouteInternal_routeType _ _ _ _ _ _ _ _ hs hf
    rw [ht]
    by_cases h : self.flightplan.cruisingAlt > 20000
    · simp [h]
    · simp [h]
  · intro c' h
    exact calculateRouteInternal_congr_finder env _ _ _ _ _ _ c' h

end RouteController

/-! Map tools. -/

namespace F32

theorem roundNearestEven_tie_odd (f : ℤ) (hf : f % 2 = 1) :
    roundNearestEven ((f : ℚ) + 1 / 2) = f + 1 := by
  have hfl : ⌊(f : ℚ) + 1 / 2⌋ = f := by
    rw [Int.floor_eq_iff]; constructor <;> norm_num
  unfold roundNearestEven
  simp only [hfl]
  norm_num [hf]

theorem ofInt_16777219 : ofInt 16777219 = 16777220 := by
  have hu : ulpExp ((16777219 : ℤ) : ℚ) = 1 := by
    unfold ulpExp
    rw [log2_eq _ 24 (by norm_num) (by norm_num)]
    norm_num
  unfold ofInt round
  rw [hu]
  have : (((16777219 : ℤ) : ℚ)) / 2 ^ (1 : ℤ) = ((8388609 : ℤ) : ℚ) + 1 / 2 := by norm_num
  rw [this, roundNearestEven_tie_odd _ (by norm_num)]
  norm_num

theorem ofInt_exact (n : ℤ) (h : |n| ≤ 2 ^ 24) : ofInt n = n := by
  unfold ofInt
  rcases abs_le.1 h with ⟨h1, h2⟩
  rcases eq_or_lt_of_le h2 with he | hl
  · exact round_intCast_scaled n (2 ^ 23) 1 (by rw [he]; norm_num) (by norm_num)
  · rcases eq_or_lt_of_le h1 with he' | hl'
    · exact round_intCast_scaled n (-(2 ^ 23)) 1 (by rw [← he']; norm_num) (by norm_num)
    · exact round_intCast n (by rw [abs_lt]; exact ⟨hl', hl⟩)

end F32

namespace maptools

theorem removeFarthest_foldl_sentinel {TYPE : Type} (geo : Geo) (getPosition : TYPE → Pos)
    (pos : Pos) :
    ∀ (list : List TYPE) (acc : TYPE × ℚ),
      (∀ x ∈ list, acc.2 ≤ geo.distanceMeterTo (getPosition x) pos) →
      list.foldl
        (fun (acc : TYPE × ℚ) entry =>
          let dist := geo.distanceMeterTo (getPosition entry) pos
          if dist < acc.2 then (entry, dist) else acc) acc = acc
  | [], _, _ => rfl
  | x :: l, acc, h => by
    simp only [List.foldl_cons]
    rw [if_neg (not_lt.2 (h x (List.mem_cons_self _ _)))]
    exact removeFarthest_foldl_sentinel geo getPosition pos l acc
      (fun y hy => h y (List.mem_cons_of_mem _ hy))

/-- When no element is nearer than the largest `float`, `removeFarthest` leaves the default
constructed element in the list. -/
theorem removeFarthest_none_below_sentinel {TYPE : Type} [Inhabited TYPE] (geo : Geo)
    (getPosition : TYPE → Pos) (pos : Pos) (list : List TYPE) (hne : list ≠ [])
    (h : ∀ x ∈ list, FLT_MAX ≤ geo.distanceMeterTo (getPosition x) pos) :
    removeFarthest geo getPosition pos list = (FLT_MAX, [default]) := by
  unfold removeFarthest
  have : list.isEmpty = false := by
    cases list with
    | nil => exact absurd rfl hne
    | cons _ _ => rfl
  simp only [this, Bool.false_eq_true, if_false]
  rw [removeFarthest_foldl_sentinel geo getPosition pos list _ h]

theorem removeFarthest_foldl_closest {TYPE : Type} (geo : Geo) (getPosition : TYPE → Pos)
    (pos : Pos) :
    ∀ (list : List TYPE) (acc : TYPE × ℚ),
      let r := list.foldl
        (fun (acc : TYPE × ℚ) entry =>
          let dist := geo.distanceMeterTo (getPosition entry) pos
          if dist < acc.2 then (entry, dist) else acc) acc
      r.2 ≤ acc.2 ∧ (∀ x ∈ list, r.2 ≤ geo.distanceMeterTo (getPosition x) pos) ∧
        (r = acc ∨ (r.1 ∈ list ∧ r.2 = geo.distanceMeterTo (getPosition r.1) pos))
  | [], acc => ⟨le_rfl, by simp, Or.inl rfl⟩
  | x :: l, acc => by
    simp only [List.foldl_cons]
    by_cases hx : geo.distanceMeterTo (getPosition x) pos < acc.2
    · rw [if_pos hx]
      obtain ⟨h1, h2, h3⟩ := removeFarthest_foldl_closest geo getPosition pos l
        (x, geo.distanceMeterTo (getPosition x) pos)
      refine ⟨le_trans h1 hx.le, ?_, ?_⟩
      · intro y hy
        rcases List.mem_cons.1 hy with rfl | hy
        · exact h1
        · exact h2 y hy
      · right
        rcases h3 with h3 | ⟨h3, h4⟩
        · rw [h3]; exact ⟨List.mem_cons_self _ _, rfl⟩
        · exact ⟨List.mem_cons_of_mem _ h3, h4⟩
    · rw [if_neg hx]
      obtain ⟨h1, h2, h3⟩ := removeFarthest_foldl_closest geo getPosition pos l acc
      refine ⟨h1, ?_, ?_⟩
      · intro y hy
        rcases List.mem_cons.1 hy with rfl | hy
        · exact le_trans h1 (not_lt.1 hx)
        · exact h2 y hy
      · rcases h3 with h3 | ⟨h3, h4⟩
        · exact Or.inl h3
        · exact Or.inr ⟨List.mem_cons_of_mem _ h3, h4⟩

/-- When some element is nearer than the largest `float`, `removeFarthest` keeps exactly one
element, a member of the list at minimal distance, and returns that distance. -/
theorem removeFarthest_closest {TYPE : Type} [Inhabited TYPE] (geo : Geo)
    (getPosition : TYPE → Pos) (pos : Pos) (list : List TYPE)
    (h : ∃ x ∈ list, geo.distanceMeterTo (getPosition x) pos < FLT_MAX) :
    ∃ c ∈ list, removeFarthest geo getPosition pos list
        = (geo.distanceMeterTo (getPosition c) pos, [c]) ∧
      ∀ x ∈ list, geo.distanceMeterTo (getPosition c) pos
        ≤ geo.distanceMeterTo (getPosition x) pos := by
  obtain ⟨x, hx, hlt⟩ := h
  have hne : list.isEmpty = false := by
    cases list with
    | nil => simp at hx
    | cons _ _ => rfl
  obtain ⟨h1, h2, h3⟩ := removeFarthest_foldl_closest geo getPosition pos list
    ((default : TYPE), FLT_MAX)
  rcases h3 with h3 | ⟨h3, h4⟩
  · exfalso
    have := h2 x hx
    rw [h3] at this
    exact absurd hlt (not_lt.2 this)
  · refine ⟨_, h3, ?_, fun y hy => by rw [← h4]; exact h2 y hy⟩
    unfold removeFarthest
    simp only [hne, Bool.false_eq_true, if_false]
    rw [← h4]

/-- C13 (the code at the failing input): for the one-element list holding a map object with id
7 and an invalid position, every distance being the largest `float`, `removeFarthest` returns
that value and leaves the default constructed object (id -1) in the list, which is not a member
of the list it was given. -/
theorem removeFarthest_invalid_position :
    removeFarthest Sample.geoInvalid Sample.MapObj.position EMPTY_POS [Sample.objAt 7 8]
        = (FLT_MAX, [(default : Sample.MapObj)]) ∧
      (default : Sample.MapObj) ∉ [Sample.objAt 7 8] ∧
      (default : Sample.MapObj).id = -1 := by
  refine ⟨?_, by decide, rfl⟩
  apply removeFarthest_none_below_sentinel
  · simp
  · intro x _
    exact le_rfl

/-- For the empty list `removeFarthest` returns the largest `float` and the empty list. -/
theorem removeFarthest_nil {TYPE : Type} [Inhabited TYPE] (geo : Geo)
    (getPosition : TYPE → Pos) (pos : Pos) :
    removeFarthest geo getPosition pos ([] : List TYPE) = (FLT_MAX, []) := rfl


theorem not_decide_gt (a b : ℚ) : (!decide (a > b)) = decide (a ≤ b) := by
  by_cases h : a ≤ b
  · simp [h, not_lt.2 h]
  · simp [h, not_le.1 h]

/-- C14 (amended): both overloads of `removeByDistance` leave the list unchanged when it is
empty, `pos` is invalid or the bound is not below the sentinel; otherwise the float overload
keeps exactly the elements at a distance `≤ maxDistanceMeter`, in their order, and the int
overload keeps exactly the elements at a distance `≤` the bound converted to `float`, which is
the bound itself whenever its magnitude is at most `2 ^ 24`. -/
theorem removeByDistance_keeps_near {TYPE : Type} (geo : Geo) (getPosition : TYPE → Pos)
    (list : List TYPE) (pos : Pos) :
    (∀ (INVALID_DISTANCE_VALUE maxDistanceMeter : ℚ),
      (list ≠ [] → geo.isValid pos = true → maxDistanceMeter < INVALID_DISTANCE_VALUE →
        removeByDistanceFloat geo getPosition INVALID_DISTANCE_VALUE list pos maxDistanceMeter
          = list.filter (fun t =>
              decide (geo.distanceMeterTo (getPosition t) pos ≤ maxDistanceMeter))) ∧
      (list = [] ∨ geo.isValid pos = false ∨ ¬ maxDistanceMeter < INVALID_DISTANCE_VALUE →
        removeByDistanceFloat geo getPosition INVALID_DISTANCE_VALUE list pos maxDistanceMeter
          = list)) ∧
    (∀ (INVALID_INDEX_VALUE maxDistanceMeter : ℤ),
      (list ≠ [] → geo.isValid pos = true → maxDistanceMeter < INVALID_INDEX_VALUE →
        removeByDistanceInt geo getPosition INVALID_INDEX_VALUE list pos maxDistanceMeter
          = list.filter (fun t =>
              decide (geo.distanceMeterTo (getPosition t) pos ≤ F32.ofInt maxDistanceMeter))) ∧
      (list ≠ [] → geo.isValid pos = true → maxDistanceMeter < INVALID_INDEX_VALUE →
        |maxDistanceMeter| ≤ 2 ^ 24 →
        removeByDistanceInt geo getPosition INVALID_INDEX_VALUE list pos maxDistanceMeter
          = list.filter (fun t =>
              decide (geo.distanceMeterTo (getPosition t) pos ≤ (maxDistanceMeter : ℚ)))) ∧
      (list = [] ∨ geo.isValid pos = false ∨ ¬ maxDistanceMeter < INVALID_INDEX_VALUE →
        removeByDistanceInt geo getPosition INVALID_INDEX_VALUE list pos maxDistanceMeter
          = list)) := by
  have hempty : list ≠ [] → list.isEmpty = false := by
    intro h
    cases list with
    | nil => exact absurd rfl h
    | cons _ _ => rfl
  have hempty' : list = [] → list.isEmpty = true := by
    intro h; rw [h]; rfl
  refine ⟨fun S M => ⟨?_, ?_⟩, fun S M => ⟨?_, ?_, ?_⟩⟩
  · intro hne hv hM
    unfold removeByDistanceFloat
    rw [if_neg (by simp [hempty hne, hv, hM])]
    simp only [not_decide_gt]
  · intro h
    unfold removeByDistanceFloat
    rw [if_pos]
    rcases h with h | h | h
    · exact Or.inl (hempty' h)
    · exact Or.inr (Or.inl h)
    · exact Or.inr (Or.inr h)
  · intro hne hv hM
    unfold removeByDistanceInt
    rw [if_neg (by simp [hempty hne, hv, hM])]
    simp only [not_decide_gt]
  · intro hne hv hM hr
    unfold removeByDistanceInt
    rw [if_neg (by simp [hempty hne, hv, hM]), F32.ofInt_exact _ hr]
    simp only [not_decide_gt]
  · intro h
    unfold removeByDistanceInt
    rw [if_pos]
    rcases h with h | h | h
    · exact Or.inl (hempty' h)
    · exact Or.inr (Or.inl h)
    · exact Or.inr (Or.inr h)

/-- C14 (as stated, refuted): the int overload with the bound 16 777 219 m keeps an element at
the distance 16 777 220 m, because the bound is compared as the `float` 16 777 220. -/
theorem removeByDistance_int_counterexample :
    removeByDistanceInt Sample.geoLon Sample.MapObj.position 2147483647
        [Sample.objAt 1 16777220, Sample.objAt 2 16777222] EMPTY_POS 16777219
      = [Sample.objAt 1 16777220] ∧
    ¬ (Sample.geoLon.distanceMeterTo (Sample.objAt 1 16777220).position EMPTY_POS
        ≤ ((16777219 : ℤ) : ℚ)) := by
  constructor
  · unfold removeByDistanceInt
    rw [if_neg (by simp [Sample.geoLon]), F32.ofInt_16777219]
    simp [List.filter_cons, Sample.geoLon, Sample.objAt, EMPTY_POS]
    norm_num
  · simp [Sample.geoLon, Sample.objAt, EMPTY_POS]
    norm_num


/-- The binary search returns the partition point of a range that is partitioned by `comp`. -/
theorem lowerBoundAux_spec {TYPE : Type} (comp : TYPE → Bool) (list : List TYPE)
    (hmono : ∀ (i j : ℕ) (x y : TYPE), i ≤ j → list[i]? = some x → list[j]? = some y →
      comp y = true → comp x = true) :
    ∀ (fuel first len : ℕ), len ≤ fuel → first + len ≤ list.length →
      (∀ (i : ℕ) (x : TYPE), i < first → list[i]? = some x → comp x = true) →
      (∀ (i : ℕ) (x : TYPE), first + len ≤ i → list[i]? = some x → comp x = false) →
      lowerBoundAux comp list fuel first len ≤ list.length ∧
      (∀ (i : ℕ) (x : TYPE), i < lowerBoundAux comp list fuel first len →
        list[i]? = some x → comp x = true) ∧
      (∀ (i : ℕ) (x : TYPE), lowerBoundAux comp list fuel first len ≤ i →
        list[i]? = some x → comp x = false)
  | 0, first, len, hf, hlen, hlo, hhi => by
    have : len = 0 := by omega
    subst this
    exact ⟨by simpa [lowerBoundAux] using hlen, by simpa [lowerBoundAux] using hlo,
      by simpa [lowerBoundAux] using hhi⟩
  | fuel + 1, first, len, hf, hlen, hlo, hhi => by
    unfold lowerBoundAux
    by_cases h0 : len = 0
    · subst h0
      simp only [if_true]
      exact ⟨by simpa using hlen, hlo, by simpa using hhi⟩
    · simp only [if_neg h0]
      have hmid : first + len / 2 < list.length := by
        have : len / 2 < len := Nat.div_lt_self (Nat.pos_of_ne_zero h0) (by norm_num)
        omega
      rw [List.getElem?_eq_getElem hmid]
      simp only
      by_cases hc : comp list[first + len / 2] = true
      · rw [if_pos hc]
        apply lowerBoundAux_spec comp list hmono fuel (first + len / 2 + 1) (len - len / 2 - 1)
        · omega
        · omega
        · intro i x hi hx
          exact hmono i (first + len / 2) x _ (by omega) hx
            (List.getElem?_eq_getElem hmid) hc
        · intro i x hi hx
          exact hhi i x (by omega) hx
      · rw [if_neg hc]
        apply lowerBoundAux_spec comp list hmono fuel first (len / 2)
        · omega
        · omega
        · exact hlo
        · intro i x hi hx
          by_contra hcx
          have hcx' : comp x = true := by simpa using hcx
          exact hc (hmono (first + len / 2) i _ x hi (List.getElem?_eq_getElem hmid) hx hcx')

theorem lowerBound_spec {TYPE : Type} (comp : TYPE → Bool) (list : List TYPE)
    (hmono : ∀ (i j : ℕ) (x y : TYPE), i ≤ j → list[i]? = some x → list[j]? = some y →
      comp y = true → comp x = true) :
    lowerBound comp list ≤ list.length ∧
      (∀ x ∈ list.take (lowerBound comp list), comp x = true) ∧
      (∀ x ∈ list.drop (lowerBound comp list), comp x = false) := by
  obtain ⟨h1, h2, h3⟩ := lowerBoundAux_spec comp list hmono list.length 0 list.length le_rfl
    (by omega) (fun i x hi => absurd hi (by omega))
    (fun i x hi hx => by
      have : list[i]? = none := List.getElem?_eq_none (by omega)
      rw [this] at hx; exact absurd hx (by simp))
  refine ⟨h1, ?_, ?_⟩
  · intro x hx
    obtain ⟨i, hi⟩ := List.mem_iff_getElem?.1 hx
    rw [List.getElem?_take] at hi
    split_ifs at hi with hlt
    exact h2 i x hlt hi
  · intro x hx
    obtain ⟨i, hi⟩ := List.mem_iff_getElem?.1 hx
    rw [List.getElem?_drop] at hi
    exact h3 _ x (Nat.le_add_right _ _) hi


/-- Insertion at the lower bound keeps a list sorted by screen distance sorted. -/
theorem insert_lowerBound_sorted {TYPE : Type} (d : TYPE → ℤ) (list : List TYPE) (type : TYPE)
    (hs : list.Pairwise (fun a b => d a ≤ d b)) :
    (list.take (lowerBound (fun a1 => decide (d a1 < d type)) list) ++
      type :: list.drop (lowerBound (fun a1 => decide (d a1 < d type)) list)).Pairwise
        (fun a b => d a ≤ d b) := by
  have hmono : ∀ (i j : ℕ) (x y : TYPE), i ≤ j → list[i]? = some x → list[j]? = some y →
      (fun a1 => decide (d a1 < d type)) y = true →
      (fun a1 => decide (d a1 < d type)) x = true := by
    intro i j x y hij hx hy hc
    simp only [decide_eq_true_eq] at hc ⊢
    rcases Nat.eq_or_lt_of_le hij with rfl | hlt
    · rw [hx] at hy
      cases hy
      exact hc
    · obtain ⟨hi, rfl⟩ := List.getElem?_eq_some.1 hx
      obtain ⟨hj, rfl⟩ := List.getElem?_eq_some.1 hy
      have := List.pairwise_iff_getElem.1 hs i j hi hj hlt
      omega
  obtain ⟨_, h2, h3⟩ := lowerBound_spec _ list hmono
  rw [List.pairwise_append]
  refine ⟨hs.sublist (List.take_sublist _ _), ?_, ?_⟩
  · rw [List.pairwise_cons]
    refine ⟨?_, hs.sublist (List.drop_sublist _ _)⟩
    intro y hy
    have := h3 y hy
    simp only [decide_eq_false_iff_not, not_lt] at this
    exact this
  · intro x hx y hy
    have hxlt := h2 x hx
    simp only [decide_eq_true_eq] at hxlt
    rcases List.mem_cons.1 hy with rfl | hy
    · exact hxlt.le
    · have := h3 y hy
      simp only [decide_eq_false_iff_not, not_lt] at this
      omega

/-- The list after the insertion of `type` at its lower bound. -/
theorem insertSortedByDistance_full {TYPE : Type} (conv : CoordinateConverter)
    (getPosition : TYPE → Pos) (getId : TYPE → ℤ) (list : List TYPE)
    (ids : Option (Finset ℤ)) (xs ys : ℤ) (type : TYPE)
    (h : (list.length : ℤ) > MAX_LIST_ENTRIES) :
    insertSortedByDistance conv getPosition getId list ids xs ys type = (list, ids) := by
  unfold insertSortedByDistance
  rw [if_pos h]

theorem insertSortedByDistance_known {TYPE : Type} (conv : CoordinateConverter)
    (getPosition : TYPE → Pos) (getId : TYPE → ℤ) (list : List TYPE) (s : Finset ℤ)
    (xs ys : ℤ) (type : TYPE) (h : getId type ∈ s) :
    insertSortedByDistance conv getPosition getId list (some s) xs ys type
      = (list, some s) := by
  unfold insertSortedByDistance
  split_ifs <;> simp_all

theorem insertSortedByDistance_new {TYPE : Type} (conv : CoordinateConverter)
    (getPosition : TYPE → Pos) (getId : TYPE → ℤ) (list : List TYPE) (s : Finset ℤ)
    (xs ys : ℤ) (type : TYPE) (hlen : ¬ (list.length : ℤ) > MAX_LIST_ENTRIES)
    (h : getId type ∉ s) :
    insertSortedByDistance conv getPosition getId list (some s) xs ys type
      = (list.take (lowerBound (fun a1 => decide (screenDistance conv getPosition xs ys a1
            < screenDistance conv getPosition xs ys type)) list)
          ++ type :: list.drop (lowerBound (fun a1 =>
            decide (screenDistance conv getPosition xs ys a1
              < screenDistance conv getPosition xs ys type)) list),
        some (insert (getId type) s)) := by
  unfold insertSortedByDistance
  rw [if_neg hlen]
  simp [h]

theorem insertSortedByDistance_null {TYPE : Type} (conv : CoordinateConverter)
    (getPosition : TYPE → Pos) (getId : TYPE → ℤ) (list : List TYPE)
    (xs ys : ℤ) (type : TYPE) (hlen : ¬ (list.length : ℤ) > MAX_LIST_ENTRIES) :
    insertSortedByDistance conv getPosition getId list none xs ys type
      = (list.take (lowerBound (fun a1 => decide (screenDistance conv getPosition xs ys a1
            < screenDistance conv getPosition xs ys type)) list)
          ++ type :: list.drop (lowerBound (fun a1 =>
            decide (screenDistance conv getPosition xs ys a1
              < screenDistance conv getPosition xs ys type)) list),
        none) := by
  unfold insertSortedByDistance
  rw [if_neg hlen]
  simp

theorem insert_at_perm {TYPE : Type} (list : List TYPE) (it : ℕ) (type : TYPE) :
    (list.take it ++ type :: list.drop it).Perm (type :: list) := by
  have : (list.take it ++ type :: list.drop it).Perm (type :: (list.take it ++ list.drop it)) :=
    List.perm_middle
  rwa [List.take_append_drop] at this

/-- The case analysis of one call of `insertSortedByDistance` with an ids set. -/
theorem insertSortedByDistance_cases {TYPE : Type} (conv : CoordinateConverter)
    (getPosition : TYPE → Pos) (getId : TYPE → ℤ) (list : List TYPE) (s : Finset ℤ)
    (xs ys : ℤ) (type : TYPE) :
    insertSortedByDistance conv getPosition getId list (some s) xs ys type = (list, some s) ∨
    ((list.length : ℤ) ≤ MAX_LIST_ENTRIES ∧ getId type ∉ s ∧
      ∃ l', insertSortedByDistance conv getPosition getId list (some s) xs ys type
          = (l', some (insert (getId type) s)) ∧ l'.Perm (type :: list)) := by
  by_cases hlen : (list.length : ℤ) > MAX_LIST_ENTRIES
  · exact Or.inl (insertSortedByDistance_full conv getPosition getId list _ xs ys type hlen)
  · by_cases h : getId type ∈ s
    · exact Or.inl (insertSortedByDistance_known conv getPosition getId list s xs ys type h)
    · exact Or.inr ⟨not_lt.1 hlen, h, _,
        insertSortedByDistance_new conv getPosition getId list s xs ys type hlen h,
        insert_at_perm _ _ _⟩


theorem insertSortedByDistance_sorted {TYPE : Type} (conv : CoordinateConverter)
    (getPosition : TYPE → Pos) (getId : TYPE → ℤ) (list : List TYPE)
    (ids : Option (Finset ℤ)) (xs ys : ℤ) (type : TYPE)
    (hs : list.Pairwise (fun a b => screenDistance conv getPosition xs ys a
      ≤ screenDistance conv getPosition xs ys b)) :
    (insertSortedByDistance conv getPosition getId list ids xs ys type).1.Pairwise
      (fun a b => screenDistance conv getPosition xs ys a
        ≤ screenDistance conv getPosition xs ys b) := by
  by_cases hlen : (list.length : ℤ) > MAX_LIST_ENTRIES
  · rw [insertSortedByDistance_full _ _ _ _ _ _ _ _ hlen]; exact hs
  · cases ids with
    | none =>
      rw [insertSortedByDistance_null _ _ _ _ _ _ _ hlen]
      exact insert_lowerBound_sorted _ list type hs
    | some s =>
      by_cases h : getId type ∈ s
      · rw [insertSortedByDistance_known _ _ _ _ _ _ _ _ h]; exact hs
      · rw [insertSortedByDistance_new _ _ _ _ _ _ _ _ hlen h]
        exact insert_lowerBound_sorted _ list type hs

/-- Ids in the list are distinct and all in the set. -/
theorem insertSortedByDistance_distinct {TYPE : Type} (conv : CoordinateConverter)
    (getPosition : TYPE → Pos) (getId : TYPE → ℤ) (list : List TYPE) (s : Finset ℤ)
    (xs ys : ℤ) (type : TYPE)
    (hnd : (list.map getId).Nodup) (hmem : ∀ x ∈ list, getId x ∈ s) :
    ∃ l' s', insertSortedByDistance conv getPosition getId list (some s) xs ys type
        = (l', some s') ∧ (l'.map getId).Nodup ∧ ∀ x ∈ l', getId x ∈ s' := by
  rcases insertSortedByDistance_cases conv getPosition getId list s xs ys type with
    h | ⟨_, hn, l', h, hperm⟩
  · exact ⟨list, s, h, hnd, hmem⟩
  · refine ⟨l', _, h, ?_, ?_⟩
    · rw [(hperm.map getId).nodup_iff, List.map_cons, List.nodup_cons]
      refine ⟨?_, hnd⟩
      intro hin
      obtain ⟨x, hx, hxe⟩ := List.mem_map.1 hin
      exact hn (hxe ▸ hmem x hx)
    · intro x hx
      rcases List.mem_cons.1 (hperm.mem_iff.1 hx) with rfl | hx
      · exact Finset.mem_insert_self _ _
      · exact Finset.mem_insert_of_mem (hmem x hx)

theorem insertSortedByDistanceAll_distinct {TYPE : Type} (conv : CoordinateConverter)
    (getPosition : TYPE → Pos) (getId : TYPE → ℤ) :
    ∀ (calls : List (ℤ × ℤ × TYPE)) (list : List TYPE) (s : Finset ℤ),
      (list.map getId).Nodup → (∀ x ∈ list, getId x ∈ s) →
      ((insertSortedByDistanceAll conv getPosition getId calls (list, some s)).1.map
        getId).Nodup
  | [], list, s, hnd, _ => hnd
  | c :: calls, list, s, hnd, hmem => by
    obtain ⟨l', s', h, hnd', hmem'⟩ :=
      insertSortedByDistance_distinct conv getPosition getId list s c.1 c.2.1 c.2.2 hnd hmem
    unfold insertSortedByDistanceAll
    rw [List.foldl_cons]
    simp only
    rw [h]
    exact insertSortedByDistanceAll_distinct conv getPosition getId calls l' s' hnd' hmem'

/-- C15: `insertSortedByDistance` keeps a list that is sorted by Manhattan screen distance to
`(xs, ys)` sorted; with an ids set it leaves list and set unchanged for an element whose id is
in the set, and whenever it changes anything the element was inserted and its id added to the
set; a list grown from the empty list and the empty set through such calls holds no id twice. -/
theorem insertSortedByDistance_sorted_distinct {TYPE : Type} (conv : CoordinateConverter)
    (getPosition : TYPE → Pos) (getId : TYPE → ℤ) :
    (∀ (list : List TYPE) (ids : Option (Finset ℤ)) (xs ys : ℤ) (type : TYPE),
      list.Pairwise (fun a b => screenDistance conv getPosition xs ys a
        ≤ screenDistance conv getPosition xs ys b) →
      (insertSortedByDistance conv getPosition getId list ids xs ys type).1.Pairwise
        (fun a b => screenDistance conv getPosition xs ys a
          ≤ screenDistance conv getPosition xs ys b)) ∧
    (∀ (list : List TYPE) (s : Finset ℤ) (xs ys : ℤ) (type : TYPE), getId type ∈ s →
      insertSortedByDistance conv getPosition getId list (some s) xs ys type
        = (list, some s)) ∧
    (∀ (list : List TYPE) (s : Finset ℤ) (xs ys : ℤ) (type : TYPE),
      insertSortedByDistance conv getPosition getId list (some s) xs ys type = (list, some s) ∨
      (getId type ∉ s ∧ ∃ l', insertSortedByDistance conv getPosition getId list (some s) xs ys
          type = (l', some (insert (getId type) s)) ∧
        l'.Perm (type :: list) ∧ getId type ∈ insert (getId type) s)) ∧
    (∀ (calls : List (ℤ × ℤ × TYPE)),
      ((insertSortedByDistanceAll conv getPosition getId calls ([], some ∅)).1.map
        getId).Nodup) := by
  refine ⟨fun list ids xs ys type hs =>
      insertSortedByDistance_sorted conv getPosition getId list ids xs ys type hs,
    fun list s xs ys type h =>
      insertSortedByDistance_known conv getPosition getId list s xs ys type h,
    fun list s xs ys type => ?_,
    fun calls => insertSortedByDistanceAll_distinct conv getPosition getId calls [] ∅
      (by simp) (by simp)⟩
  rcases insertSortedByDistance_cases conv getPosition getId list s xs ys type with
    h | ⟨_, hn, l', h, hperm⟩
  · exact Or.inl h
  · exact Or.inr ⟨hn, l', h, hperm, Finset.mem_insert_self _ _⟩

theorem insertSortedByDistance_length {TYPE : Type} (conv : CoordinateConverter)
    (getPosition : TYPE → Pos) (getId : TYPE → ℤ) (list : List TYPE)
    (ids : Option (Finset ℤ)) (xs ys : ℤ) (type : TYPE) (h : list.length ≤ 6) :
    (insertSortedByDistance conv getPosition getId list ids xs ys type).1.length ≤ 6 := by
  by_cases hlen : (list.length : ℤ) > MAX_LIST_ENTRIES
  · rw [insertSortedByDistance_full _ _ _ _ _ _ _ _ hlen]; exact h
  · have h5 : list.length ≤ 5 := by
      unfold MAX_LIST_ENTRIES at hlen
      omega
    cases ids with
    | none =>
      rw [insertSortedByDistance_null _ _ _ _ _ _ _ hlen]
      rw [(insert_at_perm _ _ _).length_eq]
      simp only [List.length_cons]; omega
    | some s =>
      rcases insertSortedByDistance_cases conv getPosition getId list s xs ys type with
        h' | ⟨_, _, l', h', hperm⟩
      · rw [h']; exact h
      · rw [h', hperm.length_eq]
        simp only [List.length_cons]; omega

theorem insertSortedByDistanceAll_length {TYPE : Type} (conv : CoordinateConverter)
    (getPosition : TYPE → Pos) (getId : TYPE → ℤ) :
    ∀ (calls : List (ℤ × ℤ × TYPE)) (start : List TYPE × Option (Finset ℤ)),
      start.1.length ≤ 6 →
      (insertSortedByDistanceAll conv getPosition getId calls start).1.length ≤ 6
  | [], _, h => h
  | c :: calls, start, h => by
    unfold insertSortedByDistanceAll
    rw [List.foldl_cons]
    exact insertSortedByDistanceAll_length conv getPosition getId calls _
      (insertSortedByDistance_length conv getPosition getId start.1 start.2 c.1 c.2.1 c.2.2 h)

/-- C21: a call of `insertSortedByDistance` on a list of more than `MAX_LIST_ENTRIES` (5)
elements leaves the list and the ids set unchanged, and a list grown from the empty list only
through this function never holds more than 6 elements. -/
theorem insertSortedByDistance_max_entries {TYPE : Type} (conv : CoordinateConverter)
    (getPosition : TYPE → Pos) (getId : TYPE → ℤ) :
    MAX_LIST_ENTRIES = 5 ∧
    (∀ (list : List TYPE) (ids : Option (Finset ℤ)) (xs ys : ℤ) (type : TYPE),
      list.length > 5 →
      insertSortedByDistance conv getPosition getId list ids xs ys type = (list, ids)) ∧
    (∀ (calls : List (ℤ × ℤ × TYPE)) (ids : Option (Finset ℤ)),
      (insertSortedByDistanceAll conv getPosition getId calls ([], ids)).1.length ≤ 6) := by
  refine ⟨rfl, fun list ids xs ys type h => ?_, fun calls ids => ?_⟩
  · apply insertSortedByDistance_full
    unfold MAX_LIST_ENTRIES
    omega
  · exact insertSortedByDistanceAll_length conv getPosition getId calls _ (by simp)

end maptools

/-! Simulator connection. -/

namespace ConnectClient

/-- C16: `requestWeather` returns the empty result and leaves the request queue, the queued
idents and the outstanding replies as they are when the client is not connected, and also when
`onlyStation` is set and the station is reported by the not-available cache; in every other
case it returns the result cached for the station, timed out or not, and the empty result if
there is none. -/
theorem requestWeather_result (self : ConnectClient) (station : String) (pos : Pos)
    (onlyStation : Bool) :
    (self.isConnected = false →
      (requestWeather self station pos onlyStation).1 = {} ∧
      (requestWeather self station pos onlyStation).2.queuedRequests = self.queuedRequests ∧
      (requestWeather self station pos onlyStation).2.queuedRequestIdents
        = self.queuedRequestIdents ∧
      (requestWeather self station pos onlyStation).2.outstandingReplies
        = self.outstandingReplies) ∧
    (onlyStation = true → (self.notAvailableStations.contains station).1 = true →
      (requestWeather self station pos onlyStation).1 = {} ∧
      (requestWeather self station pos onlyStation).2.queuedRequests = self.queuedRequests ∧
      (requestWeather self station pos onlyStation).2.queuedRequestIdents
        = self.queuedRequestIdents ∧
      (requestWeather self station pos onlyStation).2.outstandingReplies
        = self.outstandingReplies) ∧
    (self.isConnected = true →
      ¬ (onlyStation = true ∧ (self.notAvailableStations.contains station).1 = true) →
      (requestWeather self station pos onlyStation).1
        = match self.metarIdentCache.valueNoTimeout station with
          | some result => result
          | none => {}) := by
  refine ⟨?_, ?_, ?_⟩
  · intro hc
    unfold requestWeather
    simp [hc]
  · intro ho hb
    unfold requestWeather
    by_cases hc : self.isConnected = true
    · simp [hc, ho, hb]
    · simp [hc]
  · intro hc hnb
    unfold requestWeather
    have hbl : (if onlyStation = true then self.notAvailableStations.contains station
        else (false, self.notAvailableStations)).1 = false := by
      by_cases ho : onlyStation = true
      · rw [if_pos ho]
        by_contra h
        exact hnb ⟨ho, by simpa using h⟩
      · rw [if_neg ho]
    simp only [hc, Bool.not_true, Bool.false_eq_true, if_false, hbl]
    simp only [apply_ite Prod.fst, ite_self]

end ConnectClient

/-! Default file name. -/

namespace RouteController

open QString in
theorem cleanChar_def (c : Char) : cleanChar c =
    replaceChar '$' ' ' (replaceChar '?' ' ' (replaceChar '>' ' ' (replaceChar '<' ' '
      (replaceChar (Char.ofNat 39) ' ' (replaceChar ':' ' ' (replaceChar '/' ' '
        (replaceChar (Char.ofNat 92) ' ' c))))))) := by
  unfold cleanChar
  exact Eq.refl _

theorem cleanChar_forbidden (c : Char) (h : c ∈ forbiddenChars) : cleanChar c = ' ' := by
  simp only [forbiddenChars, List.mem_cons, List.mem_singleton, List.not_mem_nil,
      or_false] at h
  rcases h with rfl | rfl | rfl | rfl | rfl | rfl | rfl | rfl <;> decide

theorem replaceChar_ne (b a c : Char) (h : ¬ c = b) : QString.replaceChar b a c = c :=
  if_neg h

theorem cleanChar_other (c : Char) (h : c ∉ forbiddenChars) : cleanChar c = c := by
  simp only [forbiddenChars, List.mem_cons, List.mem_singleton, List.not_mem_nil,
      or_false, not_or] at h
  obtain ⟨h1, h2, h3, h4, h5, h6, h7, h8⟩ := h
  rw [cleanChar_def, replaceChar_ne _ _ _ h1, replaceChar_ne _ _ _ h2, replaceChar_ne _ _ _ h3,
    replaceChar_ne _ _ _ h4, replaceChar_ne _ _ _ h5, replaceChar_ne _ _ _ h6,
    replaceChar_ne _ _ _ h7, replaceChar_ne _ _ _ h8]

theorem cleanChar_clean (c : Char) : cleanChar c ∉ forbiddenChars := by
  by_cases h : c ∈ forbiddenChars
  · rw [cleanChar_forbidden c h]; decide
  · rw [cleanChar_other c h]; exact h

open QString in
theorem map_clean (l : List Char) :
    List.map (replaceChar '$' ' ') (List.map (replaceChar '?' ' ') (List.map (replaceChar '>' ' ')
      (List.map (replaceChar '<' ' ') (List.map (replaceChar (Char.ofNat 39) ' ')
      (List.map (replaceChar ':' ' ') (List.map (replaceChar '/' ' ')
      (List.map (replaceChar (Char.ofNat 92) ' ') l))))))) = l.map cleanChar := by
  induction l with
  | nil => simp only [List.map_nil]
  | cons x xs ih =>
    rw [List.map_cons, List.map_cons, List.map_cons, List.map_cons, List.map_cons,
      List.map_cons, List.map_cons, List.map_cons, List.map_cons, ih, cleanChar_def]

theorem removeForbidden_data (s : String) :
    (removeForbidden s).data = s.data.map cleanChar := by
  rw [← map_clean]
  unfold removeForbidden QString.replace
  exact Eq.refl _

theorem map_clean_fixed (l : List Char) (h : ∀ c ∈ l, c ∉ forbiddenChars) :
    l.map cleanChar = l := by
  induction l with
  | nil => rfl
  | cons x xs ih =>
    rw [List.map_cons, cleanChar_other x (h x (List.mem_cons_self _ _)),
      ih (fun c hc => h c (List.mem_cons_of_mem _ hc))]

/-- The file name before the replacements. -/
theorem getDefaultFilename_eq (self : RouteController) (hne : self.flightplan.entries ≠ []) :
    ∃ departure destination : String,
      getDefaultFilename self = some (removeForbidden
        ((if self.flightplan.flightplanType = FlightplanType.IFR then "IFR "
          else if self.flightplan.flightplanType = FlightplanType.VFR then "VFR " else "")
          ++ departure ++ " to " ++ destination ++ ".pln")) := by
  obtain ⟨first, hfirst⟩ : ∃ e, self.flightplan.entries.head? = some e := by
    cases h : self.flightplan.entries with
    | nil => exact absurd h hne
    | cons a _ => exact ⟨a, rfl⟩
  obtain ⟨last, hlast⟩ : ∃ e, self.flightplan.entries.getLast? = some e :=
    ⟨_, List.getLast?_eq_getLast _ hne⟩
  unfold getDefaultFilename
  simp only [hfirst, hlast, Option.map_some']
  by_cases h1 : self.flightplan.departureAiportName.isEmpty = true <;>
    by_cases h2 : self.flightplan.destinationAiportName.isEmpty = true <;>
    simp only [h1, h2, if_true, if_false, Bool.false_eq_true] <;>
    exact ⟨_, _, rfl⟩

/-- C17: for a flight plan with at least one entry `getDefaultFilename` returns a name that
contains none of the characters backslash, slash, colon, apostrophe, `<`, `>`, `?`, `$`, ends
with `.pln`, contains ` to `, and begins with `IFR ` for an IFR plan and with `VFR ` for a VFR
plan. -/
theorem getDefaultFilename_shape (self : RouteController)
    (hne : self.flightplan.entries ≠ []) :
    ∃ name : String, getDefaultFilename self = some name ∧
      (∀ c ∈ name.data, c ∉ forbiddenChars) ∧
      ".pln".data <:+ name.data ∧
      " to ".data <:+: name.data ∧
      (self.flightplan.flightplanType = FlightplanType.IFR → "IFR ".data <+: name.data) ∧
      (self.flightplan.flightplanType = FlightplanType.VFR → "VFR ".data <+: name.data) := by
  obtain ⟨departure, destination, h⟩ := getDefaultFilename_eq self hne
  refine ⟨_, h, ?_, ?_, ?_, ?_, ?_⟩
  · intro c hc
    rw [removeForbidden_data] at hc
    obtain ⟨x, _, rfl⟩ := List.mem_map.1 hc
    exact cleanChar_clean x
  · rw [removeForbidden_data, String.data_append, List.map_append,
      map_clean_fixed ".pln".data (by decide)]
    exact ⟨_, rfl⟩
  · rw [removeForbidden_data, String.data_append, String.data_append, String.data_append,
      List.map_append, List.map_append, List.map_append,
      map_clean_fixed " to ".data (by decide)]
    exact ⟨_, _, by simp only [List.append_assoc]; rfl⟩
  · intro hifr
    rw [removeForbidden_data, if_pos hifr, String.data_append, String.data_append,
      String.data_append, String.data_append, List.map_append, List.map_append,
      List.map_append, List.map_append, map_clean_fixed "IFR ".data (by decide)]
    exact ⟨_, by simp only [List.append_assoc]; rfl⟩
  · intro hvfr
    rw [removeForbidden_data, if_neg (by rw [hvfr]; decide), if_pos hvfr, String.data_append,
      String.data_append, String.data_append, String.data_append, List.map_append,
      List.map_append, List.map_append, List.map_append,
      map_clean_fixed "VFR ".data (by decide)]
    exact ⟨_, by simp only [List.append_assoc]; rfl⟩


theorem getDefaultFilename_shape_witness :
    ∃ name : String, getDefaultFilename (Sample.controller FlightplanType.IFR 5000)
        = some name ∧
      (∀ c ∈ name.data, c ∉ forbiddenChars) ∧
      ".pln".data <:+ name.data ∧
      " to ".data <:+: name.data ∧
      ((Sample.controller FlightplanType.IFR 5000).flightplan.flightplanType
          = FlightplanType.IFR → "IFR ".data <+: name.data) ∧
      ((Sample.controller FlightplanType.IFR 5000).flightplan.flightplanType
          = FlightplanType.VFR → "VFR ".data <+: name.data) :=
  getDefaultFilename_shape (Sample.controller FlightplanType.IFR 5000)
    (by simp [Sample.controller, Sample.flightplan])

end RouteController

/-! Elevation provider. -/

namespace ElevationProvider

theorem divisorLoop_spec (size : ℕ) :
    ∀ (fuel divisor : ℕ), 1 ≤ divisor → size + 1 ≤ divisor + fuel →
      (∀ d, 1 ≤ d → d < divisor → size / d > 2000) →
      divisor ≤ divisorLoop size fuel divisor ∧
      size / divisorLoop size fuel divisor ≤ 2000 ∧
      (∀ d, 1 ≤ d → d < divisorLoop size fuel divisor → size / d > 2000)
  | 0, divisor, _, hf, hmin => by
    have : size / divisor = 0 := Nat.div_eq_of_lt (by omega)
    exact ⟨le_rfl, by simp [divisorLoop, this], hmin⟩
  | fuel + 1, divisor, h1, hf, hmin => by
    unfold divisorLoop
    by_cases hc : size / divisor > 2000
    · rw [if_pos hc]
      obtain ⟨a, b, c⟩ := divisorLoop_spec size fuel (divisor + 1) (by omega) (by omega)
        (fun d hd1 hd2 => by
          rcases Nat.lt_succ_iff_lt_or_eq.1 hd2 with h | h
          · exact hmin d hd1 h
          · rw [h]; exact hc)
      exact ⟨by omega, b, c⟩
    · rw [if_neg hc]
      exact ⟨le_rfl, not_lt.1 hc, hmin⟩

/-- The loop ends with the least positive divisor `d` such that `size / d ≤ 2000`. -/
theorem subsampleDivisor_least (size : ℕ) :
    1 ≤ subsampleDivisor size ∧ size / subsampleDivisor size ≤ 2000 ∧
      ∀ d, 1 ≤ d → d < subsampleDivisor size → size / d > 2000 :=
  divisorLoop_spec size size 1 le_rfl (by omega) (fun d h1 h2 => by omega)

theorem sampled_two_length :
    ∀ (temp : List GeoDataCoordinates) (i : ℕ),
      (sampled 2 i temp).length = (temp.length + (1 - i % 2)) / 2
  | [], i => by
    simp only [sampled, List.length_nil]
    omega
  | c :: rest, i => by
    unfold sampled
    have ih := sampled_two_length rest (i + 1)
    by_cases h : i % 2 ≠ 0
    · rw [if_pos h, ih]
      simp only [List.length_cons]
      omega
    · rw [if_neg h]
      simp only [List.length_cons, ih]
      omega

/-- C18 (the code at the failing input): for a height profile of 4001 points the divisor loop
ends with 2, and 2001 points pass the filter `i % divisor == 0`, one more than the maximum of
2000 points. -/
theorem subsample_4001_points :
    subsampleDivisor 4001 = 2 ∧
      (∀ temp : List GeoDataCoordinates, temp.length = 4001 →
        (sampled (subsampleDivisor 4001) 0 temp).length = 2001) ∧
      ¬ (2001 ≤ 2000) := by
  have h : subsampleDivisor 4001 = 2 := by decide
  refine ⟨h, fun temp ht => ?_, by decide⟩
  rw [h, sampled_two_length, ht]


/-- What the loop does to `lastDropped` and the elevations for a point that is not skipped. -/
theorem onlineStep_not_skipped (env : Collaborators) (divisor : ℕ) (st st' : OnlineState)
    (c : GeoDataCoordinates) (hi : st.i % divisor = 0)
    (h1 : st.lastDropped = st'.lastDropped) (h2 : st.elevations = st'.elevations) :
    (onlineStep env divisor st c).lastDropped = (onlineStep env 1 st' c).lastDropped ∧
      (onlineStep env divisor st c).elevations = (onlineStep env 1 st' c).elevations := by
  unfold onlineStep
  rw [if_neg (by simp [hi]), if_neg (by simp [Nat.mod_one])]
  simp only [h1, h2]
  cases st'.elevations.getLast? with
  | none => exact ⟨rfl, rfl⟩
  | some last =>
    simp only
    split_ifs <;> exact ⟨rfl, rfl⟩

/-- The loop over the height profile treats exactly the points of `sampled`. -/
theorem foldl_onlineStep_sampled (env : Collaborators) (divisor : ℕ) :
    ∀ (temp : List GeoDataCoordinates) (st st' : OnlineState),
      st.lastDropped = st'.lastDropped → st.elevations = st'.elevations →
      (temp.foldl (onlineStep env divisor) st).lastDropped
        = ((sampled divisor st.i temp).foldl (onlineStep env 1) st').lastDropped ∧
      (temp.foldl (onlineStep env divisor) st).elevations
        = ((sampled divisor st.i temp).foldl (onlineStep env 1) st').elevations
  | [], st, st', h1, h2 => ⟨h1, h2⟩
  | c :: rest, st, st', h1, h2 => by
    rw [List.foldl_cons]
    unfold sampled
    by_cases hskip : st.i % divisor ≠ 0
    · rw [if_pos hskip]
      have hstep : onlineStep env divisor st c = { st with i := st.i + 1 } := by
        unfold onlineStep
        rw [if_pos hskip]
      rw [hstep]
      exact foldl_onlineStep_sampled env divisor rest _ st' h1 h2
    · rw [if_neg hskip, List.foldl_cons]
      have hi : st.i % divisor = 0 := by simpa using hskip
      obtain ⟨a, b⟩ := onlineStep_not_skipped env divisor st st' c hi h1 h2
      have hidx : (onlineStep env divisor st c).i = st.i + 1 := by
        unfold onlineStep
        rw [if_neg (by simp [hi])]
        simp only
        cases st.elevations.getLast? with
        | none => rfl
        | some last =>
          simp only
          split_ifs <;> rfl
      have := foldl_onlineStep_sampled env divisor rest (onlineStep env divisor st c)
        (onlineStep env 1 st' c) a b
      rw [hidx] at this
      exact this

theorem onlineStep_extends (env : Collaborators) (divisor : ℕ) (st : OnlineState)
    (c : GeoDataCoordinates) :
    ∃ rest, (onlineStep env divisor st c).elevations = st.elevations ++ rest := by
  unfold onlineStep
  split_ifs
  · exact ⟨[], by simp⟩
  · simp only
    cases st.elevations.getLast? with
    | none => exact ⟨_, rfl⟩
    | some last =>
      simp only
      split_ifs
      · exact ⟨[], by simp⟩
      · exact ⟨_, by simp only [List.append_assoc]; rfl⟩
      · exact ⟨_, rfl⟩

theorem foldl_onlineStep_extends (env : Collaborators) (divisor : ℕ) :
    ∀ (temp : List GeoDataCoordinates) (st : OnlineState),
      ∃ rest, (temp.foldl (onlineStep env divisor) st).elevations = st.elevations ++ rest
  | [], st => ⟨[], by simp⟩
  | c :: temp, st => by
    rw [List.foldl_cons]
    obtain ⟨r1, h1⟩ := onlineStep_extends env divisor st c
    obtain ⟨r2, h2⟩ := foldl_onlineStep_extends env divisor temp (onlineStep env divisor st c)
    exact ⟨r1 ++ r2, by rw [h2, h1, List.append_assoc]⟩

/-- C19: for a valid line every position of the list `getElevations` leaves behind has an
altitude of at most 8800 m, the positions that were in the list before an online call
included; in the offline branch the list has one position per position of the GLOBE reader and
every altitude that is not strictly between the OCEAN and INVALID sentinels is reported as 0. -/
theorem getElevations_altitude_limit (env : Collaborators) (offline : Bool)
    (elevations : List Pos) (line : Line) (sampleRadiusMeter : ℚ)
    (hvalid : env.lineIsValid line = true) :
    (∀ p ∈ getElevations env offline elevations line sampleRadiusMeter,
      p.altitude ≤ 8800) ∧
    (offline = false → ∃ rest,
      getElevations env offline elevations line sampleRadiusMeter
        = elevations.map (fun pos => { pos with altitude := min pos.altitude 8800 }) ++ rest) ∧
    (offline = true →
      (getElevations env offline elevations line sampleRadiusMeter).length
        = (env.globeGetElevations elevations line sampleRadiusMeter).length ∧
      ∀ (i : ℕ) (p : Pos),
        (env.globeGetElevations elevations line sampleRadiusMeter)[i]? = some p →
        ¬ (env.OCEAN < p.altitude ∧ p.altitude < env.INVALID) →
        ((getElevations env offline elevations line sampleRadiusMeter)[i]?).map
          (fun q => q.altitude) = some 0) := by
  refine ⟨?_, ?_, ?_⟩
  · intro p hp
    unfold getElevations at hp
    simp only [hvalid, Bool.not_true, Bool.false_eq_true, if_false] at hp
    obtain ⟨q, _, rfl⟩ := List.mem_map.1 hp
    exact min_le_right _ _
  · intro hoff
    unfold getElevations
    simp only [hvalid, Bool.not_true, Bool.false_eq_true, if_false, hoff]
    obtain ⟨rest, hrest⟩ := foldl_onlineStep_extends env
      (subsampleDivisor (env.heightProfile line.pos1.lonX line.pos1.latY line.pos2.lonX
        line.pos2.latY).length)
      (env.heightProfile line.pos1.lonX line.pos1.latY line.pos2.lonX line.pos2.latY)
      ⟨0, env.invalidPos, elevations⟩
    simp only at hrest
    split_ifs
    · rw [hrest]
      simp only [List.map_append, ALTITUDE_LIMIT_METER, List.append_assoc]
      exact ⟨_, rfl⟩
    · rw [hrest]
      simp only [List.map_append, ALTITUDE_LIMIT_METER]
      exact ⟨_, rfl⟩
  · intro hoff
    unfold getElevations
    simp only [hvalid, Bool.not_true, Bool.false_eq_true, if_false, hoff, if_true]
    refine ⟨by simp, ?_⟩
    intro i p hp hsent
    have hsent' : ¬ (p.altitude > env.OCEAN ∧ p.altitude < env.INVALID) := hsent
    simp only [List.getElem?_map, hp, Option.map_some', if_pos hsent', ALTITUDE_LIMIT_METER]
    norm_num

theorem getElevations_altitude_limit_witness :
    (∀ p ∈ getElevations Sample.elevation true [⟨1, 2, 9000⟩] ⟨⟨0, 0, 0⟩, ⟨1, 1, 0⟩⟩ 5,
      p.altitude ≤ 8800) ∧
    (true = false → ∃ rest,
      getElevations Sample.elevation true [⟨1, 2, 9000⟩] ⟨⟨0, 0, 0⟩, ⟨1, 1, 0⟩⟩ 5
        = ([⟨1, 2, 9000⟩] : List Pos).map
            (fun pos => { pos with altitude := min pos.altitude 8800 }) ++ rest) ∧
    (true = true →
      (getElevations Sample.elevation true [⟨1, 2, 9000⟩] ⟨⟨0, 0, 0⟩, ⟨1, 1, 0⟩⟩ 5).length
        = (Sample.elevation.globeGetElevations [⟨1, 2, 9000⟩] ⟨⟨0, 0, 0⟩, ⟨1, 1, 0⟩⟩ 5).length ∧
      ∀ (i : ℕ) (p : Pos),
        (Sample.elevation.globeGetElevations [⟨1, 2, 9000⟩] ⟨⟨0, 0, 0⟩, ⟨1, 1, 0⟩⟩ 5)[i]?
          = some p →
        ¬ (Sample.elevation.OCEAN < p.altitude ∧ p.altitude < Sample.elevation.INVALID) →
        ((getElevations Sample.elevation true [⟨1, 2, 9000⟩] ⟨⟨0, 0, 0⟩, ⟨1, 1, 0⟩⟩ 5)[i]?).map
          (fun q => q.altitude) = some 0) :=
  getElevations_altitude_limit Sample.elevation true [⟨1, 2, 9000⟩] ⟨⟨0, 0, 0⟩, ⟨1, 1, 0⟩⟩ 5 rfl

end ElevationProvider

/-! Deleting legs. -/

namespace RouteController

theorem withoutRowsFrom_all_below {α : Type} :
    ∀ (l : List α) (k : ℕ) (rows : List ℤ), (∀ r ∈ rows, r < k) →
      withoutRowsFrom k l rows = l
  | [], _, _, _ => rfl
  | x :: xs, k, rows, h => by
    unfold withoutRowsFrom
    have hk : ¬ (k : ℤ) ∈ rows := fun hm => by have := h _ hm; omega
    rw [if_neg hk, withoutRowsFrom_all_below xs (k + 1) rows
      (fun r hr => by have := h r hr; push_cast; omega)]

theorem withoutRowsFrom_congr {α : Type} :
    ∀ (l : List α) (k : ℕ) (rows rows' : List ℤ), (∀ r, r ∈ rows ↔ r ∈ rows') →
      withoutRowsFrom k l rows = withoutRowsFrom k l rows'
  | [], _, _, _, _ => rfl
  | x :: xs, k, rows, rows', h => by
    unfold withoutRowsFrom
    rw [withoutRowsFrom_congr xs (k + 1) rows rows' h]
    by_cases hk : (k : ℤ) ∈ rows
    · rw [if_pos hk, if_pos ((h _).1 hk)]
    · rw [if_neg hk, if_neg (fun hm => hk ((h _).2 hm))]

/-- Erasing the element with the index `r` first and the smaller indices `rs` afterwards
removes the elements at `r :: rs`. -/
theorem withoutRowsFrom_eraseIdx {α : Type} :
    ∀ (l : List α) (k : ℕ) (r : ℤ) (rs : List ℤ), (k : ℤ) ≤ r → r < k + l.length →
      (∀ x ∈ rs, x < r) →
      withoutRowsFrom k (l.eraseIdx (r - k).toNat) rs = withoutRowsFrom k l (r :: rs)
  | [], k, r, rs, h1, h2, _ => by simp at h2; omega
  | x :: xs, k, r, rs, h1, h2, h3 => by
    rcases eq_or_lt_of_le h1 with heq | hlt
    · have h0 : (r - (k : ℤ)).toNat = 0 := by omega
      rw [h0, List.eraseIdx_cons_zero]
      have hA : withoutRowsFrom k xs rs = xs :=
        withoutRowsFrom_all_below xs k rs (fun y hy => by have := h3 y hy; omega)
      have hB : withoutRowsFrom (k + 1) xs (r :: rs) = xs :=
        withoutRowsFrom_all_below xs (k + 1) (r :: rs) (fun y hy => by
          rcases List.mem_cons.1 hy with rfl | hy
          · push_cast; omega
          · have := h3 y hy; push_cast; omega)
      rw [hA]
      show xs = withoutRowsFrom k (x :: xs) (r :: rs)
      unfold withoutRowsFrom
      rw [if_pos (by rw [heq]; exact List.mem_cons_self _ _), hB]
    · obtain ⟨j, hj⟩ : ∃ j : ℕ, (r - (k : ℤ)).toNat = j + 1 := ⟨(r - k).toNat - 1, by omega⟩
      rw [hj, List.eraseIdx_cons_succ]
      have hj' : j = (r - ((k + 1 : ℕ) : ℤ)).toNat := by push_cast; omega
      have ih := withoutRowsFrom_eraseIdx xs (k + 1) r rs (by push_cast; omega)
        (by simp only [List.length_cons] at h2; push_cast at h2 ⊢; omega) h3
      rw [← hj'] at ih
      show withoutRowsFrom k (x :: xs.eraseIdx j) rs = withoutRowsFrom k (x :: xs) (r :: rs)
      unfold withoutRowsFrom
      rw [ih]
      have hmem : ((k : ℤ) ∈ r :: rs) ↔ ((k : ℤ) ∈ rs) := by
        rw [List.mem_cons]
        constructor
        · rintro (h | h)
          · omega
          · exact h
        · exact Or.inr
      by_cases hk : (k : ℤ) ∈ rs
      · rw [if_pos hk, if_pos (hmem.2 hk)]
      · rw [if_neg hk, if_neg (fun hm => hk (hmem.1 hm))]

/-- Removing rows one by one in strictly descending order removes the elements at these rows
of the original list. -/
theorem foldl_removeAt_descending {α : Type} :
    ∀ (rows : List ℤ) (l : List α), rows.Pairwise (fun a b => a > b) →
      (∀ r ∈ rows, 0 ≤ r ∧ r < l.length) →
      rows.foldl QList.removeAt l = withoutRows l rows
  | [], l, _, _ => by
    simp only [List.foldl_nil]
    exact (withoutRowsFrom_all_below l 0 [] (by simp)).symm
  | r :: rs, l, hp, hr => by
    obtain ⟨hlt, hp'⟩ := List.pairwise_cons.1 hp
    obtain ⟨hr0, hr1⟩ := hr r (List.mem_cons_self _ _)
    rw [List.foldl_cons]
    have hrem : QList.removeAt l r = l.eraseIdx r.toNat := by
      unfold QList.removeAt
      rw [if_pos ⟨hr0, hr1⟩]
    have hlen : (l.eraseIdx r.toNat).length = l.length - 1 := by
      rw [List.length_eraseIdx, if_pos (by omega)]
    rw [hrem, foldl_removeAt_descending rs (l.eraseIdx r.toNat) hp'
      (fun y hy => by
        have h1 := hlt y hy
        have h2 := (hr y (List.mem_cons_of_mem _ hy)).1
        rw [hlen]
        exact ⟨h2, by omega⟩)]
    unfold withoutRows
    have := withoutRowsFrom_eraseIdx l 0 r rs (by simpa using hr0) (by simpa using hr1)
      (fun y hy => hlt y hy)
    simpa using this

end RouteController

namespace RouteController

theorem selectedRows_reverse_eq (selection : List QItemSelectionRange) :
    selectedRows selection [] true
      = ((collectedRows selection).insertionSort (fun a b => a ≤ b)).reverse := by
  unfold selectedRows
  simp only [List.nil_append]
  cases h : collectedRows selection with
  | nil => rfl
  | cons x xs => rfl

theorem selectedRows_reverse_perm (selection : List QItemSelectionRange) :
    (selectedRows selection [] true).Perm (collectedRows selection) := by
  rw [selectedRows_reverse_eq]
  exact (List.reverse_perm _).trans (List.perm_insertionSort _ _)

theorem selectedRows_reverse_descending (selection : List QItemSelectionRange)
    (hd : (collectedRows selection).Nodup) :
    (selectedRows selection [] true).Pairwise (fun a b => a > b) := by
  rw [selectedRows_reverse_eq, List.pairwise_reverse]
  have hs : ((collectedRows selection).insertionSort (fun a b => a ≤ b)).Sorted
      (fun a b => a ≤ b) := List.sorted_insertionSort _ _
  have hn : ((collectedRows selection).insertionSort (fun a b => a ≤ b)).Nodup :=
    (List.perm_insertionSort _ _).nodup_iff.2 hd
  exact hs.lt_of_le hn

theorem deleteLegsEntries_eq (selection : List QItemSelectionRange)
    (entries : List FlightplanEntry)
    (hd : (collectedRows selection).Nodup)
    (hr : ∀ r ∈ collectedRows selection, 0 ≤ r ∧ r < entries.length) :
    deleteLegsEntries selection entries = withoutRows entries (collectedRows selection) := by
  have hperm := selectedRows_reverse_perm selection
  have hfold : (selectedRows selection [] true).foldl QList.removeAt entries
      = withoutRows entries (selectedRows selection [] true) :=
    foldl_removeAt_descending _ _ (selectedRows_reverse_descending selection hd)
      (fun r h => hr r (hperm.mem_iff.1 h))
  have hcongr : withoutRows entries (selectedRows selection [] true)
      = withoutRows entries (collectedRows selection) :=
    withoutRowsFrom_congr entries 0 _ _ (fun r => hperm.mem_iff)
  unfold deleteLegsEntries
  simp only []
  split_ifs with he
  · rw [hfold, hcongr]
  · rw [← hcongr]
    have : selectedRows selection [] true = [] := by
      cases h : selectedRows selection [] true with
      | nil => rfl
      | cons x xs => rw [h] at he; simp at he
    rw [this]
    exact (withoutRowsFrom_all_below entries 0 [] (by simp)).symm

/-- The remaining entries of `withoutRows` are the entries whose index is not a row, in
their original order. -/
theorem withoutRowsFrom_eq_filter {α : Type} :
    ∀ (l : List α) (k : ℕ) (rows : List ℤ),
      withoutRowsFrom k l rows
        = ((l.enumFrom k).filter (fun p => decide (¬ ((p.1 : ℤ) ∈ rows)))).map Prod.snd
  | [], _, _ => rfl
  | x :: xs, k, rows => by
    unfold withoutRowsFrom
    rw [List.enumFrom_cons, List.filter_cons, withoutRowsFrom_eq_filter xs (k + 1) rows]
    by_cases hk : (k : ℤ) ∈ rows
    · simp [hk]
    · simp [hk]

/-- C20: with distinct selected rows, `selectedRows` with `reverse = true` returns them in
strictly descending order (as a permutation of the rows of the selection), and when all of
them are valid indices of the entry list, the removal loop of `deleteLegs` leaves exactly
the entries whose original index is not selected, in their original order. -/
theorem deleteLegs_removes_selected_rows (selection : List QItemSelectionRange)
    (entries : List FlightplanEntry)
    (hd : (collectedRows selection).Nodup)
    (hr : ∀ r ∈ collectedRows selection, 0 ≤ r ∧ r < entries.length) :
    (selectedRows selection [] true).Pairwise (fun a b => a > b)
      ∧ (selectedRows selection [] true).Perm (collectedRows selection)
      ∧ deleteLegsEntries selection entries = withoutRows entries (collectedRows selection)
      ∧ deleteLegsEntries selection entries
          = ((entries.enum).filter
              (fun p => decide (¬ ((p.1 : ℤ) ∈ collectedRows selection)))).map Prod.snd
      ∧ (deleteLegsEntries selection entries).Sublist entries := by
  have h3 := deleteLegsEntries_eq selection entries hd hr
  have h4 : deleteLegsEntries selection entries
      = ((entries.enum).filter
          (fun p => decide (¬ ((p.1 : ℤ) ∈ collectedRows selection)))).map Prod.snd := by
    rw [h3]
    exact withoutRowsFrom_eq_filter entries 0 _
  refine ⟨selectedRows_reverse_descending selection hd, selectedRows_reverse_perm selection,
    h3, h4, ?_⟩
  rw [h4]
  have hs : (entries.enum.filter
      (fun p => decide (¬ ((p.1 : ℤ) ∈ collectedRows selection)))).Sublist entries.enum :=
    List.filter_sublist _
  have := hs.map Prod.snd
  rwa [List.enum_map_snd] at this

theorem deleteLegs_removes_selected_rows_witness :
    (collectedRows Sample.selection).Nodup
      ∧ (∀ r ∈ collectedRows Sample.selection, 0 ≤ r ∧ r < Sample.legs.length)
      ∧ selectedRows Sample.selection [] true = [4, 3, 1]
      ∧ (deleteLegsEntries Sample.selection Sample.legs).map (fun e => e.icaoIdent)
          = ["A", "C", "F"]
      ∧ (selectedRows Sample.selection [] true).Pairwise (fun a b => a > b)
      ∧ deleteLegsEntries Sample.selection Sample.legs
          = withoutRows Sample.legs (collectedRows Sample.selection) :=
  ⟨by decide, by decide, by decide, by decide,
    (deleteLegs_removes_selected_rows Sample.selection Sample.legs
      (by decide) (by decide)).1,
    (deleteLegs_removes_selected_rows Sample.selection Sample.legs
      (by decide) (by decide)).2.2.1⟩

end RouteController

/-! Route finder. -/

namespace rf

theorem target_permitted (e : Edge) (u v : ℤ) (h : e.target u = some v) :
    (e.fromId = u ∧ e.toId = v ∧ e.direction ≠ map.MapAirwayDirection.DIR_BACKWARD)
      ∨ (e.toId = u ∧ e.fromId = v ∧ e.direction ≠ map.MapAirwayDirection.DIR_FORWARD) := by
  unfold Edge.target at h
  by_cases h1 : e.fromId = u ∧ e.direction ≠ map.MapAirwayDirection.DIR_BACKWARD
  · rw [if_pos h1] at h
    exact Or.inl ⟨h1.1, Option.some.inj h, h1.2⟩
  · rw [if_neg h1] at h
    by_cases h2 : e.toId = u ∧ e.direction ≠ map.MapAirwayDirection.DIR_FORWARD
    · rw [if_pos h2] at h
      exact Or.inr ⟨h2.1, Option.some.inj h, h2.2⟩
    · rw [if_neg h2] at h
      exact absurd h (by simp)

theorem before_iff (net : Network) (goal : Pos) (a b : Record) :
    a.before net goal b = true ↔
      toLex (a.estimate net goal, toLex (a.cost, a.node.id))
        < toLex (b.estimate net goal, toLex (b.cost, b.node.id)) := by
  rw [Prod.Lex.lt_iff, Prod.Lex.lt_iff]
  simp only [Record.before, Bool.or_eq_true, Bool.and_eq_true, decide_eq_true_eq]

theorem before_eq_false_iff (net : Network) (goal : Pos) (a b : Record) :
    a.before net goal b = false ↔
      toLex (b.estimate net goal, toLex (b.cost, b.node.id))
        ≤ toLex (a.estimate net goal, toLex (a.cost, a.node.id)) := by
  rw [← not_lt, ← before_iff, Bool.not_eq_true]

theorem before_antisymm (net : Network) (goal : Pos) (a b : Record)
    (h1 : a.before net goal b = false) (h2 : b.before net goal a = false) :
    a.node.id = b.node.id := by
  rw [before_eq_false_iff] at h1 h2
  have h := le_antisymm h2 h1
  have h' := congrArg (fun k => (ofLex (ofLex k).2).2) h
  exact h'

theorem isBest_unique (net : Network) (goal : Pos) (opened : List Record) (a b : Record)
    (hn : (opened.map (fun r => r.node.id)).Nodup)
    (ha : IsBest net goal opened a) (hb : IsBest net goal opened b) : a = b :=
  List.inj_on_of_nodup_map hn ha.1 hb.1
    (before_antisymm net goal a b (hb.2 a ha.1) (ha.2 b hb.1))

theorem best_eq_none (net : Network) (goal : Pos) :
    ∀ opened : List Record, best net goal opened = none → opened = []
  | [], _ => rfl
  | r :: rs, h => by
    unfold best at h
    cases hb : best net goal rs with
    | none => rw [hb] at h; exact absurd h (by simp)
    | some b =>
      rw [hb] at h
      dsimp only at h
      by_cases hc : b.before net goal r = true
      · rw [if_pos hc] at h; exact absurd h (by simp)
      · rw [if_neg hc] at h; exact absurd h (by simp)

theorem best_isBest (net : Network) (goal : Pos) :
    ∀ (opened : List Record) (cur : Record), best net goal opened = some cur →
      IsBest net goal opened cur
  | [], cur, h => by simp [best] at h
  | r :: rs, cur, h => by
    unfold best at h
    have hrefl : ∀ x : Record, x.before net goal x = false := fun x => by
      rw [before_eq_false_iff]
    cases hb : best net goal rs with
    | none =>
      rw [hb] at h
      have hrs := best_eq_none net goal rs hb
      have hcur : r = cur := Option.some.inj h
      subst hcur
      subst hrs
      refine ⟨List.mem_cons_self _ _, fun x hx => ?_⟩
      rw [List.mem_singleton] at hx
      rw [hx]
      exact hrefl r
    | some b =>
      rw [hb] at h
      dsimp only at h
      have ih := best_isBest net goal rs b hb
      by_cases hc : b.before net goal r = true
      · rw [if_pos hc] at h
        have hcur : b = cur := Option.some.inj h
        subst hcur
        refine ⟨List.mem_cons_of_mem _ ih.1, fun x hx => ?_⟩
        rcases List.mem_cons.1 hx with rfl | hx
        · rw [before_iff] at hc
          rw [before_eq_false_iff]
          exact le_of_lt hc
        · exact ih.2 x hx
      · rw [if_neg hc] at h
        have hcur : r = cur := Option.some.inj h
        subst hcur
        refine ⟨List.mem_cons_self _ _, fun x hx => ?_⟩
        rcases List.mem_cons.1 hx with rfl | hx
        · exact hrefl _
        · have h1 := ih.2 x hx
          rw [Bool.not_eq_true] at hc
          rw [before_eq_false_iff] at h1 hc ⊢
          exact le_trans hc h1

end rf

namespace rf

theorem findNode_some (net : Network) (v : ℤ) (n : Node) (h : net.findNode v = some n) :
    n.id = v ∧ n ∈ net.nodes := by
  unfold Network.findNode at h
  exact ⟨by simpa using List.find?_some h, List.mem_of_find?_eq_some h⟩

theorem relax_closed (net : Network) (altitude : ℤ) (cur : Record) (st : SearchState)
    (e : Edge) : (relax net altitude cur st e).closed = st.closed := by
  unfold relax
  split
  · rfl
  · split
    · split
      · rfl
      · split
        · rfl
        · dsimp only
          split
          · rfl
          · split <;> rfl
    · rfl

theorem relax_valid (net : Network) (altitude : ℤ) (cur : Record) (st : SearchState)
    (e : Edge) (he : e ∈ net.edges) (hcur : cur.PathOk net) (hv : st.Valid net) :
    (relax net altitude cur st e).Valid net := by
  unfold relax
  split
  · exact hv
  · rename_i v hveq
    split
    · split
      · exact hv
      · rename_i n hn
        obtain ⟨hnid, hnmem⟩ := findNode_some net v n hn
        split
        · exact hv
        · rename_i hvc
          have hcand : Record.PathOk net
              ⟨n, cur.cost + e.cost, ⟨⟨n.id, n.type⟩, e.airwayId⟩ :: cur.path⟩ := by
            refine ⟨rfl, ?_⟩
            rw [List.chain'_cons']
            refine ⟨fun y hy => ?_, hcur.2⟩
            have hy' : y.ref.id = cur.node.id := by
              have h1 := hcur.1
              rw [Option.mem_def] at hy
              rw [hy] at h1
              exact Option.some.inj h1
            refine ⟨e, he, rfl, ?_⟩
            rw [hy']
            show (e.fromId = cur.node.id ∧ e.toId = n.id ∧ _) ∨ (e.toId = cur.node.id ∧ e.fromId = n.id ∧ _)
            rw [hnid]
            exact target_permitted e cur.node.id v hveq
          have hknown : n.id ∈ net.nodes.map (fun n => n.id) := List.mem_map_of_mem _ hnmem
          dsimp only
          split
          · rename_i hfind
            have hnot : ∀ r ∈ st.opened, r.node.id ≠ v := fun r hr => by
              have := List.find?_eq_none.1 hfind r hr
              simpa using this
            refine ⟨?_, ?_, ?_, hv.closed_nodup, hv.closed_known, ?_⟩
            · rw [List.map_append, List.map_singleton]
              refine List.Nodup.append hv.opened_nodup (List.nodup_singleton _) ?_
              rw [List.disjoint_singleton]
              intro hm
              obtain ⟨r, hr, hrid⟩ := List.mem_map.1 hm
              exact hnot r hr (hrid.trans hnid)
            · intro r hr
              rcases List.mem_append.1 hr with hr | hr
              · exact hv.opened_not_closed r hr
              · rw [List.mem_singleton] at hr
                rw [hr]
                show n.id ∉ st.closed
                rw [hnid]
                exact hvc
            · intro r hr
              rcases List.mem_append.1 hr with hr | hr
              · exact hv.opened_known r hr
              · rw [List.mem_singleton] at hr
                rw [hr]
                exact hknown
            · intro r hr
              rcases List.mem_append.1 hr with hr | hr
              · exact hv.opened_path r hr
              · rw [List.mem_singleton] at hr
                rw [hr]
                exact hcand
          · split
            · have hmem : ∀ r ∈ st.opened.map (fun r => if r.node.id = v then
                  (⟨n, cur.cost + e.cost, ⟨⟨n.id, n.type⟩, e.airwayId⟩ :: cur.path⟩ : Record)
                  else r),
                  r ∈ st.opened
                    ∨ r = ⟨n, cur.cost + e.cost, ⟨⟨n.id, n.type⟩, e.airwayId⟩ :: cur.path⟩ := by
                intro r hr
                obtain ⟨r0, hr0, hr0eq⟩ := List.mem_map.1 hr
                by_cases hc : r0.node.id = v
                · rw [if_pos hc] at hr0eq
                  exact Or.inr hr0eq.symm
                · rw [if_neg hc] at hr0eq
                  exact Or.inl (hr0eq ▸ hr0)
              refine ⟨?_, ?_, ?_, hv.closed_nodup, hv.closed_known, ?_⟩
              · have hids : (st.opened.map (fun r => if r.node.id = v then
                    (⟨n, cur.cost + e.cost, ⟨⟨n.id, n.type⟩, e.airwayId⟩ :: cur.path⟩ : Record)
                    else r)).map (fun r => r.node.id)
                    = st.opened.map (fun r => r.node.id) := by
                  rw [List.map_map]
                  refine List.map_congr_left (fun r _ => ?_)
                  show (if r.node.id = v then _ else r).node.id = r.node.id
                  by_cases hc : r.node.id = v
                  · rw [if_pos hc]
                    exact hnid.trans hc.symm
                  · rw [if_neg hc]
                show ((st.opened.map _).map _).Nodup
                rw [hids]
                exact hv.opened_nodup
              · intro r hr
                rcases hmem r hr with hr | hr
                · exact hv.opened_not_closed r hr
                · rw [hr]
                  show n.id ∉ st.closed
                  rw [hnid]
                  exact hvc
              · intro r hr
                rcases hmem r hr with hr | hr
                · exact hv.opened_known r hr
                · rw [hr]
                  exact hknown
              · intro r hr
                rcases hmem r hr with hr | hr
                · exact hv.opened_path r hr
                · rw [hr]
                  exact hcand
            · exact hv
    · exact hv

theorem foldl_relax_valid (net : Network) (altitude : ℤ) (cur : Record)
    (hcur : cur.PathOk net) :
    ∀ (l : List Edge) (st : SearchState), (∀ e ∈ l, e ∈ net.edges) → st.Valid net →
      (l.foldl (relax net altitude cur) st).Valid net
  | [], _, _, hv => hv
  | e :: l, st, hl, hv =>
    foldl_relax_valid net altitude cur hcur l _
      (fun x hx => hl x (List.mem_cons_of_mem _ hx))
      (relax_valid net altitude cur st e (hl e (List.mem_cons_self _ _)) hcur hv)

theorem foldl_relax_closed (net : Network) (altitude : ℤ) (cur : Record) :
    ∀ (l : List Edge) (st : SearchState),
      (l.foldl (relax net altitude cur) st).closed = st.closed
  | [], _ => rfl
  | e :: l, st => by
    rw [List.foldl_cons, foldl_relax_closed net altitude cur l, relax_closed]

theorem expand_closed (net : Network) (altitude : ℤ) (st : SearchState) (cur : Record) :
    (expand net altitude st cur).closed = cur.node.id :: st.closed := by
  unfold expand
  rw [foldl_relax_closed]

theorem expand_valid (net : Network) (altitude : ℤ) (st : SearchState) (cur : Record)
    (hv : st.Valid net) (hcur : cur ∈ st.opened) : (expand net altitude st cur).Valid net := by
  unfold expand
  refine foldl_relax_valid net altitude cur (hv.opened_path cur hcur) _ _ (fun _ h => h) ?_
  have hsub : ∀ r ∈ st.opened.filter (fun r => decide (r.node.id ≠ cur.node.id)),
      r ∈ st.opened ∧ r.node.id ≠ cur.node.id := fun r hr => by
    have := List.mem_filter.1 hr
    exact ⟨this.1, by simpa using this.2⟩
  refine ⟨?_, ?_, ?_, ?_, ?_, ?_⟩
  · exact hv.opened_nodup.sublist ((List.filter_sublist _).map _)
  · intro r hr
    obtain ⟨h1, h2⟩ := hsub r hr
    show r.node.id ∉ cur.node.id :: st.closed
    rw [List.mem_cons]
    rintro (h | h)
    · exact h2 h
    · exact hv.opened_not_closed r h1 h
  · exact fun r hr => hv.opened_known r (hsub r hr).1
  · show (cur.node.id :: st.closed).Nodup
    exact List.nodup_cons.2 ⟨hv.opened_not_closed cur hcur, hv.closed_nodup⟩
  · intro u hu
    rcases List.mem_cons.1 hu with rfl | hu
    · exact hv.opened_known cur hcur
    · exact hv.closed_known u hu
  · exact fun r hr => hv.opened_path r (hsub r hr).1

theorem closed_length_le (net : Network) (st : SearchState) (hv : st.Valid net) :
    st.closed.length ≤ net.nodes.length := by
  have h := (List.subperm_of_subset hv.closed_nodup hv.closed_known).length_le
  rwa [List.length_map] at h

end rf

namespace rf

theorem search_unique (net : Network) (goal : Node) (altitude : ℤ) (st : SearchState)
    (r₁ r₂ : Bool × List RouteEntry) (hv : st.Valid net)
    (h₁ : Search net goal altitude st r₁) (h₂ : Search net goal altitude st r₂) : r₁ = r₂ := by
  induction h₁ with
  | notFound st he =>
    cases h₂ with
    | notFound _ _ => rfl
    | found _ cur hb _ => rw [he] at hb; exact absurd hb.1 (List.not_mem_nil _)
    | expand _ cur _ hb _ _ => rw [he] at hb; exact absurd hb.1 (List.not_mem_nil _)
  | found st cur hb hg =>
    cases h₂ with
    | notFound _ he => rw [he] at hb; exact absurd hb.1 (List.not_mem_nil _)
    | found _ cur2 hb2 _ =>
      rw [isBest_unique net goal.position st.opened cur cur2 hv.opened_nodup hb hb2]
    | expand _ cur2 _ hb2 hg2 _ =>
      rw [isBest_unique net goal.position st.opened cur cur2 hv.opened_nodup hb hb2] at hg
      exact absurd hg hg2
  | expand st cur res hb hg _ ih =>
    cases h₂ with
    | notFound _ he => rw [he] at hb; exact absurd hb.1 (List.not_mem_nil _)
    | found _ cur2 hb2 hg2 =>
      rw [isBest_unique net goal.position st.opened cur cur2 hv.opened_nodup hb hb2] at hg
      exact absurd hg2 hg
    | expand _ cur2 _ hb2 _ hs2 =>
      rw [← isBest_unique net goal.position st.opened cur cur2 hv.opened_nodup hb hb2] at hs2
      exact ih (expand_valid net altitude st cur hv hb.1) hs2

theorem search_permitted (net : Network) (goal : Node) (altitude : ℤ) (st : SearchState)
    (res : Bool × List RouteEntry) (hv : st.Valid net)
    (h : Search net goal altitude st res) : res.2.Chain' (PermittedStep net) := by
  induction h with
  | notFound st _ => exact List.chain'_nil
  | found st cur hb _ =>
    show cur.path.reverse.Chain' (PermittedStep net)
    rw [List.chain'_reverse]
    exact (hv.opened_path cur hb.1).2
  | expand st cur res hb _ _ ih => exact ih (expand_valid net altitude st cur hv hb.1)

theorem searchLoop_search (net : Network) (goal : Node) (altitude : ℤ) :
    ∀ (fuel : ℕ) (st : SearchState), st.Valid net → net.nodes.length < st.closed.length + fuel →
      ∃ res, searchLoop net goal altitude fuel st = some res ∧ Search net goal altitude st res
  | 0, st, hv, hf => by
    have := closed_length_le net st hv
    omega
  | fuel + 1, st, hv, hf => by
    unfold searchLoop
    cases hb : best net goal.position st.opened with
    | none =>
      exact ⟨(false, []), rfl, Search.notFound st (best_eq_none net goal.position _ hb)⟩
    | some cur =>
      have hbest := best_isBest net goal.position st.opened cur hb
      dsimp only
      by_cases hg : cur.node.id = goal.id
      · rw [if_pos hg]
        exact ⟨_, rfl, Search.found st cur hbest hg⟩
      · rw [if_neg hg]
        obtain ⟨res, hres, hs⟩ := searchLoop_search net goal altitude fuel
          (expand net altitude st cur) (expand_valid net altitude st cur hv hbest.1)
          (by rw [expand_closed, List.length_cons]; omega)
        exact ⟨res, hres, Search.expand st cur res hbest hg hs⟩

theorem nearestNode_mem (net : Network) (pos : Pos) (n : Node)
    (h : net.nearestNode pos = some n) : n ∈ net.nodes := by
  unfold Network.nearestNode at h
  have key : ∀ (l : List Node) (acc : Option Node),
      l.foldl (fun acc n =>
        match acc with
        | none => some n
        | some b => if net.nearer pos n b then some n else some b) acc = some n →
      n ∈ l ∨ acc = some n := by
    intro l
    induction l with
    | nil => intro acc h; exact Or.inr h
    | cons x xs ih =>
      intro acc h
      rw [List.foldl_cons] at h
      rcases ih _ h with h1 | h1
      · exact Or.inl (List.mem_cons_of_mem _ h1)
      · cases acc with
        | none =>
          dsimp only at h1
          exact Or.inl (by rw [← Option.some.inj h1]; exact List.mem_cons_self _ _)
        | some b =>
          dsimp only at h1
          by_cases hc : net.nearer pos x b = true
          · rw [if_pos hc] at h1
            exact Or.inl (by rw [← Option.some.inj h1]; exact List.mem_cons_self _ _)
          · rw [if_neg hc] at h1
            exact Or.inr h1
  rcases key _ _ h with h1 | h1
  · exact h1
  · exact absurd h1 (by simp)

theorem initial_valid (net : Network) (start : Node) (h : start ∈ net.nodes) :
    (SearchState.initial start).Valid net := by
  unfold SearchState.initial
  refine ⟨List.nodup_singleton _, fun r _ => List.not_mem_nil _, ?_, List.nodup_nil,
    fun u hu => absurd hu (List.not_mem_nil _), ?_⟩
  · intro r hr
    rw [List.mem_singleton] at hr
    rw [hr]
    exact List.mem_map_of_mem _ h
  · intro r hr
    rw [List.mem_singleton] at hr
    rw [hr]
    exact ⟨rfl, List.chain'_singleton _⟩

theorem calculateRoute_route (net : Network) (startPos endPos : Pos) (altitude : ℤ) :
    ∃ res, RouteFinder.calculateRoute net startPos endPos altitude = some res
      ∧ Route net startPos endPos altitude res := by
  unfold RouteFinder.calculateRoute Route
  cases hs : net.nearestNode startPos with
  | none => exact ⟨(false, []), rfl, rfl⟩
  | some start =>
    cases hg : net.nearestNode endPos with
    | none => exact ⟨(false, []), rfl, rfl⟩
    | some goal =>
      exact searchLoop_search net goal altitude _ _
        (initial_valid net start (nearestNode_mem net startPos start hs))
        (by omega)

theorem route_unique (net : Network) (startPos endPos : Pos) (altitude : ℤ)
    (r₁ r₂ : Bool × List RouteEntry) (h₁ : Route net startPos endPos altitude r₁)
    (h₂ : Route net startPos endPos altitude r₂) : r₁ = r₂ := by
  unfold Route at h₁ h₂
  cases hs : net.nearestNode startPos with
  | none =>
    rw [hs] at h₁ h₂
    exact h₁.trans h₂.symm
  | some start =>
    cases hg : net.nearestNode endPos with
    | none =>
      rw [hs, hg] at h₁ h₂
      exact h₁.trans h₂.symm
    | some goal =>
      rw [hs, hg] at h₁ h₂
      exact search_unique net goal altitude _ r₁ r₂
        (initial_valid net start (nearestNode_mem net startPos start hs))
        h₁ h₂

theorem route_permitted (net : Network) (startPos endPos : Pos) (altitude : ℤ)
    (res : Bool × List RouteEntry) (h : Route net startPos endPos altitude res) :
    res.2.Chain' (PermittedStep net) := by
  unfold Route at h
  cases hs : net.nearestNode startPos with
  | none =>
    rw [hs] at h
    rw [h]
    exact List.chain'_nil
  | some start =>
    cases hg : net.nearestNode endPos with
    | none =>
      rw [hs, hg] at h
      rw [h]
      exact List.chain'_nil
    | some goal =>
      rw [hs, hg] at h
      exact search_permitted net goal altitude _ res
        (initial_valid net start (nearestNode_mem net startPos start hs)) h

end rf

namespace MapTypesFactory

/-- The direction that `fillAirwayOrTrack` gives to a track and to an airway with a direction
column. -/
theorem fillAirwayOrTrack_direction (record : atools.SqlRecord) (airway : map.MapAirway) :
    (fillAirwayOrTrack record airway true).direction = map.MapAirwayDirection.DIR_FORWARD
      ∧ (record.contains "direction" = true →
        (fillAirwayOrTrack record airway false).direction
          = if atools.strToChar (record.valueStr "direction") = 'F' then
              map.MapAirwayDirection.DIR_FORWARD
            else if atools.strToChar (record.valueStr "direction") = 'B' then
              map.MapAirwayDirection.DIR_BACKWARD
            else map.MapAirwayDirection.DIR_BOTH)
      ∧ (record.contains "direction" = false →
        (fillAirwayOrTrack record airway false).direction = airway.direction) := by
  refine ⟨rfl, fun h => ?_, fun h => ?_⟩
  · unfold fillAirwayOrTrack
    simp only [Bool.false_eq_true, if_false, h, if_true]
    split_ifs <;> rfl
  · unfold fillAirwayOrTrack
    simp only [Bool.false_eq_true, if_false, h]

end MapTypesFactory

namespace RouteFinder

theorem calculateRoute_sample :
    calculateRoute Sample.network ⟨2, 0, 0⟩ ⟨1, 0, 0⟩ 0 = some (true, Sample.routeEntries) := by
  unfold calculateRoute
  norm_num [rf.Network.nearestNode, Sample.network, rf.Network.nearer, rf.searchLoop, rf.best,
    rf.Record.before, rf.Record.estimate, rf.expand, rf.relax, rf.Edge.target,
    rf.Edge.altitudeOk, rf.Network.findNode, rf.SearchState.initial, rf.Edge.ofAirway,
    MapTypesFactory.fillAirwayOrTrack, Sample.airwayRecord, Sample.blankAirway,
    atools.strToChar, Sample.routeEntries]

/-- C11: for a network snapshot, two positions and an altitude, `calculateRoute` returns a
result, this result is a result of a search that expands the open nodes in the order of the
specification (estimate, then accumulated cost, then node id), and any two results of such
searches have the same found flag and the same sequence of route entries. -/
theorem calculateRoute_deterministic (net : rf.Network) (startPos endPos : Pos)
    (altitude : ℤ) :
    (∃ res, calculateRoute net startPos endPos altitude = some res
        ∧ rf.Route net startPos endPos altitude res)
      ∧ ∀ r₁ r₂ : Bool × List rf.RouteEntry, rf.Route net startPos endPos altitude r₁ →
          rf.Route net startPos endPos altitude r₂ → r₁.1 = r₂.1 ∧ r₁.2 = r₂.2 := by
  refine ⟨rf.calculateRoute_route net startPos endPos altitude, fun r₁ r₂ h₁ h₂ => ?_⟩
  rw [rf.route_unique net startPos endPos altitude r₁ r₂ h₁ h₂]
  exact ⟨rfl, rfl⟩

theorem calculateRoute_deterministic_witness :
    calculateRoute Sample.network ⟨2, 0, 0⟩ ⟨1, 0, 0⟩ 0 = some (true, Sample.routeEntries)
      ∧ ∀ r : Bool × List rf.RouteEntry, rf.Route Sample.network ⟨2, 0, 0⟩ ⟨1, 0, 0⟩ 0 r →
          r.1 = true ∧ r.2 = Sample.routeEntries := by
  obtain ⟨⟨res, h1, h2⟩, h3⟩ := calculateRoute_deterministic Sample.network ⟨2, 0, 0⟩ ⟨1, 0, 0⟩ 0
  have hres : res = (true, Sample.routeEntries) :=
    Option.some.inj (h1.symm.trans calculateRoute_sample)
  rw [hres] at h2
  exact ⟨calculateRoute_sample, fun r hr => h3 r _ hr h2⟩

/-- C12: every two consecutive route entries of a path returned by `calculateRoute` are joined
by an edge of the network that carries the airway of the second entry and that is traversed
in a direction it permits: not from its second to its first node if it is forward only, and
not from its first to its second node if it is backward only. -/
theorem calculateRoute_respects_direction (net : rf.Network) (startPos endPos : Pos)
    (altitude : ℤ) (found : Bool) (entries : List rf.RouteEntry)
    (h : calculateRoute net startPos endPos altitude = some (found, entries)) :
    entries.Chain' (rf.PermittedStep net) := by
  obtain ⟨res, h1, h2⟩ := rf.calculateRoute_route net startPos endPos altitude
  have hres : res = (found, entries) := Option.some.inj (h1.symm.trans h)
  rw [hres] at h2
  exact rf.route_permitted net startPos endPos altitude _ h2

theorem calculateRoute_respects_direction_witness :
    calculateRoute Sample.network ⟨2, 0, 0⟩ ⟨1, 0, 0⟩ 0 = some (true, Sample.routeEntries)
      ∧ Sample.routeEntries.Chain' (rf.PermittedStep Sample.network) :=
  ⟨calculateRoute_sample,
    calculateRoute_respects_direction Sample.network ⟨2, 0, 0⟩ ⟨1, 0, 0⟩ 0 true
      Sample.routeEntries calculateRoute_sample⟩

end RouteFinder
